import Mathlib

/-!
# Blog API: authorization and cache consistency

A shallow embedding of the blog API's services
(`src/services/post.service.js`, `src/services/comment.service.js`,
`src/services/auth.service.js`, `src/config/jwt.js`,
`src/middlewares/auth.middleware.js`, `src/middlewares/error.middleware.js`,
`src/utils/apiResponse.js`) together with the two external collaborators they
talk to: the relational store (Prisma) and the key-value cache (Redis).

Conventions of the embedding.

* An `async` function of the source becomes a function from the state of the
  world (store and cache) to a result and the state after the call.  A thrown
  error is `Except.error`; the state is returned in both cases, because a
  function of the source can throw after it has written.
* Ids arrive from `req.params` as text; `parseInt` is embedded on text.
* The store is a set of in-memory tables with the operations the services call.
  The store's client rejects an id that is `NaN` with a validation error.
  Constraint checking by the database engine is outside the model.
* The token library `jsonwebtoken` is modelled by the checks it documents, over
  an abstract encoding of tokens; a readable encoding makes the examples
  computable.
* The cache is an association list from keys to cached text, with one flag per
  command saying whether the backend raises on it.  Expiry (TTL) is not
  modelled: two consecutive calls happen well inside the 60 seconds.
-/

namespace BlogApi

/-! ## JavaScript values and errors -/

/-- A JavaScript `Error` object with the fields the program reads or sets:
`name`, `message`, `statusCode` (set by the services) and `code` (set by the
store's client). -/
structure JsError where
  name : String := "Error"
  message : String
  statusCode : Option Nat := none
  code : Option String := none
deriving DecidableEq, Repr

deriving instance DecidableEq for Except

/-- The white space `parseInt` skips before the number
(`StrWhiteSpaceChar` of the language standard). -/
def isJsWhiteSpace (c : Char) : Bool :=
  let n := c.toNat
  n == 9 || n == 10 || n == 11 || n == 12 || n == 13 || n == 32 || n == 160 ||
  n == 5760 || (8192 ≤ n && n ≤ 8202) || n == 8232 || n == 8233 || n == 8239 ||
  n == 8287 || n == 12288 || n == 65279

/-- The value of a character as a digit in base `radix`, if it is one. -/
def digitValue (radix : Nat) (c : Char) : Option Nat :=
  let n := c.toNat
  let v : Option Nat :=
    if 48 ≤ n ∧ n ≤ 57 then some (n - 48)
    else if 97 ≤ n ∧ n ≤ 122 then some (n - 87)
    else if 65 ≤ n ∧ n ≤ 90 then some (n - 55)
    else none
  match v with
  | some d => if d < radix then some d else none
  | none => none

/-- Reads the longest prefix of digits in base `radix`, accumulating on `acc`;
`seen` records whether a digit has been read. Gives `none` when there is no
digit at all. -/
def parseDigits (radix : Nat) : List Char → Nat → Bool → Option Nat
  | [], acc, seen => if seen then some acc else none
  | c :: cs, acc, seen =>
    match digitValue radix c with
    | some d => parseDigits radix cs (acc * radix + d) true
    | none => if seen then some acc else none

/-- The sign and radix prefix handling of `parseInt` with no radix argument,
on text whose leading white space has been removed. -/
def parseIntCore : List Char → Option Int
  | '-' :: '0' :: 'x' :: cs => (parseDigits 16 cs 0 false).map (fun n => - (n : Int))
  | '-' :: '0' :: 'X' :: cs => (parseDigits 16 cs 0 false).map (fun n => - (n : Int))
  | '+' :: '0' :: 'x' :: cs => (parseDigits 16 cs 0 false).map (fun n => (n : Int))
  | '+' :: '0' :: 'X' :: cs => (parseDigits 16 cs 0 false).map (fun n => (n : Int))
  | '0' :: 'x' :: cs => (parseDigits 16 cs 0 false).map (fun n => (n : Int))
  | '0' :: 'X' :: cs => (parseDigits 16 cs 0 false).map (fun n => (n : Int))
  | '-' :: cs => (parseDigits 10 cs 0 false).map (fun n => - (n : Int))
  | '+' :: cs => (parseDigits 10 cs 0 false).map (fun n => (n : Int))
  | cs => (parseDigits 10 cs 0 false).map (fun n => (n : Int))

/-- The global `parseInt(text)` of JavaScript, called without a radix:
skip leading white space, read a sign, read `0x` as base sixteen, and
read the longest run of digits. `none` is `NaN`. The result is kept as an exact
integer (the rounding of values beyond 2^53 is not represented). -/
def parseInt (s : String) : Option Int :=
  parseIntCore (s.toList.dropWhile isJsWhiteSpace)

/-! ## The data model -/

/-- Modelled from the spec: the `User` record of the relational schema
(`prisma/schema.prisma` is not part of the sources). `password` holds the hash. -/
structure User where
  id : Int
  name : String
  email : String
  password : String
  createdAt : Nat
  updatedAt : Nat
deriving DecidableEq, Repr

/-- Modelled from the spec: the `Post` record of the relational schema.
Times are instants of the store's clock. -/
structure Post where
  id : Int
  title : String
  content : String
  published : Bool
  authorId : Int
  createdAt : Nat
  updatedAt : Nat
deriving DecidableEq, Repr

/-- Modelled from the spec: the `Comment` record of the relational schema. -/
structure Comment where
  id : Int
  content : String
  postId : Int
  authorId : Int
  createdAt : Nat
  updatedAt : Nat
deriving DecidableEq, Repr

/-- The projection `author: { select: { id, name, email } }`. -/
structure AuthorView where
  id : Int
  name : String
  email : String
deriving DecidableEq, Repr

/-- The projection `post: { select: { id, title } }`. -/
structure PostRef where
  id : Int
  title : String
deriving DecidableEq, Repr

/-- A post joined with its author, as `include: { author }` returns it. The
author is absent only when the row's `authorId` refers to no user. -/
structure PostWithAuthor where
  post : Post
  author : Option AuthorView
deriving DecidableEq, Repr

/-- A comment joined with its author. -/
structure CommentWithAuthor where
  comment : Comment
  author : Option AuthorView
deriving DecidableEq, Repr

/-- A comment joined with its author and its post, as `createComment`,
`getCommentById` and `updateComment` return it. -/
structure CommentFull where
  comment : Comment
  author : Option AuthorView
  post : Option PostRef
deriving DecidableEq, Repr

/-- What `getPostById` loads: the post, its author, and its comments (each with
its author), newest comment first. -/
structure PostDetail where
  post : Post
  author : Option AuthorView
  comments : List CommentWithAuthor
deriving DecidableEq, Repr

/-- An element of the list `getAllPosts` loads: the post, its author and
`_count.comments`. -/
structure PostListItem where
  post : Post
  author : Option AuthorView
  commentCount : Nat
deriving DecidableEq, Repr

/-- The `pagination` object of `getAllPosts`. `currentPage` is
`parseInt(page)` (`none` is `NaN`); `totalPages` is
`Math.ceil(totalCount / take)`, which is not a finite number when `take` is 0
(`none`). -/
structure Pagination where
  currentPage : Option Int
  totalPages : Option Int
  totalItems : Nat
  itemsPerPage : Int
deriving DecidableEq, Repr

/-- The object `getAllPosts` returns. -/
structure ListResult where
  posts : List PostListItem
  pagination : Pagination
deriving DecidableEq, Repr

/-- The payload of an update of a post: the scalar fields of `Post` a request
body can carry; an absent field is left alone by the store. -/
structure PostUpdate where
  title : Option String := none
  content : Option String := none
  published : Option Bool := none
  authorId : Option Int := none
deriving DecidableEq, Repr

/-- The payload of an update of a comment. -/
structure CommentUpdate where
  content : Option String := none
  postId : Option Int := none
  authorId : Option Int := none
deriving DecidableEq, Repr

/-! ## The relational store -/

/-- The state of the authoritative store: the three tables, the next value of
each table's id sequence, and the store's clock. -/
structure Store where
  users : List User := []
  posts : List Post := []
  comments : List Comment := []
  nextUserId : Int := 1
  nextPostId : Int := 1
  nextCommentId : Int := 1
  clock : Nat := 0
deriving DecidableEq, Repr

/-- The join with the `User` table under `select: { id, name, email }`. -/
def Store.authorOf (st : Store) (authorId : Int) : Option AuthorView :=
  (st.users.find? (fun u => u.id == authorId)).map
    (fun u => { id := u.id, name := u.name, email := u.email })

/-- The join with the `Post` table under `select: { id, title }`. -/
def Store.postRefOf (st : Store) (postId : Int) : Option PostRef :=
  (st.posts.find? (fun p => p.id == postId)).map
    (fun p => { id := p.id, title := p.title })

/-- The row of the `Post` table with the id `n`, if there is one. -/
def Store.postById (st : Store) (n : Int) : Option Post :=
  st.posts.find? (fun p => p.id == n)

/-- The row of the `Comment` table with the id `n`, if there is one. -/
def Store.commentById (st : Store) (n : Int) : Option Comment :=
  st.comments.find? (fun c => c.id == n)

/-- The error of the store's client when an argument of a query is not
well-formed (a `NaN` where an integer is expected, a negative `skip`). -/
def queryValidationError : JsError :=
  { name := "PrismaClientValidationError"
    message := "Invalid query arguments" }

/-- The call `prisma.post.findUnique({ where: { id } })`. The id is the result of
`parseInt`: for `NaN` the client throws its validation error, for an integer it
answers with the row of that id or with `null`. -/
def Store.findPost (st : Store) (id : Option Int) : Except JsError (Option Post) :=
  match id with
  | none => .error queryValidationError
  | some n => .ok (st.postById n)

/-- The call `prisma.comment.findUnique({ where: { id } })`. -/
def Store.findComment (st : Store) (id : Option Int) : Except JsError (Option Comment) :=
  match id with
  | none => .error queryValidationError
  | some n => .ok (st.commentById n)

/-- The effect of an update payload on one post row; `updatedAt` takes the
time of the write. -/
def PostUpdate.apply (d : PostUpdate) (now : Nat) (p : Post) : Post :=
  { p with
    title := d.title.getD p.title
    content := d.content.getD p.content
    published := d.published.getD p.published
    authorId := d.authorId.getD p.authorId
    updatedAt := now }

/-- The effect of an update payload on one comment row. -/
def CommentUpdate.apply (d : CommentUpdate) (now : Nat) (c : Comment) : Comment :=
  { c with
    content := d.content.getD c.content
    postId := d.postId.getD c.postId
    authorId := d.authorId.getD c.authorId
    updatedAt := now }

/-- The error of the store's client when the row of an update or delete does
not exist (code `P2025`). -/
def recordNotFound : JsError :=
  { name := "PrismaClientKnownRequestError"
    message := "Record to update not found."
    code := some "P2025" }

/-- The call `prisma.post.update({ where: { id }, data, include: { author } })`:
writes the fields of `data` to the row with that id and returns the row after
the write, joined with its author; throws `P2025` when there is no such row,
and the validation error when the id is `NaN`. -/
def Store.updatePost (st : Store) (id : Option Int) (data : PostUpdate) :
    Except JsError (PostWithAuthor × Store) :=
  match st.findPost id with
  | .error e => .error e
  | .ok none => .error recordNotFound
  | .ok (some p) =>
    let p' := data.apply st.clock p
    let st' : Store :=
      { st with
        posts := st.posts.map (fun q => if q.id == p.id then data.apply st.clock q else q)
        clock := st.clock + 1 }
    .ok ({ post := p', author := st'.authorOf p'.authorId }, st')

/-- The call `prisma.post.delete({ where: { id } })`: removes the row and
returns it; the comments of the post go with it (cascade); throws `P2025` when
there is no such row. -/
def Store.deletePost (st : Store) (id : Option Int) : Except JsError (Post × Store) :=
  match st.findPost id with
  | .error e => .error e
  | .ok none => .error recordNotFound
  | .ok (some p) =>
    .ok (p, { st with
              posts := st.posts.filter (fun q => !(q.id == p.id))
              comments := st.comments.filter (fun c => !(c.postId == p.id))
              clock := st.clock + 1 })

/-- The call
`prisma.comment.update({ where: { id }, data, include: { author, post } })`. -/
def Store.updateComment (st : Store) (id : Option Int) (data : CommentUpdate) :
    Except JsError (CommentFull × Store) :=
  match st.findComment id with
  | .error e => .error e
  | .ok none => .error recordNotFound
  | .ok (some c) =>
    let c' := data.apply st.clock c
    let st' : Store :=
      { st with
        comments := st.comments.map (fun q => if q.id == c.id then data.apply st.clock q else q)
        clock := st.clock + 1 }
    .ok ({ comment := c', author := st'.authorOf c'.authorId,
           post := st'.postRefOf c'.postId }, st')

/-- The call `prisma.comment.delete({ where: { id } })`. -/
def Store.deleteComment (st : Store) (id : Option Int) : Except JsError (Comment × Store) :=
  match st.findComment id with
  | .error e => .error e
  | .ok none => .error recordNotFound
  | .ok (some c) =>
    .ok (c, { st with
              comments := st.comments.filter (fun q => !(q.id == c.id))
              clock := st.clock + 1 })

/-! ## The cache -/

/-- What `JSON.parse` makes of a cached text. The values the program itself
writes are post details and list results; any other well-formed JSON text is
kept as it is. -/
inductive JsonValue where
  | postDetail (d : PostDetail)
  | postList (r : ListResult)
  | other (text : String)
deriving DecidableEq, Repr

/-- A text held by the cache under a key, seen through what the readers do with
it: the empty text (which `if (cached)` takes for a miss), a text `JSON.parse`
throws on, or the serialisation of a value. -/
inductive CacheText where
  | empty
  | unparsable (text : String)
  | json (v : JsonValue)
deriving DecidableEq, Repr

/-- The serialisation `JSON.stringify(value)` of a value the program caches. -/
def jsonStringify (v : JsonValue) : CacheText := .json v

/-- The parser `JSON.parse(text)`: throws a `SyntaxError` on text that is not
JSON (the empty text included). -/
def jsonParse : CacheText → Except JsError JsonValue
  | .json v => .ok v
  | .empty => .error { name := "SyntaxError", message := "Unexpected end of JSON input" }
  | .unparsable _ => .error { name := "SyntaxError", message := "Unexpected token in JSON" }

/-- The truthiness test `if (cached)` on the reply of `redis.get`: `null` and the
empty text are falsy. -/
def truthy : Option CacheText → Bool
  | none => false
  | some .empty => false
  | some _ => true

/-- The state of the cache backend: the entries, and for each command the
program sends whether the backend raises on it. -/
structure Redis where
  entries : List (String × CacheText) := []
  getFails : Bool := false
  setexFails : Bool := false
  keysFails : Bool := false
  delFails : Bool := false
deriving DecidableEq, Repr

/-- The backend answers every command. -/
def Redis.Works (r : Redis) : Prop :=
  r.getFails = false ∧ r.setexFails = false ∧ r.keysFails = false ∧ r.delFails = false

instance (r : Redis) : Decidable r.Works := by
  unfold Redis.Works; exact inferInstance

/-- The error the cache client rejects a command with when the backend is
unreachable. -/
def redisError : JsError :=
  { name := "MaxRetriesPerRequestError"
    message := "Reached the max retries per request limit" }

/-- The command `redis.get(key)`: the text under the key, or `null`. -/
def Redis.get (r : Redis) (key : String) : Except JsError (Option CacheText) :=
  if r.getFails then .error redisError
  else .ok ((r.entries.find? (fun e => e.1 == key)).map (fun e => e.2))

/-- The command `redis.setex(key, ttl, text)`: the key now holds the text. -/
def Redis.setex (r : Redis) (key : String) (_ttl : Nat) (text : CacheText) :
    Except JsError Redis :=
  if r.setexFails then .error redisError
  else .ok { r with entries := (key, text) :: r.entries.filter (fun e => !(e.1 == key)) }

/-- The command `redis.del(...keys)`: none of the keys holds anything
afterwards. -/
def Redis.del (r : Redis) (keys : List String) : Except JsError Redis :=
  if r.delFails then .error redisError
  else .ok { r with entries := r.entries.filter (fun e => !(keys.contains e.1)) }

/-- The text `prefix*` as a glob pattern matches exactly the keys that start
with `prefix` (for a prefix without pattern characters). -/
def hasPrefix (pre key : String) : Bool :=
  pre.toList.isPrefixOf key.toList

/-- The command `redis.keys(prefix + '*')`: the keys that start with the
prefix. -/
def Redis.keys (r : Redis) (pre : String) : Except JsError (List String) :=
  if r.keysFails then .error redisError
  else .ok ((r.entries.filter (fun e => hasPrefix pre e.1)).map (fun e => e.1))

/-- The state the services act on: the store and the cache. -/
structure World where
  store : Store := {}
  redis : Redis := {}
deriving DecidableEq, Repr

/-! ## Request parameters -/

/-- A value of a query parameter as the service receives it: absent, a text of
the query string, or a number or boolean given by a caller inside the
program. -/
inductive JsParam where
  | undefined
  | str (s : String)
  | num (n : Int)
  | bool (b : Bool)
deriving DecidableEq, Repr

/-- The text a template literal puts in place of a parameter. -/
def JsParam.render : JsParam → String
  | .undefined => "undefined"
  | .str s => s
  | .num n => toString n
  | .bool true => "true"
  | .bool false => "false"

/-- The default of a destructuring pattern: it replaces `undefined` only. -/
def JsParam.orDefault (x d : JsParam) : JsParam :=
  match x with
  | .undefined => d
  | y => y

/-- Reads a run of decimal digits that makes up a whole text. -/
def allDigits : List Char → Nat → Option Nat
  | [], acc => some acc
  | c :: cs, acc =>
    match digitValue 10 c with
    | some d => allDigits cs (acc * 10 + d)
    | none => none

/-- The conversion of a text to a number by the arithmetic operators: white
space around the number is dropped, the empty text is 0, a signed decimal
integer is its value. Text in any other notation (fractions, exponents, other
bases) is outside the model and read as `NaN` (`none`). -/
def stringToNumber (s : String) : Option Int :=
  let cs := ((s.toList.dropWhile isJsWhiteSpace).reverse.dropWhile isJsWhiteSpace).reverse
  match cs with
  | [] => some 0
  | ['-'] => none
  | ['+'] => none
  | '-' :: ds => (allDigits ds 0).map (fun n => - (n : Int))
  | '+' :: ds => (allDigits ds 0).map (fun n => (n : Int))
  | ds => (allDigits ds 0).map (fun n => (n : Int))

/-- The conversion `ToNumber` the operators `-` and `*` apply to a parameter. -/
def JsParam.toNumber : JsParam → Option Int
  | .undefined => none
  | .str s => stringToNumber s
  | .num n => some n
  | .bool true => some 1
  | .bool false => some 0

/-- The call `parseInt(x)` on a parameter: `parseInt` of its text; on an integer
number that is the number itself. -/
def JsParam.parseInt : JsParam → Option Int
  | .undefined => none
  | .str s => BlogApi.parseInt s
  | .num n => some n
  | .bool _ => none

/-- The truthiness of a parameter in `if (authorId)`. -/
def JsParam.truthy : JsParam → Bool
  | .undefined => false
  | .str s => !(s == "")
  | .num n => !(n == 0)
  | .bool b => b

/-- The options object of `getAllPosts` and the argument of
`getPostsListCacheKey`. -/
structure ListParams where
  page : JsParam := .undefined
  limit : JsParam := .undefined
  published : JsParam := .undefined
  authorId : JsParam := .undefined
deriving DecidableEq, Repr

/-! ## Queries of the store used by the post service -/

/-- The fields of a post to create: `published` may be absent. -/
structure PostInput where
  title : String
  content : String
  published : Option Bool := none
deriving DecidableEq, Repr

/-- The call `prisma.post.create({ data, include: { author } })`: the new row
takes the next id of the sequence and the time of the clock. -/
def Store.createPost (st : Store) (title content : String) (published : Bool)
    (authorId : Int) : PostWithAuthor × Store :=
  let p : Post :=
    { id := st.nextPostId, title := title, content := content, published := published
      authorId := authorId, createdAt := st.clock, updatedAt := st.clock }
  ({ post := p, author := st.authorOf authorId },
   { st with posts := st.posts ++ [p], nextPostId := st.nextPostId + 1, clock := st.clock + 1 })

/-- The `where` object of the list query: each filter is set or absent; the
`authorId` filter, being the result of `parseInt`, can be set to `NaN`
(`some none`). -/
structure PostWhere where
  published : Option Bool := none
  authorId : Option (Option Int) := none
deriving DecidableEq, Repr

/-- Whether a post satisfies the `where` object. -/
def PostWhere.test (wh : PostWhere) (p : Post) : Bool :=
  (match wh.published with
   | none => true
   | some b => p.published == b) &&
  (match wh.authorId with
   | none => true
   | some none => false
   | some (some a) => p.authorId == a)

/-- Whether the store accepts the `where` object: an `authorId` that is `NaN`
is not a valid argument. -/
def PostWhere.valid (wh : PostWhere) : Bool :=
  !(wh.authorId == some none)

/-- The order `orderBy: { createdAt: 'desc' }`. -/
def newerFirst (a b : Post) : Prop := b.createdAt ≤ a.createdAt

instance : DecidableRel newerFirst := fun a b => inferInstanceAs (Decidable (b.createdAt ≤ a.createdAt))

/-- The posts that satisfy the `where` object, newest first (posts created at
the same instant keep the order of the table). -/
def Store.matchingPosts (st : Store) (wh : PostWhere) : List Post :=
  (st.posts.filter wh.test).insertionSort newerFirst

/-- The call `prisma.post.count({ where })`. -/
def Store.countPosts (st : Store) (wh : PostWhere) : Except JsError Nat :=
  if wh.valid then .ok (st.posts.filter wh.test).length
  else .error queryValidationError

/-- The joins of the list query on one post: its author and the number of its
comments. -/
def Store.listItem (st : Store) (p : Post) : PostListItem :=
  { post := p
    author := st.authorOf p.authorId
    commentCount := (st.comments.filter (fun c => c.postId == p.id)).length }

/-- The call `prisma.post.findMany({ where, skip, take, orderBy, include })`.
A `where` that is not valid, a `skip` that is `NaN` or negative and a `take`
that is `NaN` are rejected; a negative `take` reads the list from its end. -/
def Store.findManyPosts (st : Store) (wh : PostWhere) (skip take : Option Int) :
    Except JsError (List PostListItem) :=
  match skip, take with
  | some sk, some tk =>
    if sk < 0 || !wh.valid then .error queryValidationError
    else
      let all := st.matchingPosts wh
      let page :=
        if 0 ≤ tk then (all.drop sk.toNat).take tk.toNat
        else ((all.reverse.drop sk.toNat).take (-tk).toNat).reverse
      .ok (page.map st.listItem)
  | _, _ => .error queryValidationError

/-- The quotient `Math.ceil(totalCount / take)`: for a positive `take` the
rounded-up quotient, for a negative one minus the rounded-down quotient of the
absolute values, and for 0 no finite number. -/
def ceilDiv (total : Nat) (take : Int) : Option Int :=
  if 0 < take then some (((total + take.toNat - 1) / take.toNat : Nat) : Int)
  else if take < 0 then some (- (((total / (-take).toNat : Nat)) : Int))
  else none

/-- The row of the `Post` table with the id `n` under
`include: { author, comments }`: the post with its author and its comments,
newest first. -/
def Store.postDetailById (st : Store) (n : Int) : Option PostDetail :=
  (st.postById n).map (fun p =>
    { post := p
      author := st.authorOf p.authorId
      comments :=
        ((st.comments.filter (fun c => c.postId == p.id)).insertionSort
            (fun a b => b.createdAt ≤ a.createdAt)).map
          (fun c => { comment := c, author := st.authorOf c.authorId }) })

/-- The call
`prisma.post.findUnique({ where: { id }, include: { author, comments } })` of
`getPostById`: the post with its author and its comments, newest first; the
validation error when the id is `NaN`. -/
def Store.findPostDetail (st : Store) (id : Option Int) : Except JsError (Option PostDetail) :=
  match id with
  | none => .error queryValidationError
  | some n => .ok (st.postDetailById n)

/-! ## `src/services/post.service.js` -/

/-- The constant `CACHE_TTL`. -/
def CACHE_TTL : Nat := 60

/-- The function `getPostsListCacheKey(params)`. -/
def getPostsListCacheKey (params : ListParams) : String :=
  let page := params.page.orDefault (.num 1)
  let limit := params.limit.orDefault (.num 10)
  "posts:list:page:" ++ page.render ++ ":limit:" ++ limit.render ++
    ":published:" ++ params.published.render ++ ":author:" ++ params.authorId.render

/-- The function `getPostCacheKey(postId)`. -/
def getPostCacheKey (postId : String) : String :=
  "post:" ++ postId

/-- The function `invalidatePostsListCache()`: the keys under `posts:list:*`
are listed and, when there are any, deleted in one command. -/
def invalidatePostsListCache (r : Redis) : Except JsError Unit × Redis :=
  match r.keys "posts:list:" with
  | .error e => (.error e, r)
  | .ok keys =>
    if keys.length > 0 then
      match r.del keys with
      | .error e => (.error e, r)
      | .ok r' => (.ok (), r')
    else (.ok (), r)

/-- The function `createPost({ title, content, published = false }, authorId)`. -/
def createPost (input : PostInput) (authorId : Int) (w : World) :
    Except JsError PostWithAuthor × World :=
  let (post, st') := w.store.createPost input.title input.content
    (input.published.getD false) authorId
  -- Invalidate list cache after creation
  match invalidatePostsListCache w.redis with
  | (.error e, r') => (.error e, { store := st', redis := r' })
  | (.ok _, r') => (.ok post, { store := st', redis := r' })

/-- The block `try { cached = await redis.get(key); if (cached) return
JSON.parse(cached) } catch {}` shared by the two readers: the value to return
at once, or `none` when the reader goes on to the store (a miss, an empty text,
a failing `get`, a text that does not parse). -/
def cacheLookup (r : Redis) (key : String) : Option JsonValue :=
  match r.get key with
  | .error _ => none
  | .ok cached =>
    if truthy cached then
      match cached with
      | some text =>
        match jsonParse text with
        | .ok v => some v
        | .error _ => none
      | none => none
    else none

/-- The block `try { await redis.setex(key, CACHE_TTL, JSON.stringify(value)) }
catch {}` shared by the two readers: a failing write leaves the cache as it
is. -/
def cacheStore (r : Redis) (key : String) (v : JsonValue) : Redis :=
  match r.setex key CACHE_TTL (jsonStringify v) with
  | .ok r' => r'
  | .error _ => r

/-- The `where` object `getAllPosts` builds: `published` is set when the
parameter is not `undefined`, to whether it is `'true'` or `true`; `authorId` is
set when the parameter is truthy, to `parseInt` of it. -/
def buildWhere (published authorId : JsParam) : PostWhere :=
  { published :=
      if published ≠ .undefined then
        some (decide (published = .str "true") || decide (published = .bool true))
      else none
    authorId := if authorId.truthy then some authorId.parseInt else none }

/-- The part of `getAllPosts` after the cache lookup (lines 90 to 137): the
page and the count are loaded from the store and composed. -/
def loadPostsPage (st : Store) (page limit published authorId : JsParam) :
    Except JsError ListResult :=
  let skip : Option Int :=
    match page.toNumber, limit.toNumber with
    | some p, some l => some ((p - 1) * l)
    | _, _ => none
  let take := limit.parseInt
  let wh := buildWhere published authorId
  match st.findManyPosts wh skip take, st.countPosts wh, take with
  | .ok posts, .ok totalCount, some tk =>
    .ok { posts := posts
          pagination :=
            { currentPage := page.parseInt
              totalPages := ceilDiv totalCount tk
              totalItems := totalCount
              itemsPerPage := tk } }
  | .error e, _, _ => .error e
  | _, .error e, _ => .error e
  | _, _, none => .error queryValidationError

/-- The function
`getAllPosts({ page = 1, limit = 10, published, authorId } = {})`. -/
def getAllPosts (params : ListParams) (w : World) : Except JsError JsonValue × World :=
  let page := params.page.orDefault (.num 1)
  let limit := params.limit.orDefault (.num 10)
  -- Generate cache key
  let cacheKey := getPostsListCacheKey
    { page := page, limit := limit, published := params.published, authorId := params.authorId }
  -- Try to get from cache
  match cacheLookup w.redis cacheKey with
  | some v => (.ok v, w)
  | none =>
    match loadPostsPage w.store page limit params.published params.authorId with
    | .error e => (.error e, w)
    | .ok result =>
      -- Cache the result
      (.ok (.postList result), { w with redis := cacheStore w.redis cacheKey (.postList result) })

/-- The error `getPostById`, `updatePost`, `deletePost` and the comment service
throw for an absent post. -/
def postNotFound : JsError :=
  { message := "Post not found", statusCode := some 404 }

/-- The function `getPostById(postId)`. -/
def getPostById (postId : String) (w : World) : Except JsError JsonValue × World :=
  -- Generate cache key
  let cacheKey := getPostCacheKey postId
  -- Try to get from cache
  match cacheLookup w.redis cacheKey with
  | some v => (.ok v, w)
  | none =>
    match w.store.findPostDetail (parseInt postId) with
    | .error e => (.error e, w)
    | .ok none => (.error postNotFound, w)
    | .ok (some post) =>
      -- Cache the result
      (.ok (.postDetail post), { w with redis := cacheStore w.redis cacheKey (.postDetail post) })

/-- The block `await Promise.all([redis.del(getPostCacheKey(postId)),
invalidatePostsListCache()])`: both invalidations are started, the deletion of
the post's key first; the block throws when one of them does, after both have
run. -/
def invalidatePostCaches (postId : String) (r : Redis) : Except JsError Unit × Redis :=
  match r.del [getPostCacheKey postId] with
  | .error e =>
    match invalidatePostsListCache r with
    | (_, r') => (.error e, r')
  | .ok r₁ =>
    match invalidatePostsListCache r₁ with
    | (.error e, r') => (.error e, r')
    | (.ok _, r') => (.ok (), r')

/-- The function `updatePost(postId, updateData, userId)`. -/
def updatePost (postId : String) (updateData : PostUpdate) (userId : Int) (w : World) :
    Except JsError PostWithAuthor × World :=
  match w.store.findPost (parseInt postId) with
  | .error e => (.error e, w)
  | .ok none => (.error postNotFound, w)
  | .ok (some post) =>
    -- Check ownership
    if post.authorId ≠ userId then
      (.error { message := "You are not authorized to update this post", statusCode := some 403 }, w)
    else
      match w.store.updatePost (parseInt postId) updateData with
      | .error e => (.error e, w)
      | .ok (updatedPost, st') =>
        -- Invalidate caches
        match invalidatePostCaches postId w.redis with
        | (.error e, r') => (.error e, { store := st', redis := r' })
        | (.ok _, r') => (.ok updatedPost, { store := st', redis := r' })

/-- The function `deletePost(postId, userId)`. -/
def deletePost (postId : String) (userId : Int) (w : World) :
    Except JsError Post × World :=
  match w.store.findPost (parseInt postId) with
  | .error e => (.error e, w)
  | .ok none => (.error postNotFound, w)
  | .ok (some post) =>
    -- Check ownership
    if post.authorId ≠ userId then
      (.error { message := "You are not authorized to delete this post", statusCode := some 403 }, w)
    else
      match w.store.deletePost (parseInt postId) with
      | .error e => (.error e, w)
      | .ok (deletedPost, st') =>
        -- Invalidate caches
        match invalidatePostCaches postId w.redis with
        | (.error e, r') => (.error e, { store := st', redis := r' })
        | (.ok _, r') => (.ok deletedPost, { store := st', redis := r' })

/-! ## `src/services/comment.service.js` -/

/-- The call `prisma.comment.create({ data, include: { author, post } })`. -/
def Store.createComment (st : Store) (content : String) (postId authorId : Int) :
    CommentFull × Store :=
  let c : Comment :=
    { id := st.nextCommentId, content := content, postId := postId, authorId := authorId
      createdAt := st.clock, updatedAt := st.clock }
  ({ comment := c, author := st.authorOf authorId, post := st.postRefOf postId },
   { st with comments := st.comments ++ [c], nextCommentId := st.nextCommentId + 1
             clock := st.clock + 1 })

/-- The call `prisma.comment.findMany({ where: { postId }, include: { author },
orderBy: { createdAt: 'desc' } })`. -/
def Store.commentsOfPost (st : Store) (postId : Int) : List CommentWithAuthor :=
  ((st.comments.filter (fun c => c.postId == postId)).insertionSort
      (fun a b => b.createdAt ≤ a.createdAt)).map
    (fun c => { comment := c, author := st.authorOf c.authorId })

/-- The error the comment service throws for an absent comment. -/
def commentNotFound : JsError :=
  { message := "Comment not found", statusCode := some 404 }

/-- The function `createComment({ content }, postId, authorId)`. -/
def createComment (content : String) (postId : String) (authorId : Int) (w : World) :
    Except JsError CommentFull × World :=
  -- Verify post exists
  match w.store.findPost (parseInt postId) with
  | .error e => (.error e, w)
  | .ok none => (.error postNotFound, w)
  | .ok (some _) =>
    match parseInt postId with
    | some pid =>
      let (comment, st') := w.store.createComment content pid authorId
      (.ok comment, { w with store := st' })
    | none => (.error queryValidationError, w)

/-- The function `getCommentsByPostId(postId)`. -/
def getCommentsByPostId (postId : String) (w : World) :
    Except JsError (List CommentWithAuthor) × World :=
  -- Verify post exists
  match w.store.findPost (parseInt postId) with
  | .error e => (.error e, w)
  | .ok none => (.error postNotFound, w)
  | .ok (some _) =>
    match parseInt postId with
    | some pid => (.ok (w.store.commentsOfPost pid), w)
    | none => (.error queryValidationError, w)

/-- The function `getCommentById(commentId)`. -/
def getCommentById (commentId : String) (w : World) : Except JsError CommentFull × World :=
  match w.store.findComment (parseInt commentId) with
  | .error e => (.error e, w)
  | .ok none => (.error commentNotFound, w)
  | .ok (some c) =>
    (.ok { comment := c, author := w.store.authorOf c.authorId
           post := w.store.postRefOf c.postId }, w)

/-- The function `updateComment(commentId, updateData, userId)`. -/
def updateComment (commentId : String) (updateData : CommentUpdate) (userId : Int)
    (w : World) : Except JsError CommentFull × World :=
  match w.store.findComment (parseInt commentId) with
  | .error e => (.error e, w)
  | .ok none => (.error commentNotFound, w)
  | .ok (some comment) =>
    -- Check ownership
    if comment.authorId ≠ userId then
      (.error { message := "You are not authorized to update this comment"
                statusCode := some 403 }, w)
    else
      match w.store.updateComment (parseInt commentId) updateData with
      | .error e => (.error e, w)
      | .ok (updatedComment, st') => (.ok updatedComment, { w with store := st' })

/-- The function `deleteComment(commentId, userId)`. -/
def deleteComment (commentId : String) (userId : Int) (w : World) :
    Except JsError Comment × World :=
  match w.store.findComment (parseInt commentId) with
  | .error e => (.error e, w)
  | .ok none => (.error commentNotFound, w)
  | .ok (some comment) =>
    -- Check ownership
    if comment.authorId ≠ userId then
      (.error { message := "You are not authorized to delete this comment"
                statusCode := some 403 }, w)
    else
      match w.store.deleteComment (parseInt commentId) with
      | .error e => (.error e, w)
      | .ok (deletedComment, st') => (.ok deletedComment, { w with store := st' })

/-! ## The update controllers -/

/-- What a controller does with a request: it sends a response (status,
message and data) or hands an error to `next`. -/
inductive Handled (α : Type) where
  | sent (status : Nat) (message : String) (data : Option α)
  | next (error : JsError)
deriving DecidableEq, Repr

/-- The handler `update` of `src/controllers/post.controller.js`: the whole
request body is the update payload, the requester is `req.user.userId`. -/
def PostController.update (id : String) (body : PostUpdate) (reqUserId : Int) (w : World) :
    Handled PostWithAuthor × World :=
  let updateData := body
  let userId := reqUserId
  match updatePost id updateData userId w with
  | (.ok post, w') => (.sent 200 "Post updated successfully" (some post), w')
  | (.error error, w') => (.next error, w')

/-- The handler `update` of `src/controllers/comment.controller.js`. -/
def CommentController.update (id : String) (body : CommentUpdate) (reqUserId : Int)
    (w : World) : Handled CommentFull × World :=
  let updateData := body
  let userId := reqUserId
  match updateComment id updateData userId w with
  | (.ok comment, w') => (.sent 200 "Comment updated successfully" (some comment), w')
  | (.error error, w') => (.next error, w')

/-! ## The token library

`src/config/jwt.js` wraps the library `jsonwebtoken`. The library's encoding of
a token (base64url of a JSON header and payload, and an HMAC-SHA256 signature)
is kept abstract in `JwsCodec`; its checks are modelled in the order the
library performs them. -/

/-- The payload the controllers give to `generateToken`. -/
structure TokenPayload where
  userId : Int
  email : String
deriving DecidableEq, Repr

/-- The payload of a token as the library decodes it: the two fields of the
application and the registered claims `iat`, `exp`, `nbf` and `iss`, each of
which may be absent. Times are in seconds. -/
structure Claims where
  userId : Int
  email : String
  iat : Option Nat := none
  exp : Option Nat := none
  nbf : Option Nat := none
  iss : Option String := none
deriving DecidableEq, Repr

/-- The object with exactly the fields of the payload and nothing else. -/
def TokenPayload.toClaims (p : TokenPayload) : Claims :=
  { userId := p.userId, email := p.email }

/-- The encoding side of the library: `encode` gives the signing input (the
header and payload segments) of a payload, `hmac secret input` the signature,
`compact input signature` the token text, and `parse` reads a token text back
into its payload, signing input and signature (`none` for a text that is not a
token of the accepted algorithm). -/
structure JwsCodec where
  encode : Claims → String
  hmac : String → String → String
  compact : String → String → String
  parse : String → Option (Claims × String × String)

/-- The decoder reads back what the encoder writes. -/
def JwsCodec.Lawful (lib : JwsCodec) : Prop :=
  ∀ (c : Claims) (secret : String),
    lib.parse (lib.compact (lib.encode c) (lib.hmac secret (lib.encode c)))
      = some (c, lib.encode c, lib.hmac secret (lib.encode c))

/-- The settings of `src/config/jwt.js`: `JWT_SECRET` and the lifetime
`JWT_EXPIRES_IN`, in seconds. -/
structure JwtConfig where
  secret : String
  expiresIn : Nat
deriving DecidableEq, Repr

/-- The call `jwt.sign(payload, secret, { expiresIn, issuer })` at time `now`:
the library adds `iat`, `exp = iat + expiresIn` and `iss` to the payload and
signs. -/
def jwtSign (lib : JwsCodec) (payload : TokenPayload) (secret : String) (expiresIn : Nat)
    (issuer : String) (now : Nat) : String :=
  let claims : Claims :=
    { userId := payload.userId, email := payload.email
      iat := some now, exp := some (now + expiresIn), iss := some issuer }
  lib.compact (lib.encode claims) (lib.hmac secret (lib.encode claims))

/-- The call `jwt.verify(token, secret)` at time `now`, in the order of the
library's checks: the text must be a token, the signature must be the one of
the secret, a `nbf` must not lie in the future, an `exp` must lie in the
future. -/
def jwtVerify (lib : JwsCodec) (token secret : String) (now : Nat) : Except JsError Claims :=
  match lib.parse token with
  | none => .error { name := "JsonWebTokenError", message := "jwt malformed" }
  | some (claims, input, signature) =>
    if signature ≠ lib.hmac secret input then
      .error { name := "JsonWebTokenError", message := "invalid signature" }
    else if claims.nbf.any (fun nbf => now < nbf) then
      .error { name := "NotBeforeError", message := "jwt not active" }
    else if claims.exp.any (fun exp => exp ≤ now) then
      .error { name := "TokenExpiredError", message := "jwt expired" }
    else .ok claims

/-! ## `src/config/jwt.js` -/

/-- The function `generateToken(payload)`. -/
def generateToken (lib : JwsCodec) (cfg : JwtConfig) (now : Nat) (payload : TokenPayload) :
    String :=
  jwtSign lib payload cfg.secret cfg.expiresIn "blog-api" now

/-- The function `verifyToken(token)`. -/
def verifyToken (lib : JwsCodec) (cfg : JwtConfig) (now : Nat) (token : String) :
    Except JsError Claims :=
  match jwtVerify lib token cfg.secret now with
  | .ok decoded => .ok decoded
  | .error error =>
    if error.name = "TokenExpiredError" then .error { message := "Token has expired" }
    else if error.name = "JsonWebTokenError" then .error { message := "Invalid token" }
    else .error error

/-! ## `src/middlewares/auth.middleware.js` -/

/-- The method `text.split(sep)` for a separator of one character, on
characters. -/
def splitChars (sep : Char) : List Char → List (List Char)
  | [] => [[]]
  | c :: cs =>
    if c = sep then [] :: splitChars sep cs
    else
      match splitChars sep cs with
      | [] => [[c]]
      | p :: ps => (c :: p) :: ps

/-- The method `text.split(sep)` for a separator of one character. -/
def jsSplit (s : String) (sep : Char) : List String :=
  (splitChars sep s.toList).map String.mk

/-- The body `{ success, message }` of a response written by a middleware,
with its status. -/
structure Reply where
  status : Nat
  success : Bool
  message : String
deriving DecidableEq, Repr

/-- What a middleware has done when it returns: the response it has written,
if any, how many times it has called `next`, and `req.user`. -/
structure Passage where
  reply : Option Reply
  nextCalls : Nat
  user : Option Claims
deriving DecidableEq, Repr

/-- The middleware `authenticate(req, res, next)`, given the value of
`req.headers.authorization` (`none` when the header is absent) and `req.user`
as it is on entry. -/
def authenticate (lib : JwsCodec) (cfg : JwtConfig) (now : Nat)
    (authHeader : Option String) (user : Option Claims) : Passage :=
  match authHeader with
  | none =>
    { reply := some { status := 401, success := false
                      message := "Access denied. No token provided." }
      nextCalls := 0, user := user }
  | some header =>
    if header = "" then
      { reply := some { status := 401, success := false
                        message := "Access denied. No token provided." }
        nextCalls := 0, user := user }
    else
      -- Check if header follows "Bearer <token>" format
      match jsSplit header ' ' with
      | [scheme, token] =>
        if scheme ≠ "Bearer" then
          { reply := some { status := 401, success := false
                            message := "Invalid authorization format. Use: Bearer <token>" }
            nextCalls := 0, user := user }
        else
          -- Verify token
          match verifyToken lib cfg now token with
          | .ok decoded =>
            -- Attach user data to request object
            { reply := none, nextCalls := 1, user := some decoded }
          | .error error =>
            { reply := some { status := 401, success := false
                              message := if error.message = "" then "Invalid or expired token."
                                         else error.message }
              nextCalls := 0, user := user }
      | _ =>
        { reply := some { status := 401, success := false
                          message := "Invalid authorization format. Use: Bearer <token>" }
          nextCalls := 0, user := user }

/-- The middleware `optionalAuth(req, res, next)`. -/
def optionalAuth (lib : JwsCodec) (cfg : JwtConfig) (now : Nat)
    (authHeader : Option String) (user : Option Claims) : Passage :=
  match authHeader with
  | none => { reply := none, nextCalls := 1, user := user }
  | some header =>
    if header = "" then { reply := none, nextCalls := 1, user := user }
    else
      match jsSplit header ' ' with
      | [scheme, token] =>
        if scheme = "Bearer" then
          match verifyToken lib cfg now token with
          | .ok decoded => { reply := none, nextCalls := 1, user := some decoded }
          | .error _ =>
            -- Invalid token, but don't block request
            { reply := none, nextCalls := 1, user := user }
        else { reply := none, nextCalls := 1, user := user }
      | _ => { reply := none, nextCalls := 1, user := user }

/-! ## A readable token encoding

An instance of `JwsCodec` in which a token is a readable text: numbers in
decimal closed by `;`, texts preceded by their length. It makes the token
functions computable on examples. -/

namespace Readable

/-- The decimal digits of a number, most significant first; `fuel` bounds the
number of digits and any value above the number is enough. -/
def natDigits : Nat → Nat → List Nat
  | 0, _ => []
  | fuel + 1, n => if n < 10 then [n] else natDigits fuel (n / 10) ++ [n % 10]

/-- A number in decimal, most significant digit first, closed by `;`. -/
def writeNat (n : Nat) : List Char :=
  (natDigits (n + 1) n).map Nat.digitChar ++ [';']

/-- Reads a number written by `writeNat` and gives the rest of the text. -/
def readNat : List Char → Nat → Option (Nat × List Char)
  | [], _ => none
  | c :: cs, acc =>
    if c = ';' then some (acc, cs)
    else
      match digitValue 10 c with
      | some d => readNat cs (acc * 10 + d)
      | none => none

/-- An integer: its sign, then its absolute value. -/
def writeInt (i : Int) : List Char :=
  (if i < 0 then '-' else '+') :: writeNat i.natAbs

/-- Reads an integer written by `writeInt`. -/
def readInt : List Char → Option (Int × List Char)
  | '-' :: cs => (readNat cs 0).map (fun r => (- (r.1 : Int), r.2))
  | '+' :: cs => (readNat cs 0).map (fun r => ((r.1 : Int), r.2))
  | _ => none

/-- A text: its length, then its characters. -/
def writeStr (s : String) : List Char :=
  writeNat s.length ++ s.toList

/-- Reads a text written by `writeStr`. -/
def readStr (cs : List Char) : Option (String × List Char) :=
  match readNat cs 0 with
  | some (n, rest) =>
    if n ≤ rest.length then some (String.mk (rest.take n), rest.drop n) else none
  | none => none

/-- An optional number: `n` for none, `s` and the number otherwise. -/
def writeOptNat : Option Nat → List Char
  | none => ['n']
  | some k => 's' :: writeNat k

/-- Reads an optional number. -/
def readOptNat : List Char → Option (Option Nat × List Char)
  | 'n' :: cs => some (none, cs)
  | 's' :: cs => (readNat cs 0).map (fun r => (some r.1, r.2))
  | _ => none

/-- An optional text. -/
def writeOptStr : Option String → List Char
  | none => ['n']
  | some s => 's' :: writeStr s

/-- Reads an optional text. -/
def readOptStr : List Char → Option (Option String × List Char)
  | 'n' :: cs => some (none, cs)
  | 's' :: cs => (readStr cs).map (fun r => (some r.1, r.2))
  | _ => none

/-- The payload segment: the six fields in a fixed order. -/
def writeClaims (c : Claims) : List Char :=
  writeInt c.userId ++ (writeStr c.email ++ (writeOptNat c.iat ++
    (writeOptNat c.exp ++ (writeOptNat c.nbf ++ writeOptStr c.iss))))

/-- Reads a payload segment; the text must end with it. -/
def readClaims (cs : List Char) : Option Claims :=
  match readInt cs with
  | none => none
  | some (userId, r₁) =>
    match readStr r₁ with
    | none => none
    | some (email, r₂) =>
      match readOptNat r₂ with
      | none => none
      | some (iat, r₃) =>
        match readOptNat r₃ with
        | none => none
        | some (exp, r₄) =>
          match readOptNat r₄ with
          | none => none
          | some (nbf, r₅) =>
            match readOptStr r₅ with
            | some (iss, []) =>
              some { userId := userId, email := email, iat := iat, exp := exp, nbf := nbf
                     iss := iss }
            | _ => none

/-- A keyed checksum standing for the signature function. -/
def checksum (secret input : String) : String :=
  String.mk (writeNat
    ((secret.toList ++ ('/' :: input.toList)).foldl
      (fun h c => (h * 131 + c.toNat) % 1000000007) 7))

/-- The signing input of a payload: the payload segment as a text. -/
def encode (c : Claims) : String :=
  String.mk (writeClaims c)

/-- The token text: the length-prefixed signing input followed by the
signature. -/
def compact (input signature : String) : String :=
  String.mk (writeStr input ++ signature.toList)

/-- Reads a token text into its payload, signing input and signature. -/
def parse (token : String) : Option (Claims × String × String) :=
  match readStr token.toList with
  | none => none
  | some (input, signature) =>
    (readClaims input.toList).map (fun c => (c, input, String.mk signature))

/-- The readable codec. -/
def codec : JwsCodec :=
  { encode := encode, hmac := checksum, compact := compact, parse := parse }

end Readable

/-- The settings of the test environment: its secret and a lifetime of one
hour. -/
def sampleConfig : JwtConfig :=
  { secret := "test-jwt-secret-key-for-testing-only", expiresIn := 3600 }

/-! ## A sample state

Two users, Ada (id 1) and Bob (id 2); one post by Ada; one comment on it by
Bob; an empty, working cache. -/

/-- Ada's post. -/
def samplePost : Post :=
  { id := 1, title := "Original Title", content := "Original Content", published := false
    authorId := 1, createdAt := 2, updatedAt := 2 }

/-- Bob's comment on Ada's post. -/
def sampleComment : Comment :=
  { id := 1, content := "This is a great post!", postId := 1, authorId := 2
    createdAt := 3, updatedAt := 3 }

/-- The sample store. -/
def sampleStore : Store :=
  { users :=
      [{ id := 1, name := "Ada", email := "ada@example.com", password := "$2b$10$hashA"
         createdAt := 0, updatedAt := 0 },
       { id := 2, name := "Bob", email := "bob@example.com", password := "$2b$10$hashB"
         createdAt := 1, updatedAt := 1 }]
    posts := [samplePost]
    comments := [sampleComment]
    nextUserId := 3
    nextPostId := 2
    nextCommentId := 2
    clock := 4 }

/-- The sample state of the world. -/
def sampleWorld : World :=
  { store := sampleStore, redis := {} }

/-- The sample state after a visitor has read Ada's post under the id text
`01`: the cache now holds the post under the key `post:01`. -/
def sampleWorldRead : World :=
  (getPostById "01" sampleWorld).2

/-! ## Vocabulary of the properties -/

/-- The call throws an error that carries the status code. -/
def FailsWith {α : Type} (r : Except JsError α) (status : Nat) : Prop :=
  ∃ e, r = .error e ∧ e.statusCode = some status

/-- The call returns a value. -/
def Succeeds {α : Type} (r : Except JsError α) : Prop :=
  ∃ v, r = .ok v

instance {α : Type} (r : Except JsError α) : Decidable (Succeeds r) :=
  match r with
  | .ok v => isTrue ⟨v, rfl⟩
  | .error _ => isFalse (fun h => by obtain ⟨_, h⟩ := h; cases h)

instance {α : Type} (r : Except JsError α) (status : Nat) : Decidable (FailsWith r status) :=
  match r with
  | .ok _ => isFalse (fun h => by obtain ⟨_, h, _⟩ := h; cases h)
  | .error e =>
    if hs : e.statusCode = some status then isTrue ⟨e, rfl, hs⟩
    else isFalse (fun h => by obtain ⟨_, h, hs'⟩ := h; cases h; exact hs hs')

/-- The titles of the posts of a list answer, in order. -/
def listedTitles (r : Except JsError JsonValue) : Option (List String) :=
  match r with
  | .ok (.postList l) => some (l.posts.map (fun i => i.post.title))
  | _ => none

/-- The ownership check of section 4.3 of the specification, as a property of
the result `res` of a mutation called with an id that parses to `id`, over the
table `row`: for an integer id, absent gives 404; present with another author
gives 403; present with the requester as author gives success (as long as
`env` holds of the collaborators); a 403 comes only from a present resource of
another author; and for an id that is `NaN` the result is the validation error
of the store's client. -/
def OwnershipCheck {α β : Type} (id : Option Int) (row : Int → Option β) (authorId : β → Int)
    (userId : Int) (env : Prop) (res : Except JsError α) : Prop :=
  (∀ n, id = some n → row n = none → FailsWith res 404) ∧
  (∀ n x, id = some n → row n = some x → authorId x ≠ userId → FailsWith res 403) ∧
  (∀ n x, id = some n → row n = some x → authorId x = userId → env → Succeeds res) ∧
  (FailsWith res 403 → ∃ n x, id = some n ∧ row n = some x ∧ authorId x ≠ userId) ∧
  (id = none → res = .error queryValidationError)

/-- The entries of the cache whose key does not start with the prefix. -/
def Redis.without (r : Redis) (pre : String) : Redis :=
  { r with entries := r.entries.filter (fun e => !(hasPrefix pre e.1)) }

/-- The cache without the entries under one key. -/
def Redis.erase (r : Redis) (key : String) : Redis :=
  { r with entries := r.entries.filter (fun e => !(e.1 == key)) }

/-- The cache holds no entry of the list namespace. -/
def NoListEntries (r : Redis) : Prop :=
  ∀ e ∈ r.entries, hasPrefix "posts:list:" e.1 = false

/-- What `getAllPosts(params)` computes from the store when the cache gives
nothing: the defaults are applied and the page is loaded. -/
def listFromStore (st : Store) (params : ListParams) : Except JsError JsonValue :=
  match loadPostsPage st (params.page.orDefault (.num 1)) (params.limit.orDefault (.num 10))
      params.published params.authorId with
  | .ok result => .ok (.postList result)
  | .error e => .error e

/-- The list cache is fresh in a state: it holds no list entry, and
`getAllPosts` answers every query from the store. -/
def ListFresh (w : World) : Prop :=
  NoListEntries w.redis ∧ ∀ params, (getAllPosts params w).1 = listFromStore w.store params

/-- The page `page` of size `limit` of the posts matching `wh`, newest first,
with its pagination data, as section 4.5 of the specification describes the
answer of `list`. -/
def pageOfStore (st : Store) (wh : PostWhere) (page limit : Int) : ListResult :=
  { posts := (((st.matchingPosts wh).drop ((page - 1) * limit).toNat).take limit.toNat).map
      st.listItem
    pagination :=
      { currentPage := some page
        totalPages := some
          ((((st.posts.filter wh.test).length + limit.toNat - 1) / limit.toNat : Nat) : Int)
        totalItems := (st.posts.filter wh.test).length
        itemsPerPage := limit } }

/-- The sample state after a visitor has listed the posts with no parameter:
the cache now holds the first page under its list key. -/
def sampleWorldListed : World :=
  (getAllPosts {} sampleWorld).2

/-- The sample state with a cache backend that is down: every command
raises. -/
def sampleWorldCacheDown : World :=
  { store := sampleStore
    redis := { getFails := true, setexFails := true, keysFails := true, delFails := true } }

/-- The sample state after a visitor has read Ada's post under the id text
`1`: the cache holds the post, with Bob's comment, under `post:1`. -/
def sampleWorldCached : World :=
  (getPostById "1" sampleWorld).2

/-- The sample state after Bob has created a published post; the store now
holds Ada's unpublished post and Bob's published one. -/
def sampleWorldTwoPosts : World :=
  (createPost { title := "Post 1", content := "Content 1 with minimum length requirement"
                published := some true } 2 sampleWorld).2

/-- The payload of Ada's token. -/
def samplePayload : TokenPayload :=
  { userId := 1, email := "ada@example.com" }

/-- A token text in the readable encoding with the payload of Ada's token,
the expiry 100 and a signature that is not the one of the secret. -/
def forgedExpiredToken : String :=
  Readable.codec.compact
    (Readable.codec.encode { userId := 1, email := "ada@example.com", iat := some 0
                             exp := some 100, iss := some "blog-api" })
    "forged"

/-- The payload of Ada's token as the signer completes it at time 1700000000
with a lifetime of one hour. -/
def sampleClaims : Claims :=
  { userId := 1, email := "ada@example.com", iat := some 1700000000
    exp := some 1700003600, iss := some "blog-api" }

/-- Ada's token in the readable encoding, issued at 1700000000 with the
settings of the test environment. -/
def sampleToken : String :=
  generateToken Readable.codec sampleConfig 1700000000 samplePayload

/-- A parameter value that is unset, or a text of the query string that
contains no `:` and is not the text `undefined`. -/
def JsParam.Plain (x : JsParam) : Prop :=
  x = .undefined ∨ ∃ s, x = .str s ∧ ':' ∉ s.toList ∧ s ≠ "undefined"

/-- Ada's post as `getPostById` loads it from the sample store: with its
author and Bob's comment. -/
def sampleDetail : PostDetail :=
  { post := samplePost
    author := some { id := 1, name := "Ada", email := "ada@example.com" }
    comments := [{ comment := sampleComment
                   author := some { id := 2, name := "Bob", email := "bob@example.com" } }] }

/-- The cache fails the read of a key: `get` raises, or it answers with a text
that does not deserialize, or it holds nothing under the key (and the write
that follows may raise as well). -/
def Redis.FailsRead (r : Redis) (key : String) : Prop :=
  r.getFails = true ∨
  (∃ text, r.get key = .ok (some text) ∧ ∀ v, jsonParse text ≠ .ok v) ∨
  r.get key = .ok none

/-- What `getPostById(postId)` computes from the store when the cache gives
nothing: the post with its author and comments, the 404, or the error of the
store's client. -/
def postFromStore (st : Store) (postId : String) : Except JsError JsonValue :=
  match st.findPostDetail (parseInt postId) with
  | .ok (some post) => .ok (.postDetail post)
  | .ok none => .error postNotFound
  | .error e => .error e

/-- The key `getAllPosts(params)` looks up: the key of the parameters after the
defaults. -/
def listKeyOf (params : ListParams) : String :=
  getPostsListCacheKey
    { page := params.page.orDefault (.num 1), limit := params.limit.orDefault (.num 10)
      published := params.published, authorId := params.authorId }

/-- A parameter reads as the integer `n`: both the arithmetic conversion and
`parseInt` give `n`. This holds of the number `n` itself and of a text such as
`'2'` for 2. -/
def JsParam.Reads (x : JsParam) (n : Int) : Prop :=
  x.toNumber = some n ∧ x.parseInt = some n

instance (x : JsParam) (n : Int) : Decidable (x.Reads n) :=
  inferInstanceAs (Decidable (_ ∧ _))

/-- The store of the sample state with two posts under a cache that holds,
under the key of the query `published = true`, the serialization of the
unfiltered first page (Bob's published post and Ada's unpublished one). -/
def sampleWorldForeignEntry : World :=
  { store := sampleWorldTwoPosts.store
    redis :=
      { entries :=
          [(listKeyOf { published := .bool true },
            jsonStringify (.postList (pageOfStore sampleWorldTwoPosts.store {} 1 10)))] } }

/-- The `published` flags of the posts of a list answer, in order. -/
def listedPublished (r : Except JsError JsonValue) : Option (List Bool) :=
  match r with
  | .ok (.postList l) => some (l.posts.map (fun i => i.post.published))
  | _ => none

/-! ## `src/services/auth.service.js` -/

/-- A value of a field of an object the auth service returns. -/
inductive JsValue where
  | num (n : Int)
  | str (s : String)
  | date (t : Nat)
deriving DecidableEq, Repr

/-- An object as its fields, in order: the name of the field and its value. -/
abbrev JsObject := List (String × JsValue)

/-- Whether the object has a field of that name. -/
def JsObject.hasField (o : JsObject) (key : String) : Bool :=
  o.any (fun f => f.1 == key)

/-- The projection `select: { key: true, ... }` of a query: the fields whose
name is selected. -/
def JsObject.select (o : JsObject) (keys : List String) : JsObject :=
  o.filter (fun f => keys.contains f.1)

/-- The rest pattern `const { key: _, ...rest } = o`: the fields other than
`key`. -/
def JsObject.omit (o : JsObject) (key : String) : JsObject :=
  o.filter (fun f => !(f.1 == key))

/-- A row of the `User` table as the object the store's client returns when
no `select` is given: all six fields, `password` holding the hash. -/
def User.toObject (u : User) : JsObject :=
  [("id", .num u.id), ("name", .str u.name), ("email", .str u.email),
   ("password", .str u.password), ("createdAt", .date u.createdAt),
   ("updatedAt", .date u.updatedAt)]

/-- The object with the five fields of a user other than the password. -/
def User.publicObject (u : User) : JsObject :=
  [("id", .num u.id), ("name", .str u.name), ("email", .str u.email),
   ("createdAt", .date u.createdAt), ("updatedAt", .date u.updatedAt)]

/-- The library `bcrypt`: `hash(password, rounds)` and
`compare(password, hash)`. The salt the library draws is not represented. -/
structure Bcrypt where
  hash : String → Nat → String
  compare : String → String → Bool

/-- The constant `SALT_ROUNDS`. -/
def SALT_ROUNDS : Nat := 10

/-- The call `prisma.user.findUnique({ where: { email } })`. -/
def Store.findUserByEmail (st : Store) (email : String) : Option User :=
  st.users.find? (fun u => u.email == email)

/-- The call `prisma.user.findUnique({ where: { id } })`. -/
def Store.findUserById (st : Store) (id : Int) : Option User :=
  st.users.find? (fun u => u.id == id)

/-- The fields `select` names in `registerUser` and `getUserById`. -/
def userSelect : List String :=
  ["id", "name", "email", "createdAt", "updatedAt"]

/-- The call `prisma.user.create({ data: { name, email, password }, select })`:
the new row takes the next id of the sequence and the time of the clock; the
selected fields of the row are returned. -/
def Store.createUser (st : Store) (name email password : String) : JsObject × Store :=
  let u : User :=
    { id := st.nextUserId, name := name, email := email, password := password
      createdAt := st.clock, updatedAt := st.clock }
  (u.toObject.select userSelect,
   { st with users := st.users ++ [u], nextUserId := st.nextUserId + 1, clock := st.clock + 1 })

/-- The argument of `registerUser`. -/
structure Registration where
  name : String
  email : String
  password : String
deriving DecidableEq, Repr

/-- The argument of `loginUser`. -/
structure Credentials where
  email : String
  password : String
deriving DecidableEq, Repr

/-- The function `registerUser({ name, email, password })`. -/
def registerUser (bcrypt : Bcrypt) (userData : Registration) (w : World) :
    Except JsError JsObject × World :=
  -- Check if user already exists
  match w.store.findUserByEmail userData.email with
  | some _ =>
    (.error { message := "User with this email already exists", statusCode := some 409 }, w)
  | none =>
    -- Hash password
    let hashedPassword := bcrypt.hash userData.password SALT_ROUNDS
    -- Create user
    let (user, st') := w.store.createUser userData.name userData.email hashedPassword
    (.ok user, { w with store := st' })

/-- The function `loginUser({ email, password })`. -/
def loginUser (bcrypt : Bcrypt) (credentials : Credentials) (w : World) :
    Except JsError JsObject × World :=
  -- Find user by email
  match w.store.findUserByEmail credentials.email with
  | none => (.error { message := "Invalid email or password", statusCode := some 401 }, w)
  | some user =>
    -- Verify password
    if bcrypt.compare credentials.password user.password then
      -- Return user without password
      (.ok (user.toObject.omit "password"), w)
    else (.error { message := "Invalid email or password", statusCode := some 401 }, w)

/-- The function `getUserById(userId)`. -/
def getUserById (userId : Int) (w : World) : Except JsError JsObject × World :=
  match w.store.findUserById userId with
  | none => (.error { message := "User not found", statusCode := some 404 }, w)
  | some user => (.ok (user.toObject.select userSelect), w)

/-- A hash function for the examples: the cost prefix of a bcrypt hash and a
checksum of the password. -/
def sampleBcrypt : Bcrypt :=
  { hash := fun password _ => "$2b$10$" ++ Readable.checksum "salt" password
    compare := fun password hash =>
      decide (hash = "$2b$10$" ++ Readable.checksum "salt" password) }

/-- The registration of the test suite. -/
def sampleRegistration : Registration :=
  { name := "Test User", email := "test@example.com", password := "Test123" }

/-- The sample state after the registration of the test suite. -/
def sampleWorldRegistered : World :=
  (registerUser sampleBcrypt sampleRegistration sampleWorld).2

/-! ## `src/utils/apiResponse.js` -/

/-- A JavaScript value as far as the response helpers and the error handler
look at it: whether it is `undefined` or `null`, whether it is truthy, and, for
the object `{ field: target }` the error handler builds, what it is made of. -/
inductive JsAny where
  | undefined
  | null
  | bool (b : Bool)
  | num (n : Int)
  | str (s : String)
  | object (json : String)
  | fieldOf (target : Option String)
deriving DecidableEq, Repr

/-- The truthiness of a value in `a || b` and `a && b`: objects are truthy. -/
def JsAny.truthy : JsAny → Bool
  | .undefined => false
  | .null => false
  | .bool b => b
  | .num n => !(n == 0)
  | .str s => !(s == "")
  | .object _ => true
  | .fieldOf _ => true

/-- An object literal as its keys, in order, with their values. -/
abbrev JsonBody := List (String × JsAny)

/-- A response as the client receives it: the status and the JSON body. -/
structure Sent where
  status : Nat
  body : JsonBody
deriving DecidableEq, Repr

/-- The call `res.status(statusCode).json(response)`: the serialisation
(`JSON.stringify`) leaves out the keys whose value is `undefined`. -/
def sendJson (statusCode : Nat) (response : JsonBody) : Sent :=
  { status := statusCode, body := response.filter (fun f => !(f.2 == JsAny.undefined)) }

/-- The keys of the body of a response. -/
def Sent.keys (r : Sent) : List String :=
  r.body.map Prod.fst

/-- The value of a key of the body of a response. -/
def Sent.field (r : Sent) (key : String) : Option JsAny :=
  r.body.lookup key

/-- The function `successResponse(res, statusCode, message, data = null)`:
the default replaces an argument that is `undefined`. -/
def successResponse (statusCode : Nat) (message : String) (data : JsAny) : Sent :=
  let data := if data = .undefined then JsAny.null else data
  let response : JsonBody := [("success", .bool true), ("message", .str message)]
  let response := if data ≠ .null then response ++ [("data", data)] else response
  sendJson statusCode response

/-- The function `errorResponse(res, statusCode, message, errors = null)`. -/
def errorResponse (statusCode : Nat) (message : String) (errors : JsAny) : Sent :=
  let errors := if errors = .undefined then JsAny.null else errors
  let response : JsonBody := [("success", .bool false), ("message", .str message)]
  let response := if errors ≠ .null then response ++ [("errors", errors)] else response
  sendJson statusCode response

/-! ## `src/middlewares/error.middleware.js` -/

/-- An error object as the error handler receives it: the fields of `JsError`
and the three other properties the handler reads, `err.errors`,
`err.meta?.target` and `err.stack`. -/
structure Thrown extends JsError where
  errors : JsAny := .undefined
  metaTarget : Option String := none
  stack : JsAny := .undefined
deriving DecidableEq, Repr

/-- An error of the services as the handler receives it: an `Error` object
carries the stack trace of the place it was made at. -/
def JsError.thrown (e : JsError) (stack : String) : Thrown :=
  { toJsError := e, stack := .str stack }

/-- The middleware `errorHandler(err, req, res, next)`, given the value of
`process.env.NODE_ENV`. The call of the logger does not act on the response. -/
def errorHandler (nodeEnv : Option String) (err : Thrown) : Sent :=
  -- Default error properties
  let statusCode : Nat :=
    match err.statusCode with
    | some s => if s = 0 then 500 else s
    | none => 500
  let message := if err.message = "" then "Internal Server Error" else err.message
  let errors := if err.errors.truthy then err.errors else JsAny.null
  -- Handle Prisma errors
  let code := err.code.getD ""
  let statusCode :=
    if code = "" then statusCode
    else if code = "P2002" then 409
    else if code = "P2025" then 404
    else 400
  let message :=
    if code = "" then message
    else if code = "P2002" then "A record with this unique field already exists"
    else if code = "P2025" then "Record not found"
    else if code = "P2003" then "Foreign key constraint failed"
    else "Database operation failed"
  let errors := if code = "P2002" then JsAny.fieldOf err.metaTarget else errors
  -- Handle validation errors
  let statusCode := if err.name = "ValidationError" then 400 else statusCode
  let message := if err.name = "ValidationError" then "Validation failed" else message
  let errors := if err.name = "ValidationError" then err.errors else errors
  -- Handle JWT errors
  let statusCode := if err.name = "JsonWebTokenError" then 401 else statusCode
  let message := if err.name = "JsonWebTokenError" then "Invalid token" else message
  let statusCode := if err.name = "TokenExpiredError" then 401 else statusCode
  let message := if err.name = "TokenExpiredError" then "Token has expired" else message
  -- Send error response
  sendJson statusCode
    ([("success", .bool false), ("message", .str message)] ++
      (if errors.truthy then [("errors", errors)] else []) ++
      (if nodeEnv = some "development" then [("stack", err.stack)] else []))

/-- The error of the store's client on a violation of a unique constraint
(code `P2002`), with the fields of the constraint in `meta.target`. -/
def uniqueConstraintViolation (target : String) (stack : String) : Thrown :=
  { name := "PrismaClientKnownRequestError"
    message := "Unique constraint failed on the fields: (" ++ target ++ ")"
    code := some "P2002"
    metaTarget := some target
    stack := .str stack }

/-- The keys the specification allows in the body of a response. -/
def envelopeKeys : List String :=
  ["success", "message", "data", "errors"]

/-- The error `jsonwebtoken` throws for a token past its expiry, as an object
with the two properties the library sets besides the stack. -/
def sampleTokenError : Thrown :=
  { name := "TokenExpiredError", message := "jwt expired", stack := .str "TokenExpiredError: jwt expired" }

/-- The names the error handler answers by name, whatever the status code of
the error. -/
def namedErrors : List String :=
  ["ValidationError", "JsonWebTokenError", "TokenExpiredError"]

/-- The 404 of the post service as the error handler receives it. -/
def samplePostNotFound : Thrown :=
  JsError.thrown postNotFound "Error: Post not found at getPostById"

/-- The key of a list query as the specification words it: the text
`posts:list:page:<page>:limit:<limit>:published:<published>:author:<authorId>`
with the four places filled in. -/
def listKeyFormat (page limit published authorId : String) : String :=
  String.join ["posts:list:page:", page, ":limit:", limit, ":published:", published,
    ":author:", authorId]

/-- The text that fills the place of a parameter in a key: the rendering of
the parameter, or of the default when the parameter is unset. -/
def placeText (x : JsParam) (default : String) : String :=
  match x with
  | .undefined => default
  | .str s => s
  | .num n => toString n
  | .bool b => if b then "true" else "false"

/-- The key of the list query with no parameter. -/
def defaultListKey : String :=
  "posts:list:page:1:limit:10:published:undefined:author:undefined"

/-! ## Interleaved requests

A call of an `async` function runs up to its next `await` and lets other
requests run until the collaborator has answered. The commands a call sends
to the store and the cache therefore reach them one by one, with the commands
of other requests in between. -/

/-- How far a call of `getPostById` has come: before the lookup in the cache,
after a miss, after the answer of the store, and returned. -/
inductive ReadProgress where
  | start
  | missed
  | loaded (post : Option PostDetail)
  | returned (result : Except JsError JsonValue)
deriving DecidableEq, Repr

/-- The next command of a call of `getPostById(postId)` that has come as far
as `progress`: the lookup `redis.get` of lines 160 to 167, the query
`prisma.post.findUnique` of line 169, the check and the write `redis.setex` of
lines 196 to 207. -/
def getPostByIdStep (postId : String) (progress : ReadProgress) (w : World) :
    ReadProgress × World :=
  match progress with
  | .start =>
    match cacheLookup w.redis (getPostCacheKey postId) with
    | some v => (.returned (.ok v), w)
    | none => (.missed, w)
  | .missed =>
    match w.store.findPostDetail (parseInt postId) with
    | .error e => (.returned (.error e), w)
    | .ok post => (.loaded post, w)
  | .loaded none => (.returned (.error postNotFound), w)
  | .loaded (some post) =>
    (.returned (.ok (.postDetail post)),
     { w with redis := cacheStore w.redis (getPostCacheKey postId) (.postDetail post) })
  | .returned result => (.returned result, w)

/-- The call of `getPostById(postId)` with no other request in between: its
three commands one after the other. -/
def getPostByIdAlone (postId : String) (w : World) : ReadProgress × World :=
  let s₁ := getPostByIdStep postId .start w
  let s₂ := getPostByIdStep postId s₁.1 s₁.2
  getPostByIdStep postId s₂.1 s₂.2

/-- The reader of the race on the sample state, after its first two commands:
it has missed the cache and holds the answer of the store. -/
def racingReader : ReadProgress × World :=
  let s₁ := getPostByIdStep "1" .start sampleWorld
  getPostByIdStep "1" s₁.1 s₁.2

/-- The writer of the race: Ada updates the title of her post while the reader
waits; the call runs to its end, invalidation included. -/
def racingWriter : Except JsError PostWithAuthor × World :=
  updatePost "1" { title := some "Updated Title" } 1 racingReader.2

/-- The state after the race: the reader sends its last command, the write of
the cache, after the writer has finished. -/
def racingWorld : World :=
  (getPostByIdStep "1" racingReader.1 racingWriter.2).2

/-- The sample state after a visitor has read Ada's post and then listed the
posts: the cache holds one entry of each namespace, `post:1` and the key of
the first page. -/
def sampleWorldBoth : World :=
  (getAllPosts {} sampleWorldCached).2

/-- The posts of a list answer; no posts when the call has failed. -/
def listedPosts (r : Except JsError JsonValue) : List PostListItem :=
  match r with
  | .ok (.postList l) => l.posts
  | _ => []

/-- The answer of `getAllPosts({ page, limit, published, authorId })` for the
page number `page`, in the state `w`. -/
def pageAnswer (w : World) (limit published authorId : JsParam) (page : Nat) :
    Except JsError JsonValue :=
  (getAllPosts { page := .num page, limit := limit, published := published
                 authorId := authorId } w).1

/-- The posts of the pages 1, 2, ..., `totalPages`, one page after the other. -/
def pagesConcat (w : World) (limit published authorId : JsParam) (totalPages : Nat) :
    List PostListItem :=
  ((List.range totalPages).map
    (fun i => listedPosts (pageAnswer w limit published authorId (i + 1)))).flatten

/-- The first `n` commands of a call of `getPostById(postId)`, from the
progress and the state `s`. -/
def getPostByIdSteps (postId : String) : Nat → ReadProgress × World → ReadProgress × World
  | 0, s => s
  | n + 1, s => getPostByIdSteps postId n (getPostByIdStep postId s.1 s.2)

/-- The progress of the reader and the state when the writer of a race
starts: the reader has sent its first `k` commands in the state `w`. -/
def raceStart (k : Nat) (postId : String) (w : World) : ReadProgress × World :=
  getPostByIdSteps postId k (.start, w)

/-- The state at the end of a race: the reader has sent its first `k`
commands, the writer has run and left the state `after`, and the reader sends
its other `3 - k` commands. -/
def raceEnd (k : Nat) (postId : String) (w after : World) : World :=
  (getPostByIdSteps postId (3 - k) ((raceStart k postId w).1, after)).2

/-! ## Lemmas on the cache -/

theorem Redis.keys_works (r : Redis) (h : r.Works) (pre : String) :
    r.keys pre = .ok ((r.entries.filter (fun e => hasPrefix pre e.1)).map (fun e => e.1)) := by
  obtain ⟨_, _, hk, _⟩ := h
  unfold Redis.keys
  rw [hk]; rfl

theorem Redis.del_works (r : Redis) (h : r.Works) (keys : List String) :
    r.del keys = .ok { r with entries := r.entries.filter (fun e => !(keys.contains e.1)) } := by
  obtain ⟨_, _, _, hd⟩ := h
  unfold Redis.del
  rw [hd]; rfl

theorem Redis.get_works (r : Redis) (h : r.Works) (key : String) :
    r.get key = .ok ((r.entries.find? (fun e => e.1 == key)).map (fun e => e.2)) := by
  obtain ⟨hg, _, _, _⟩ := h
  unfold Redis.get
  rw [hg]; rfl

theorem Redis.setex_works (r : Redis) (h : r.Works) (key : String) (ttl : Nat) (t : CacheText) :
    r.setex key ttl t
      = .ok { r with entries := (key, t) :: r.entries.filter (fun e => !(e.1 == key)) } := by
  obtain ⟨_, hs, _, _⟩ := h
  unfold Redis.setex
  rw [hs]; rfl

theorem filter_not_contains_keys (pre : String) (l : List (String × CacheText)) :
    l.filter (fun e => !(((l.filter (fun e => hasPrefix pre e.1)).map (fun e => e.1)).contains e.1))
      = l.filter (fun e => !(hasPrefix pre e.1)) := by
  apply List.filter_congr
  intro e he
  congr 1
  by_cases hp : hasPrefix pre e.1 = true
  · rw [hp]
    simp only [List.contains_eq_any_beq, List.any_eq_true, List.mem_map, List.mem_filter,
      beq_iff_eq]
    exact ⟨e.1, ⟨e, ⟨he, hp⟩, rfl⟩, rfl⟩
  · have hf : hasPrefix pre e.1 = false := by simpa using hp
    rw [hf]
    apply Bool.eq_false_iff.mpr
    intro hc
    simp only [List.contains_eq_any_beq, List.any_eq_true, List.mem_map, List.mem_filter,
      beq_iff_eq] at hc
    obtain ⟨k, ⟨e', ⟨_, hp'⟩, he'⟩, hk⟩ := hc
    rw [he', ← hk] at hp'
    exact hp hp'

/-- With a working backend, `invalidatePostsListCache` succeeds and leaves
exactly the entries whose key does not start with `posts:list:`. -/
theorem invalidatePostsListCache_works (r : Redis) (h : r.Works) :
    invalidatePostsListCache r = (.ok (), r.without "posts:list:") := by
  unfold invalidatePostsListCache Redis.without
  rw [Redis.keys_works r h]
  simp only [Redis.del_works r h]
  split
  · rw [filter_not_contains_keys]
  · rename_i hlen
    have hnil : r.entries.filter (fun e => hasPrefix "posts:list:" e.1) = [] := by
      have : ((r.entries.filter (fun e => hasPrefix "posts:list:" e.1)).map (fun e => e.1)).length = 0 := by
        omega
      simpa using this
    have : r.entries.filter (fun e => !(hasPrefix "posts:list:" e.1)) = r.entries := by
      rw [List.filter_eq_self]
      intro e he
      have := List.filter_eq_nil_iff.mp hnil e he
      simpa using this
    rw [this]

theorem Redis.erase_works (r : Redis) (h : r.Works) (key : String) : (r.erase key).Works := h

theorem Redis.without_works (r : Redis) (h : r.Works) (pre : String) : (r.without pre).Works := h

/-- With a working backend, the invalidation block of `updatePost` and
`deletePost` succeeds; it removes the entry of the post's key and every entry
under `posts:list:`, and nothing else. -/
theorem invalidatePostCaches_works (postId : String) (r : Redis) (h : r.Works) :
    invalidatePostCaches postId r
      = (.ok (), (r.erase (getPostCacheKey postId)).without "posts:list:") := by
  unfold invalidatePostCaches
  rw [Redis.del_works r h]
  have hw : (r.erase (getPostCacheKey postId)).Works := h
  have he : ({ r with
      entries := r.entries.filter (fun e => !([getPostCacheKey postId].contains e.1)) } : Redis)
      = r.erase (getPostCacheKey postId) := by
    unfold Redis.erase
    congr 1
    apply List.filter_congr
    intro e _
    simp [List.contains_eq_any_beq, beq_eq_decide]
  simp only [he, invalidatePostsListCache_works _ hw]

theorem Store.updatePost_of_find (st : Store) (id : Option Int) (data : PostUpdate) (p : Post)
    (h : st.findPost id = .ok (some p)) : ∃ r, st.updatePost id data = .ok r := by
  unfold Store.updatePost
  rw [h]
  exact ⟨_, rfl⟩

theorem Store.deletePost_of_find (st : Store) (id : Option Int) (p : Post)
    (h : st.findPost id = .ok (some p)) : ∃ r, st.deletePost id = .ok r := by
  unfold Store.deletePost
  rw [h]
  exact ⟨_, rfl⟩

theorem Store.updateComment_of_find (st : Store) (id : Option Int) (data : CommentUpdate)
    (c : Comment) (h : st.findComment id = .ok (some c)) :
    ∃ r, st.updateComment id data = .ok r := by
  unfold Store.updateComment
  rw [h]
  exact ⟨_, rfl⟩

theorem Store.deleteComment_of_find (st : Store) (id : Option Int) (c : Comment)
    (h : st.findComment id = .ok (some c)) : ∃ r, st.deleteComment id = .ok r := by
  unfold Store.deleteComment
  rw [h]
  exact ⟨_, rfl⟩

/-- An error of `invalidatePostsListCache` is the error of the cache client. -/
theorem invalidatePostsListCache_error (r r' : Redis) (e : JsError)
    (h : invalidatePostsListCache r = (.error e, r')) : e = redisError := by
  unfold invalidatePostsListCache Redis.keys Redis.del at h
  split at h
  · rename_i e' hk
    split at hk
    · simp only [Except.error.injEq] at hk
      simp only [Prod.mk.injEq, Except.error.injEq] at h
      rw [← h.1, ← hk]
    · exact absurd hk (by simp)
  · split at h
    · split at h
      · rename_i e' hd
        split at hd
        · simp only [Except.error.injEq] at hd
          simp only [Prod.mk.injEq, Except.error.injEq] at h
          rw [← h.1, ← hd]
        · exact absurd hd (by simp)
      · exact absurd h (by simp)
    · exact absurd h (by simp)

/-- An error of the invalidation block is the error of the cache client. -/
theorem invalidatePostCaches_error (postId : String) (r r' : Redis) (e : JsError)
    (h : invalidatePostCaches postId r = (.error e, r')) : e = redisError := by
  unfold invalidatePostCaches at h
  split at h
  · rename_i e' hd
    simp only [Prod.mk.injEq, Except.error.injEq] at h
    unfold Redis.del at hd
    split at hd
    · simp only [Except.error.injEq] at hd
      rw [← h.1, ← hd]
    · exact absurd hd (by simp)
  · split at h
    · rename_i e' r'' hl
      simp only [Prod.mk.injEq, Except.error.injEq] at h
      rw [← h.1]
      exact invalidatePostsListCache_error _ _ _ hl
    · exact absurd h (by simp)

/-- The lookup of a post by the result of `parseInt`: the validation error for
`NaN`, the row of the id for an integer. -/
theorem Store.findPost_cases (st : Store) (id : Option Int) :
    (id = none → st.findPost id = .error queryValidationError) ∧
    (∀ n, id = some n → st.findPost id = .ok (st.postById n)) := by
  constructor
  · intro h; subst h; rfl
  · intro n h; subst h; rfl

/-- The lookup of a comment by the result of `parseInt`. -/
theorem Store.findComment_cases (st : Store) (id : Option Int) :
    (id = none → st.findComment id = .error queryValidationError) ∧
    (∀ n, id = some n → st.findComment id = .ok (st.commentById n)) := by
  constructor
  · intro h; subst h; rfl
  · intro n h; subst h; rfl

/-- The ownership check follows from the four branches of a mutation: the
validation error for an id that is `NaN`, a 404 for an absent row, a 403 for
the row of another author, and for the row of the requester a result that
succeeds under `env` and is no 403. -/
theorem OwnershipCheck.of_branches {α β : Type} (id : Option Int) (row : Int → Option β)
    (authorId : β → Int) (userId : Int) (env : Prop) (res : Except JsError α)
    (hnan : id = none → res = .error queryValidationError)
    (habsent : ∀ n, id = some n → row n = none → FailsWith res 404)
    (hother : ∀ n x, id = some n → row n = some x → authorId x ≠ userId → FailsWith res 403)
    (hown : ∀ n x, id = some n → row n = some x → authorId x = userId →
      (env → Succeeds res) ∧ ¬ FailsWith res 403) :
    OwnershipCheck id row authorId userId env res := by
  refine ⟨habsent, hother, fun n x hn hx ho => (hown n x hn hx ho).1, ?_, hnan⟩
  intro h403
  cases hid : id with
  | none =>
    exfalso
    rw [hnan hid] at h403
    obtain ⟨e, he, hs⟩ := h403
    cases he
    simp [queryValidationError] at hs
  | some n =>
    cases hr : row n with
    | none =>
      exfalso
      obtain ⟨e, he, hs⟩ := habsent n hid hr
      obtain ⟨e', he', hs'⟩ := h403
      rw [he] at he'
      cases he'
      rw [hs] at hs'
      cases hs'
    | some x =>
      by_cases ho : authorId x = userId
      · exact absurd h403 (hown n x hid hr ho).2
      · exact ⟨n, x, rfl, hr, ho⟩

theorem updatePost_check (id : String) (data : PostUpdate) (userId : Int) (w : World) :
    OwnershipCheck (parseInt id) w.store.postById Post.authorId userId w.redis.Works
      (updatePost id data userId w).1 := by
  apply OwnershipCheck.of_branches
  · intro hid
    simp only [updatePost, (w.store.findPost_cases _).1 hid]
  · intro n hid hr
    simp only [updatePost, (w.store.findPost_cases _).2 n hid, hr]
    exact ⟨_, rfl, rfl⟩
  · intro n p hid hr ho
    simp only [updatePost, (w.store.findPost_cases _).2 n hid, hr, ho, ne_eq, not_false_eq_true,
      if_true]
    exact ⟨_, rfl, rfl⟩
  · intro n p hid hr ho
    have hf : w.store.findPost (parseInt id) = .ok (some p) := by
      rw [(w.store.findPost_cases _).2 n hid, hr]
    obtain ⟨⟨up, st'⟩, hu⟩ := w.store.updatePost_of_find (parseInt id) data p hf
    simp only [updatePost, hf, ho, ne_eq, not_true_eq_false, if_false, hu]
    constructor
    · intro hw
      rw [invalidatePostCaches_works id w.redis hw]
      exact ⟨_, rfl⟩
    · rintro ⟨e, he, hs⟩
      rcases hi : invalidatePostCaches id w.redis with ⟨res, r'⟩
      rw [hi] at he
      cases res with
      | error e' =>
        have := invalidatePostCaches_error id w.redis r' e' hi
        simp only [Except.error.injEq] at he
        rw [← he, this] at hs
        simp [redisError] at hs
      | ok _ => simp at he

theorem deletePost_check (id : String) (userId : Int) (w : World) :
    OwnershipCheck (parseInt id) w.store.postById Post.authorId userId w.redis.Works
      (deletePost id userId w).1 := by
  apply OwnershipCheck.of_branches
  · intro hid
    simp only [deletePost, (w.store.findPost_cases _).1 hid]
  · intro n hid hr
    simp only [deletePost, (w.store.findPost_cases _).2 n hid, hr]
    exact ⟨_, rfl, rfl⟩
  · intro n p hid hr ho
    simp only [deletePost, (w.store.findPost_cases _).2 n hid, hr, ho, ne_eq, not_false_eq_true,
      if_true]
    exact ⟨_, rfl, rfl⟩
  · intro n p hid hr ho
    have hf : w.store.findPost (parseInt id) = .ok (some p) := by
      rw [(w.store.findPost_cases _).2 n hid, hr]
    obtain ⟨⟨dp, st'⟩, hu⟩ := w.store.deletePost_of_find (parseInt id) p hf
    simp only [deletePost, hf, ho, ne_eq, not_true_eq_false, if_false, hu]
    constructor
    · intro hw
      rw [invalidatePostCaches_works id w.redis hw]
      exact ⟨_, rfl⟩
    · rintro ⟨e, he, hs⟩
      rcases hi : invalidatePostCaches id w.redis with ⟨res, r'⟩
      rw [hi] at he
      cases res with
      | error e' =>
        have := invalidatePostCaches_error id w.redis r' e' hi
        simp only [Except.error.injEq] at he
        rw [← he, this] at hs
        simp [redisError] at hs
      | ok _ => simp at he

theorem updateComment_check (id : String) (data : CommentUpdate) (userId : Int) (w : World) :
    OwnershipCheck (parseInt id) w.store.commentById Comment.authorId userId True
      (updateComment id data userId w).1 := by
  apply OwnershipCheck.of_branches
  · intro hid
    simp only [updateComment, (w.store.findComment_cases _).1 hid]
  · intro n hid hr
    simp only [updateComment, (w.store.findComment_cases _).2 n hid, hr]
    exact ⟨_, rfl, rfl⟩
  · intro n c hid hr ho
    simp only [updateComment, (w.store.findComment_cases _).2 n hid, hr, ho, ne_eq,
      not_false_eq_true, if_true]
    exact ⟨_, rfl, rfl⟩
  · intro n c hid hr ho
    have hf : w.store.findComment (parseInt id) = .ok (some c) := by
      rw [(w.store.findComment_cases _).2 n hid, hr]
    obtain ⟨⟨uc, st'⟩, hu⟩ := w.store.updateComment_of_find (parseInt id) data c hf
    simp only [updateComment, hf, ho, ne_eq, not_true_eq_false, if_false, hu]
    exact ⟨fun _ => ⟨_, rfl⟩, fun h => by obtain ⟨e, he, _⟩ := h; cases he⟩

theorem deleteComment_check (id : String) (userId : Int) (w : World) :
    OwnershipCheck (parseInt id) w.store.commentById Comment.authorId userId True
      (deleteComment id userId w).1 := by
  apply OwnershipCheck.of_branches
  · intro hid
    simp only [deleteComment, (w.store.findComment_cases _).1 hid]
  · intro n hid hr
    simp only [deleteComment, (w.store.findComment_cases _).2 n hid, hr]
    exact ⟨_, rfl, rfl⟩
  · intro n c hid hr ho
    simp only [deleteComment, (w.store.findComment_cases _).2 n hid, hr, ho, ne_eq,
      not_false_eq_true, if_true]
    exact ⟨_, rfl, rfl⟩
  · intro n c hid hr ho
    have hf : w.store.findComment (parseInt id) = .ok (some c) := by
      rw [(w.store.findComment_cases _).2 n hid, hr]
    obtain ⟨⟨dc, st'⟩, hu⟩ := w.store.deleteComment_of_find (parseInt id) c hf
    simp only [deleteComment, hf, ho, ne_eq, not_true_eq_false, if_false, hu]
    exact ⟨fun _ => ⟨_, rfl⟩, fun h => by obtain ⟨e, he, _⟩ := h; cases he⟩

/-- No row of the table carries the id exactly when the lookup by the id gives
nothing. -/
theorem Store.postById_eq_none_iff (st : Store) (n : Int) :
    st.postById n = none ↔ ∀ p ∈ st.posts, p.id ≠ n := by
  unfold Store.postById
  simp only [List.find?_eq_none, beq_iff_eq]

/-- No row of the comment table carries the id exactly when the lookup by the
id gives nothing. -/
theorem Store.commentById_eq_none_iff (st : Store) (n : Int) :
    st.commentById n = none ↔ ∀ c ∈ st.comments, c.id ≠ n := by
  unfold Store.commentById
  simp only [List.find?_eq_none, beq_iff_eq]

/-- The row the lookup by an id finds is a stored post with that id. -/
theorem Store.postById_some (st : Store) (n : Int) (p : Post)
    (h : st.postById n = some p) : p.id = n ∧ p ∈ st.posts := by
  unfold Store.postById at h
  have h1 := List.find?_some h
  have h2 := List.mem_of_find?_eq_some h
  simp only [beq_iff_eq] at h1
  exact ⟨h1, h2⟩

/-! ## C1: existence before ownership -/

/-- C1, the cases the claim leaves out. The id text `abc` does not parse, so
the store holds no resource with id `parseInt('abc')`; `updatePost`,
`deletePost`, `updateComment` and `deleteComment` fail on it with the
validation error of the store's client, which carries no status code, not
with 404. And with a cache backend that raises, Ada's update of her own post
does not succeed, although the post exists and is hers. -/
theorem unparsable_id_is_no_404 :
    parseInt "abc" = none ∧
    (updatePost "abc" {} 1 sampleWorld).1 = .error queryValidationError ∧
    (deletePost "abc" 1 sampleWorld).1 = .error queryValidationError ∧
    (updateComment "abc" {} 2 sampleWorld).1 = .error queryValidationError ∧
    (deleteComment "abc" 2 sampleWorld).1 = .error queryValidationError ∧
    queryValidationError.statusCode = none ∧
    ¬ FailsWith (updatePost "abc" {} 1 sampleWorld).1 404 ∧
    sampleWorldCacheDown.store.postById 1 = some samplePost ∧ samplePost.authorId = 1 ∧
    ¬ Succeeds (updatePost "1" { title := some "Updated Title" } 1 sampleWorldCacheDown).1 := by
  decide

/-- C1, amended. For `updatePost`, `deletePost`, `updateComment` and
`deleteComment`, in every state and for every id text and requester: when
`parseInt(id)` is an integer and the store holds no resource with that id the
call fails with status 404; when it holds one whose `authorId` is not the
requester the call fails with status 403; when it holds one whose `authorId` is
the requester the call succeeds (for the two post mutations, which end by
invalidating the cache, provided the cache backend answers); a 403 is raised
only for a resource that exists and belongs to someone else; and when
`parseInt(id)` is `NaN` the call fails with the validation error of the store's
client, which is neither a 404 nor a 403. -/
theorem ownership_checked_after_existence (w : World) (id : String) (userId : Int)
    (postData : PostUpdate) (commentData : CommentUpdate) :
    OwnershipCheck (parseInt id) w.store.postById Post.authorId userId w.redis.Works
      (updatePost id postData userId w).1 ∧
    OwnershipCheck (parseInt id) w.store.postById Post.authorId userId w.redis.Works
      (deletePost id userId w).1 ∧
    OwnershipCheck (parseInt id) w.store.commentById Comment.authorId userId True
      (updateComment id commentData userId w).1 ∧
    OwnershipCheck (parseInt id) w.store.commentById Comment.authorId userId True
      (deleteComment id userId w).1 :=
  ⟨updatePost_check id postData userId w, deletePost_check id userId w,
   updateComment_check id commentData userId w, deleteComment_check id userId w⟩

/-- In the sample state the three branches of C1 are taken: an unknown id gives
404, Bob's attempt on Ada's post gives 403, and Ada's own attempt succeeds. -/
theorem ownership_checked_after_existence_witness :
    FailsWith (updatePost "99999" {} 1 sampleWorld).1 404 ∧
    FailsWith (updatePost "1" { title := some "Hacked Title" } 2 sampleWorld).1 403 ∧
    Succeeds (updatePost "1" { title := some "Updated Title" } 1 sampleWorld).1 ∧
    FailsWith (deleteComment "1" 1 sampleWorld).1 403 ∧
    Succeeds (deleteComment "1" 2 sampleWorld).1 :=
  ⟨(ownership_checked_after_existence sampleWorld "99999" 1 {} {}).1.1 99999
     (by decide) (by decide),
   (ownership_checked_after_existence sampleWorld "1" 2 { title := some "Hacked Title" } {}).1.2.1
     1 samplePost (by decide) (by decide) (by decide),
   (ownership_checked_after_existence sampleWorld "1" 1 { title := some "Updated Title" } {}).1.2.2.1
     1 samplePost (by decide) (by decide) (by decide) (by decide),
   (ownership_checked_after_existence sampleWorld "1" 1 {} {}).2.2.2.2.1
     1 sampleComment (by decide) (by decide) (by decide),
   (ownership_checked_after_existence sampleWorld "1" 2 {} {}).2.2.2.2.2.1
     1 sampleComment (by decide) (by decide) (by decide) trivial⟩

/-! ## C2: the author of a post or comment under update -/

/-- An update whose payload carries no `authorId` leaves the author of the
post as it was. -/
theorem updatePost_keeps_author (id : String) (data : PostUpdate) (userId : Int) (w w' : World)
    (r : PostWithAuthor) (hd : data.authorId = none)
    (h : updatePost id data userId w = (.ok r, w')) :
    r.post.authorId = userId ∧
    ∃ p, w.store.findPost (parseInt id) = .ok (some p) ∧ p.authorId = userId := by
  unfold updatePost at h
  cases hf : w.store.findPost (parseInt id) with
  | error e => rw [hf] at h; simp at h
  | ok found =>
    cases found with
    | none => rw [hf] at h; simp at h
    | some p =>
      rw [hf] at h
      by_cases ho : p.authorId = userId
      · simp only [ho, ne_eq, not_true_eq_false, if_false, Store.updatePost, hf] at h
        split at h
        · simp at h
        · simp only [Prod.mk.injEq, Except.ok.injEq] at h
          refine ⟨?_, p, rfl, ho⟩
          rw [← h.1]
          simp [PostUpdate.apply, hd, ho]
      · simp [ho] at h

/-- C2, where the code departs from it. In the sample state Ada (user 1), the
owner of post 1, sends the update controller a body that carries
`authorId: 2`: the update succeeds with status 200 and the stored post now
belongs to Bob (user 2). In the same way Bob (user 2), the author of comment 1,
sends the comment controller a body with `authorId: 1`, and the stored comment
is then attributed to Ada. -/
theorem update_payload_reassigns_author :
    (sampleWorld.store.postById 1).map Post.authorId = some 1 ∧
    (PostController.update "1" { authorId := some 2 } 1 sampleWorld).1
      = .sent 200 "Post updated successfully"
          (some { post := { samplePost with authorId := 2, updatedAt := 4 }
                  author := some { id := 2, name := "Bob", email := "bob@example.com" } }) ∧
    ((PostController.update "1" { authorId := some 2 } 1 sampleWorld).2.store.postById
      1).map Post.authorId = some 2 ∧
    (sampleWorld.store.commentById 1).map Comment.authorId = some 2 ∧
    ((CommentController.update "1" { authorId := some 1 } 2 sampleWorld).2.store.commentById
      1).map Comment.authorId = some 1 := by
  decide

/-! ## C3: reading a post after a write -/

/-- A key that no entry carries is a miss. -/
theorem cacheLookup_absent (r : Redis) (key : String)
    (h : ∀ e ∈ r.entries, (e.1 == key) = false) : cacheLookup r key = none := by
  unfold cacheLookup Redis.get
  split_ifs
  · rfl
  · have : r.entries.find? (fun e => e.1 == key) = none := by
      rw [List.find?_eq_none]
      intro e he
      simp [h e he]
    simp [this, truthy]

theorem Redis.erase_absent (r : Redis) (key pre : String) :
    ∀ e ∈ ((r.erase key).without pre).entries, (e.1 == key) = false := by
  intro e he
  simp only [Redis.without, Redis.erase, List.mem_filter] at he
  simpa using he.1.2

/-- After a successful `updatePost` through an id text, with a working cache,
reading the post through the same id text goes to the store: it returns
the post as the store now holds it. -/
theorem getPostById_after_updatePost_same_text (id : String) (data : PostUpdate) (userId : Int)
    (w w' : World) (r : PostWithAuthor) (hw : w.redis.Works)
    (h : updatePost id data userId w = (.ok r, w')) :
    (getPostById id w').1
      = match w'.store.findPostDetail (parseInt id) with
        | .ok (some d) => .ok (.postDetail d)
        | .ok none => .error postNotFound
        | .error e => .error e := by
  have hred : w'.redis = (w.redis.erase (getPostCacheKey id)).without "posts:list:" := by
    unfold updatePost at h
    rw [invalidatePostCaches_works id w.redis hw] at h
    split at h
    · simp at h
    · simp at h
    · split at h
      · simp at h
      · split at h
        · simp at h
        · simp only [Prod.mk.injEq] at h
          rw [← h.2]
  have hmiss : cacheLookup w'.redis (getPostCacheKey id) = none :=
    cacheLookup_absent _ _ (hred ▸ Redis.erase_absent w.redis (getPostCacheKey id) _)
  simp only [getPostById, hmiss]
  cases w'.store.findPostDetail (parseInt id) with
  | error e => rfl
  | ok found => cases found <;> rfl

/-- C3, where the code departs from it. The id texts `1` and `01` both parse
to 1, the id of Ada's post. The post has been read under `01`, so the cache
holds it under `post:01`. Ada then updates the title through the id text `1`:
the update succeeds and the store holds the new title, but `updatePost` deletes
the key `post:1` only, and the next `getPostById('01')` returns the cached post
with the old title. In the same way, after Ada deletes the post through `1`,
`getPostById('01')` still returns the post instead of failing with 404. -/
theorem stale_post_under_other_id_text :
    parseInt "1" = some 1 ∧ parseInt "01" = some 1 ∧ sampleWorldRead.redis.Works ∧
    (updatePost "1" { title := some "Updated Title" } 1 sampleWorldRead).1
      = .ok { post := { samplePost with title := "Updated Title", updatedAt := 4 }
              author := some { id := 1, name := "Ada", email := "ada@example.com" } } ∧
    ((updatePost "1" { title := some "Updated Title" } 1 sampleWorldRead).2.store.postById
      1).map Post.title = some "Updated Title" ∧
    (getPostById "01" (updatePost "1" { title := some "Updated Title" } 1 sampleWorldRead).2).1
      = .ok (.postDetail
          { post := samplePost
            author := some { id := 1, name := "Ada", email := "ada@example.com" }
            comments := [{ comment := sampleComment
                           author := some { id := 2, name := "Bob", email := "bob@example.com" } }] }) ∧
    (deletePost "1" 1 sampleWorldRead).1 = .ok samplePost ∧
    (deletePost "1" 1 sampleWorldRead).2.store.postById 1 = none ∧
    (getPostById "01" (deletePost "1" 1 sampleWorldRead).2).1
      = .ok (.postDetail
          { post := samplePost
            author := some { id := 1, name := "Ada", email := "ada@example.com" }
            comments := [{ comment := sampleComment
                           author := some { id := 2, name := "Bob", email := "bob@example.com" } }] }) := by
  decide

/-! ## C4: the list cache after a write of a post -/

theorem getPostsListCacheKey_hasPrefix (params : ListParams) :
    hasPrefix "posts:list:" (getPostsListCacheKey params) = true := by
  unfold hasPrefix getPostsListCacheKey
  rw [List.isPrefixOf_iff_prefix]
  have h : "posts:list:page:" = "posts:list:" ++ "page:" := by decide
  rw [h]
  simp only [String.append_assoc]
  exact ⟨_, (String.data_append _ _).symm⟩

theorem noListEntries_without (r : Redis) : NoListEntries (r.without "posts:list:") := by
  intro e he
  simp only [Redis.without, List.mem_filter] at he
  simpa using he.2

/-- With no list entry in the cache, `getAllPosts` computes its answer from
the store. -/
theorem getAllPosts_of_noListEntries (w : World) (h : NoListEntries w.redis)
    (params : ListParams) : (getAllPosts params w).1 = listFromStore w.store params := by
  have hmiss : ∀ p : ListParams, cacheLookup w.redis (getPostsListCacheKey p) = none := by
    intro p
    apply cacheLookup_absent
    intro e he
    by_contra hc
    have heq : e.1 = getPostsListCacheKey p := by simpa using hc
    have := h e he
    rw [heq, getPostsListCacheKey_hasPrefix] at this
    exact absurd this (by simp)
  simp only [getAllPosts, hmiss, listFromStore]
  cases loadPostsPage w.store (params.page.orDefault (.num 1))
    (params.limit.orDefault (.num 10)) params.published params.authorId <;> rfl

theorem listFresh_of_noListEntries (w : World) (h : NoListEntries w.redis) : ListFresh w :=
  ⟨h, getAllPosts_of_noListEntries w h⟩

/-- With a working cache, `createPost` returns the created post; the store has
the post appended and the cache has lost its list entries. -/
theorem createPost_works (input : PostInput) (authorId : Int) (w : World) (hw : w.redis.Works) :
    createPost input authorId w
      = (.ok (w.store.createPost input.title input.content (input.published.getD false)
                authorId).1,
         { store := (w.store.createPost input.title input.content (input.published.getD false)
                      authorId).2
           redis := w.redis.without "posts:list:" }) := by
  simp only [createPost, invalidatePostsListCache_works w.redis hw]

/-- The cache after a successful `updatePost` with a working backend. -/
theorem updatePost_redis (id : String) (data : PostUpdate) (userId : Int) (w w' : World)
    (r : PostWithAuthor) (hw : w.redis.Works) (h : updatePost id data userId w = (.ok r, w')) :
    w'.redis = (w.redis.erase (getPostCacheKey id)).without "posts:list:" := by
  unfold updatePost at h
  rw [invalidatePostCaches_works id w.redis hw] at h
  split at h
  · simp at h
  · simp at h
  · split at h
    · simp at h
    · split at h
      · simp at h
      · simp only [Prod.mk.injEq] at h
        rw [← h.2]

/-- The cache after a successful `deletePost` with a working backend. -/
theorem deletePost_redis (id : String) (userId : Int) (w w' : World)
    (r : Post) (hw : w.redis.Works) (h : deletePost id userId w = (.ok r, w')) :
    w'.redis = (w.redis.erase (getPostCacheKey id)).without "posts:list:" := by
  unfold deletePost at h
  rw [invalidatePostCaches_works id w.redis hw] at h
  split at h
  · simp at h
  · simp at h
  · split at h
    · simp at h
    · split at h
      · simp at h
      · simp only [Prod.mk.injEq] at h
        rw [← h.2]

/-- The answer of the store path of `getAllPosts` for a numeric page and limit,
both at least 1, and a `where` object the store accepts. -/
theorem loadPostsPage_numeric (st : Store) (p l : Int) (hp : 1 ≤ p) (hl : 1 ≤ l)
    (published authorId : JsParam) (hv : (buildWhere published authorId).valid = true) :
    loadPostsPage st (.num p) (.num l) published authorId
      = .ok (pageOfStore st (buildWhere published authorId) p l) := by
  have hsk : ¬ ((p - 1) * l < 0) := by
    have : 0 ≤ (p - 1) * l := mul_nonneg (by omega) (by omega)
    omega
  have hl0 : 0 ≤ l := by omega
  have hlpos : 0 < l := by omega
  simp only [pageOfStore, loadPostsPage, JsParam.toNumber, JsParam.parseInt, Store.findManyPosts,
    Store.countPosts, hv, ceilDiv, hsk, hl0, hlpos, decide_False, Bool.not_true, Bool.or_false,
    Bool.false_eq_true, if_false, if_true]

theorem mem_page_of_index {α : Type} (L : List α) (a : α) (s l i : Nat) (hi : L[i]? = some a)
    (h₁ : s ≤ i) (h₂ : i < s + l) : a ∈ (L.drop s).take l := by
  rw [List.mem_iff_getElem?]
  refine ⟨i - s, ?_⟩
  rw [List.getElem?_take_of_lt (by omega), List.getElem?_drop]
  rw [show s + (i - s) = i by omega]
  exact hi

theorem mem_matchingPosts (st : Store) (wh : PostWhere) (p : Post) :
    p ∈ st.matchingPosts wh ↔ p ∈ st.posts ∧ wh.test p = true := by
  unfold Store.matchingPosts
  rw [(List.perm_insertionSort newerFirst _).mem_iff, List.mem_filter]

/-- C4. With a working cache backend, after a successful `createPost`,
`updatePost` or `deletePost` the cache holds no entry whose key starts with
`posts:list:`, and `getAllPosts(params)` returns, for every `params`, what the
store path computes from the store as it is after the write. `createPost` does
succeed, the created post is in the store, it is among the posts matching a
filter whenever it passes the filter, and when its position in the matching
posts (newest first) lies on the page asked for (numeric page and limit, both
at least 1), it is in the posts of the response. -/
theorem list_cache_fresh_after_post_write (w : World) (hw : w.redis.Works) :
    (∀ input authorId, ∃ r w', createPost input authorId w = (.ok r, w') ∧ ListFresh w' ∧
        r.post ∈ w'.store.posts ∧
        ∀ (p l : Int) (published author : JsParam), 1 ≤ p → 1 ≤ l →
          (buildWhere published author).valid = true →
          (r.post ∈ w'.store.matchingPosts (buildWhere published author) ↔
            (buildWhere published author).test r.post = true) ∧
          ∃ res, (getAllPosts { page := .num p, limit := .num l, published := published
                                authorId := author } w').1 = .ok (.postList res) ∧
            ∀ i : Nat, (w'.store.matchingPosts (buildWhere published author))[i]? = some r.post →
              ((p - 1) * l).toNat ≤ i → i < ((p - 1) * l).toNat + l.toNat →
              w'.store.listItem r.post ∈ res.posts) ∧
    (∀ id data userId r w', updatePost id data userId w = (.ok r, w') → ListFresh w') ∧
    (∀ id userId r w', deletePost id userId w = (.ok r, w') → ListFresh w') := by
  refine ⟨?_, ?_, ?_⟩
  · intro input authorId
    refine ⟨_, _, createPost_works input authorId w hw, ?_, ?_, ?_⟩
    · exact listFresh_of_noListEntries _ (noListEntries_without w.redis)
    · simp [Store.createPost]
    · intro p l published author hp hl hv
      constructor
      · rw [mem_matchingPosts]
        simp [Store.createPost]
      · refine ⟨pageOfStore (w.store.createPost input.title input.content
            (input.published.getD false) authorId).2 (buildWhere published author) p l, ?_, ?_⟩
        · rw [getAllPosts_of_noListEntries _ (noListEntries_without w.redis)]
          simp only [listFromStore, JsParam.orDefault]
          rw [loadPostsPage_numeric _ p l hp hl published author hv]
        · intro i hi h₁ h₂
          exact List.mem_map_of_mem _ (mem_page_of_index _ _ _ _ _ hi h₁ h₂)
  · intro id data userId r w' h
    apply listFresh_of_noListEntries
    rw [updatePost_redis id data userId w w' r hw h]
    exact noListEntries_without _
  · intro id userId r w' h
    apply listFresh_of_noListEntries
    rw [deletePost_redis id userId w w' r hw h]
    exact noListEntries_without _

/-- In the sample state with a cached list page, Ada's update of her post is
a case of C4: the cache works, it holds a list entry before, and the list cache
is fresh afterwards. -/
theorem list_cache_fresh_after_post_write_witness :
    sampleWorldListed.redis.Works ∧ ¬ NoListEntries sampleWorldListed.redis ∧
    ListFresh (updatePost "1" { title := some "Updated Title" } 1 sampleWorldListed).2 :=
  ⟨by decide, by unfold NoListEntries; decide,
   (list_cache_fresh_after_post_write sampleWorldListed (by decide)).2.1
     "1" { title := some "Updated Title" } 1
     { post := { samplePost with title := "Updated Title", updatedAt := 4 }
       author := some { id := 1, name := "Ada", email := "ada@example.com" } }
     (updatePost "1" { title := some "Updated Title" } 1 sampleWorldListed).2 (by decide)⟩

/-! ## C5: a failing invalidation -/

/-- Whenever the backend raises on `keys`, `createPost` throws the error of
the cache client, and the post it has created is in the store. -/
theorem createPost_throws_after_write (input : PostInput) (authorId : Int) (w : World)
    (h : w.redis.keysFails = true) :
    (createPost input authorId w).1 = .error redisError ∧
    (w.store.createPost input.title input.content (input.published.getD false) authorId).1.post
      ∈ (createPost input authorId w).2.store.posts := by
  simp [createPost, invalidatePostsListCache, Redis.keys, h, Store.createPost]

/-- C5, where the code departs from it. With the cache backend down,
`createPost`, `updatePost` and `deletePost` each write to the store and then
throw the error of the cache client instead of returning the record: the
invalidation that follows the write is awaited outside any `try`. In each case
the store has changed (the post is created, retitled, removed) although the
caller receives an error. -/
theorem failing_invalidation_fails_the_mutation :
    (createPost { title := "Test Post", content := "This is test content"
                  published := some true } 1 sampleWorldCacheDown).1 = .error redisError ∧
    ((createPost { title := "Test Post", content := "This is test content"
                   published := some true } 1 sampleWorldCacheDown).2.store.postById
        2).map Post.title = some "Test Post" ∧
    (updatePost "1" { title := some "Updated Title" } 1 sampleWorldCacheDown).1
      = .error redisError ∧
    ((updatePost "1" { title := some "Updated Title" } 1 sampleWorldCacheDown).2.store.postById
        1).map Post.title = some "Updated Title" ∧
    (deletePost "1" 1 sampleWorldCacheDown).1 = .error redisError ∧
    (deletePost "1" 1 sampleWorldCacheDown).2.store.postById 1 = none ∧
    sampleWorldCacheDown.store.postById 1 = some samplePost ∧
    sampleWorldCacheDown.store.postById 2 = none := by
  decide

/-! ## C6: the cached post after a write of a comment -/

/-- The three comment mutations leave the cache as it is, whatever they
return. -/
theorem comment_writes_keep_cache (w : World) (postId commentId content : String)
    (data : CommentUpdate) (userId : Int) :
    (createComment content postId userId w).2.redis = w.redis ∧
    (updateComment commentId data userId w).2.redis = w.redis ∧
    (deleteComment commentId userId w).2.redis = w.redis := by
  refine ⟨?_, ?_, ?_⟩
  · unfold createComment
    split
    · rfl
    · rfl
    · split <;> rfl
  · unfold updateComment
    split
    · rfl
    · rfl
    · split
      · rfl
      · split <;> rfl
  · unfold deleteComment
    split
    · rfl
    · rfl
    · split
      · rfl
      · split <;> rfl

/-- A read of a post whose key holds a cached value returns that value,
whatever the store holds. -/
theorem getPostById_cached (postId : String) (w : World) (v : JsonValue)
    (h : cacheLookup w.redis (getPostCacheKey postId) = some v) :
    getPostById postId w = (.ok v, w) := by
  simp only [getPostById, h]

/-- C6, where the code departs from it. Ada's post is cached under `post:1`
with its one comment. A new comment is created on the post: the store then
holds two comments of the post, and `getPostById('1')` still returns the cached
post with one comment. Bob deletes his comment: the store holds no comment of
the post, and `getPostById('1')` still returns the post with the deleted
comment. Bob edits his comment: `getPostById('1')` returns the old content. The
comment service never touches the cache. -/
theorem comment_writes_leave_cached_post :
    (getPostById "1" sampleWorldCached).1
      = .ok (.postDetail
          { post := samplePost
            author := some { id := 1, name := "Ada", email := "ada@example.com" }
            comments := [{ comment := sampleComment
                           author := some { id := 2, name := "Bob", email := "bob@example.com" } }] }) ∧
    Succeeds (createComment "Second comment" "1" 1 sampleWorldCached).1 ∧
    ((createComment "Second comment" "1" 1 sampleWorldCached).2.store.postDetailById
        1).map (fun d => d.comments.map (fun c => c.comment.content))
      = some ["Second comment", "This is a great post!"] ∧
    (getPostById "1" (createComment "Second comment" "1" 1 sampleWorldCached).2).1
      = (getPostById "1" sampleWorldCached).1 ∧
    (deleteComment "1" 2 sampleWorldCached).1 = .ok sampleComment ∧
    ((deleteComment "1" 2 sampleWorldCached).2.store.postDetailById
        1).map (fun d => d.comments) = some [] ∧
    (getPostById "1" (deleteComment "1" 2 sampleWorldCached).2).1
      = (getPostById "1" sampleWorldCached).1 ∧
    Succeeds (updateComment "1" { content := some "Edited" } 2 sampleWorldCached).1 ∧
    ((updateComment "1" { content := some "Edited" } 2 sampleWorldCached).2.store.postDetailById
        1).map (fun d => d.comments.map (fun c => c.comment.content))
      = some ["Edited"] ∧
    (getPostById "1" (updateComment "1" { content := some "Edited" } 2 sampleWorldCached).2).1
      = (getPostById "1" sampleWorldCached).1 := by
  decide

/-! ## C7: the keys of the list cache -/

theorem split_at_colon (a b r s : List Char) (ha : ':' ∉ a) (hb : ':' ∉ b)
    (h : a ++ ':' :: r = b ++ ':' :: s) : a = b ∧ r = s := by
  induction a generalizing b with
  | nil =>
    cases b with
    | nil => simpa using h
    | cons y b =>
      simp only [List.nil_append, List.cons_append, List.cons.injEq] at h
      exact absurd (h.1 ▸ List.mem_cons_self y b) hb
  | cons x a ih =>
    cases b with
    | nil =>
      simp only [List.nil_append, List.cons_append, List.cons.injEq] at h
      exact absurd (h.1 ▸ List.mem_cons_self x a) ha
    | cons y b =>
      simp only [List.cons_append, List.cons.injEq] at h
      have := ih b (fun hm => ha (List.mem_cons_of_mem x hm))
        (fun hm => hb (List.mem_cons_of_mem y hm)) h.2
      exact ⟨by rw [h.1, this.1], this.2⟩

theorem JsParam.Plain.render_noColon {x : JsParam} (h : x.Plain) : ':' ∉ x.render.toList := by
  rcases h with h | ⟨s, h, hs, _⟩
  · subst h; decide
  · subst h; exact hs

theorem JsParam.Plain.orDefault_noColon {x : JsParam} (h : x.Plain) (n : Int)
    (hn : ':' ∉ (toString n).toList) : ':' ∉ (x.orDefault (.num n)).render.toList := by
  rcases h with h | ⟨s, h, hs, _⟩
  · subst h; exact hn
  · subst h; exact hs

theorem JsParam.Plain.render_inj {x y : JsParam} (hx : x.Plain) (hy : y.Plain)
    (h : x.render = y.render) : x = y := by
  rcases hx with hx | ⟨s, hx, _, hs⟩ <;> rcases hy with hy | ⟨u, hy, _, hu⟩ <;> subst hx hy
  · rfl
  · exact absurd h.symm hu
  · exact absurd h hs
  · simp only [JsParam.render] at h
    rw [h]

/-- Away from the two collisions, the keys of the list cache are distinct: for
two parameter records whose components are unset or texts without `:` other
than `undefined`, equal keys force the same page and limit (after the
defaults, as rendered) and the same filters. -/
theorem list_cache_keys_distinct_on_plain (a b : ListParams)
    (ha : a.page.Plain ∧ a.limit.Plain ∧ a.published.Plain ∧ a.authorId.Plain)
    (hb : b.page.Plain ∧ b.limit.Plain ∧ b.published.Plain ∧ b.authorId.Plain)
    (h : getPostsListCacheKey a = getPostsListCacheKey b) :
    (a.page.orDefault (.num 1)).render = (b.page.orDefault (.num 1)).render ∧
    (a.limit.orDefault (.num 10)).render = (b.limit.orDefault (.num 10)).render ∧
    a.published = b.published ∧ a.authorId = b.authorId := by
  have h' := congrArg String.toList h
  simp only [getPostsListCacheKey, String.toList, String.data_append] at h'
  simp only [List.append_assoc] at h'
  have h₀ := List.append_cancel_left h'
  simp only [List.cons_append, List.nil_append] at h₀
  obtain ⟨e₁, h₁⟩ := split_at_colon _ _ _ _
    (ha.1.orDefault_noColon 1 (by decide)) (hb.1.orDefault_noColon 1 (by decide)) h₀
  simp only [List.cons.injEq, true_and] at h₁
  obtain ⟨e₂, h₂⟩ := split_at_colon _ _ _ _
    (ha.2.1.orDefault_noColon 10 (by decide)) (hb.2.1.orDefault_noColon 10 (by decide)) h₁
  simp only [List.cons.injEq, true_and] at h₂
  obtain ⟨e₃, h₃⟩ := split_at_colon _ _ _ _ ha.2.2.1.render_noColon hb.2.2.1.render_noColon h₂
  simp only [List.cons.injEq, true_and] at h₃
  have e₄ := h₃
  have toStr : ∀ s u : String, s.data = u.data → s = u := fun s u hsu => String.ext hsu
  exact ⟨toStr _ _ e₁, toStr _ _ e₂, ha.2.2.1.render_inj hb.2.2.1 (toStr _ _ e₃),
    ha.2.2.2.render_inj hb.2.2.2 (toStr _ _ e₄)⟩

/-- C7, where the code departs from it. (1) The query with no `published`
parameter and the query `?published=undefined` differ in the `published`
component, one unset and one set, and get the same key, because the unset
filter is rendered as the text `undefined`; the store path answers them
differently (no filter: both posts; the text `undefined`: the filter
`published = false`, one post). Once `?published=undefined` has been served, the
plain query is answered from its cache entry with the one unpublished post.
(2) The parameters `page = '1:limit:2', limit = '3'` and
`page = '1', limit = '2:limit:3'` differ in two components and get the same key,
because the separator is not escaped. -/
theorem list_cache_keys_collide :
    ({ } : ListParams) ≠ { published := .str "undefined" } ∧
    getPostsListCacheKey {} = getPostsListCacheKey { published := .str "undefined" } ∧
    listedTitles (listFromStore sampleWorldTwoPosts.store {})
      = some ["Post 1", "Original Title"] ∧
    listedTitles (listFromStore sampleWorldTwoPosts.store { published := .str "undefined" })
      = some ["Original Title"] ∧
    listedTitles
        (getAllPosts {} (getAllPosts { published := .str "undefined" } sampleWorldTwoPosts).2).1
      = some ["Original Title"] ∧
    ({ page := .str "1:limit:2", limit := .str "3" } : ListParams)
      ≠ { page := .str "1", limit := .str "2:limit:3" } ∧
    getPostsListCacheKey { page := .str "1:limit:2", limit := .str "3" }
      = getPostsListCacheKey { page := .str "1", limit := .str "2:limit:3" } := by
  decide

/-! ## The readable token encoding is lawful -/

namespace Readable

theorem digit_round_trip :
    ∀ d < 10, digitValue 10 (Nat.digitChar d) = some d ∧ Nat.digitChar d ≠ ';' := by
  decide

theorem readNat_digits (ds : List Nat) (h : ∀ d ∈ ds, d < 10) (acc : Nat) (rest : List Char) :
    readNat (ds.map Nat.digitChar ++ ';' :: rest) acc
      = some (ds.foldl (fun a d => a * 10 + d) acc, rest) := by
  induction ds generalizing acc with
  | nil => simp [readNat]
  | cons d ds ih =>
    have hd := digit_round_trip d (h d (List.mem_cons_self d ds))
    simp only [List.map_cons, List.cons_append, readNat, hd.2, if_false, hd.1, List.foldl_cons]
    exact ih (fun x hx => h x (List.mem_cons_of_mem d hx)) _

theorem natDigits_lt (fuel n : Nat) : ∀ d ∈ natDigits fuel n, d < 10 := by
  induction fuel generalizing n with
  | zero => intro d hd; simp [natDigits] at hd
  | succ fuel ih =>
    intro d hd
    unfold natDigits at hd
    split_ifs at hd with h
    · simp only [List.mem_singleton] at hd
      omega
    · rcases List.mem_append.mp hd with h' | h'
      · exact ih _ d h'
      · simp only [List.mem_singleton] at h'
        omega

theorem natDigits_value (fuel n : Nat) (h : n < fuel) :
    (natDigits fuel n).foldl (fun a d => a * 10 + d) 0 = n := by
  induction fuel generalizing n with
  | zero => omega
  | succ fuel ih =>
    unfold natDigits
    split_ifs with h10
    · simp
    · rw [List.foldl_append, ih (n / 10) (by omega)]
      simp only [List.foldl_cons, List.foldl_nil]
      omega

theorem readNat_writeNat (n : Nat) (rest : List Char) :
    readNat (writeNat n ++ rest) 0 = some (n, rest) := by
  unfold writeNat
  rw [List.append_assoc, List.singleton_append, readNat_digits _ (natDigits_lt _ _),
    natDigits_value _ _ (Nat.lt_succ_self n)]

theorem readInt_writeInt (i : Int) (rest : List Char) :
    readInt (writeInt i ++ rest) = some (i, rest) := by
  unfold writeInt
  by_cases h : i < 0
  · simp only [h, if_true, List.cons_append, readInt, readNat_writeNat, Option.map_some']
    congr 2
    omega
  · simp only [h, if_false, List.cons_append, readInt, readNat_writeNat, Option.map_some']
    congr 2
    omega

theorem readStr_writeStr (s : String) (rest : List Char) :
    readStr (writeStr s ++ rest) = some (s, rest) := by
  unfold readStr writeStr
  rw [List.append_assoc, readNat_writeNat]
  have hlen : s.length = s.toList.length := rfl
  simp only [hlen, List.length_append, Nat.le_add_right, if_true, List.take_left',
    List.drop_left']
  rfl

theorem readOptNat_writeOptNat (o : Option Nat) (rest : List Char) :
    readOptNat (writeOptNat o ++ rest) = some (o, rest) := by
  cases o with
  | none => rfl
  | some k => simp [writeOptNat, readOptNat, readNat_writeNat]

theorem readOptStr_writeOptStr (o : Option String) (rest : List Char) :
    readOptStr (writeOptStr o ++ rest) = some (o, rest) := by
  cases o with
  | none => rfl
  | some s => simp [writeOptStr, readOptStr, readStr_writeStr]

theorem readClaims_writeClaims (c : Claims) : readClaims (writeClaims c) = some c := by
  unfold readClaims writeClaims
  have h := readOptStr_writeOptStr c.iss []
  rw [List.append_nil] at h
  simp only [readInt_writeInt, readStr_writeStr, readOptNat_writeOptNat, h]

theorem parse_compact_encode (c : Claims) (signature : String) :
    parse (compact (encode c) signature) = some (c, encode c, signature) := by
  unfold parse compact encode
  have h₁ : ∀ l : List Char, (String.mk l).toList = l := fun _ => rfl
  simp only [h₁, readStr_writeStr, readClaims_writeClaims, Option.map_some']

/-- The readable codec reads back what it writes. -/
theorem codec_lawful : codec.Lawful := by
  intro c secret
  dsimp only [codec]
  exact parse_compact_encode c (checksum secret (encode c))

end Readable

/-! ## C8: the round trip of a token -/

/-- What `verifyToken` returns on a token `generateToken` has issued, before
its expiry. -/
theorem verifyToken_generateToken (lib : JwsCodec) (hlib : lib.Lawful) (cfg : JwtConfig)
    (now later : Nat) (payload : TokenPayload) (h : later < now + cfg.expiresIn) :
    verifyToken lib cfg later (generateToken lib cfg now payload)
      = .ok { userId := payload.userId, email := payload.email, iat := some now
              exp := some (now + cfg.expiresIn), nbf := none, iss := some "blog-api" } := by
  unfold verifyToken jwtVerify generateToken jwtSign
  simp only [hlib _ cfg.secret, ne_eq, not_true_eq_false, if_false, Option.any_none,
    Option.any_some, Bool.false_eq_true, decide_eq_true_eq]
  rw [if_neg (by omega)]

/-- C8 as stated fails: the value `verifyToken` returns on Ada's token, one
second after it was issued, is not the object with exactly the fields of the
payload. -/
theorem token_round_trip_not_exact :
    verifyToken Readable.codec sampleConfig 1700000001
        (generateToken Readable.codec sampleConfig 1700000000 samplePayload)
      ≠ .ok samplePayload.toClaims := by
  rw [verifyToken_generateToken Readable.codec Readable.codec_lawful sampleConfig 1700000000
    1700000001 samplePayload (by decide)]
  decide

/-- C8, amended. For every payload `{userId, email}`, every issue time and
every later time before the expiry, `verifyToken(generateToken(payload))` with
the same secret returns the two fields of the payload with the same values,
together with the three claims the signer adds, and nothing else: `iat` (the
issue time), `exp` (the issue time plus the configured lifetime) and `iss`
(`blog-api`). -/
theorem token_round_trip_with_registered_claims (lib : JwsCodec) (hlib : lib.Lawful)
    (cfg : JwtConfig) (now later : Nat) (payload : TokenPayload)
    (h : later < now + cfg.expiresIn) :
    ∃ c, verifyToken lib cfg later (generateToken lib cfg now payload) = .ok c ∧
      c.userId = payload.userId ∧ c.email = payload.email ∧
      c.iat = some now ∧ c.exp = some (now + cfg.expiresIn) ∧ c.iss = some "blog-api" ∧
      c.nbf = none :=
  ⟨_, verifyToken_generateToken lib hlib cfg now later payload h, rfl, rfl, rfl, rfl, rfl, rfl⟩

/-- Ada's token, issued at 1700000000 in the readable encoding with the
settings of the test environment and verified one second later, is a case of
C8 as amended. -/
theorem token_round_trip_with_registered_claims_witness :
    Readable.codec.Lawful ∧ 1700000001 < 1700000000 + sampleConfig.expiresIn ∧
    ∃ c, verifyToken Readable.codec sampleConfig 1700000001
        (generateToken Readable.codec sampleConfig 1700000000 samplePayload) = .ok c ∧
      c.userId = 1 ∧ c.email = "ada@example.com" ∧
      c.iat = some 1700000000 ∧ c.exp = some (1700000000 + sampleConfig.expiresIn) ∧
      c.iss = some "blog-api" ∧ c.nbf = none :=
  ⟨Readable.codec_lawful, by decide,
   token_round_trip_with_registered_claims Readable.codec Readable.codec_lawful sampleConfig
     1700000000 1700000001 samplePayload (by decide)⟩

/-! ## C9: how `verifyToken` fails -/

theorem Readable.parse_compact (c : Claims) (signature : String) :
    Readable.codec.parse (Readable.codec.compact (Readable.codec.encode c) signature)
      = some (c, Readable.codec.encode c, signature) := by
  dsimp only [Readable.codec]
  exact Readable.parse_compact_encode c signature

/-- A text that is not a token fails with `Invalid token`. -/
theorem verifyToken_malformed (lib : JwsCodec) (cfg : JwtConfig) (now : Nat) (token : String)
    (h : lib.parse token = none) :
    verifyToken lib cfg now token = .error { message := "Invalid token" } := by
  unfold verifyToken jwtVerify
  rw [h]
  rfl

/-- A token whose signature is not the one of the secret fails with
`Invalid token`, whatever its payload. -/
theorem verifyToken_bad_signature (lib : JwsCodec) (cfg : JwtConfig) (now : Nat)
    (token : String) (c : Claims) (input signature : String)
    (h : lib.parse token = some (c, input, signature))
    (hs : signature ≠ lib.hmac cfg.secret input) :
    verifyToken lib cfg now token = .error { message := "Invalid token" } := by
  unfold verifyToken jwtVerify
  rw [h]
  simp only [ne_eq, hs, not_false_eq_true, if_true]
  rfl

/-- A token signed with the secret, active, whose expiry is reached, fails
with `Token has expired`. -/
theorem verifyToken_expired (lib : JwsCodec) (cfg : JwtConfig) (now : Nat)
    (token : String) (c : Claims) (input : String) (exp : Nat)
    (h : lib.parse token = some (c, input, lib.hmac cfg.secret input))
    (hn : ∀ nbf, c.nbf = some nbf → nbf ≤ now) (he : c.exp = some exp) (hexp : exp ≤ now) :
    verifyToken lib cfg now token = .error { message := "Token has expired" } := by
  unfold verifyToken jwtVerify
  rw [h]
  have hnbf : c.nbf.any (fun nbf => decide (now < nbf)) = false := by
    cases hc : c.nbf with
    | none => rfl
    | some n =>
      have := hn n hc
      simp only [Option.any_some, decide_eq_false_iff_not]
      omega
  simp only [ne_eq, not_true_eq_false, if_false, hnbf, Bool.false_eq_true, he, Option.any_some,
    hexp, decide_True, if_true]

/-- A payload is returned only for a token signed with the secret, active and
not expired. -/
theorem verifyToken_ok (lib : JwsCodec) (cfg : JwtConfig) (now : Nat) (token : String)
    (c : Claims) (h : verifyToken lib cfg now token = .ok c) :
    (∃ input, lib.parse token = some (c, input, lib.hmac cfg.secret input)) ∧
    (∀ nbf, c.nbf = some nbf → nbf ≤ now) ∧ (∀ exp, c.exp = some exp → now < exp) := by
  unfold verifyToken jwtVerify at h
  cases hp : lib.parse token with
  | none => rw [hp] at h; simp at h
  | some t =>
    obtain ⟨c', input, signature⟩ := t
    rw [hp] at h
    simp only [ne_eq, ite_not] at h
    by_cases hs : signature = lib.hmac cfg.secret input
    · simp only [hs, if_true] at h
      by_cases hn : c'.nbf.any (fun nbf => decide (now < nbf)) = true
      · simp [hn] at h
      · by_cases he : c'.exp.any (fun exp => decide (exp ≤ now)) = true
        · simp [hn, he] at h
        · simp only [hn, he, Bool.false_eq_true, if_false, Except.ok.injEq] at h
          subst h
          refine ⟨⟨input, by rw [hs]⟩, ?_, ?_⟩
          · intro nbf hnbf
            rw [hnbf] at hn
            simpa using hn
          · intro exp hexp
            rw [hexp] at he
            simpa using he
    · simp [hs] at h

theorem Readable.checksum_ne_forged (secret input : String) :
    "forged" ≠ Readable.checksum secret input := by
  intro h
  have h' := congrArg (fun s : String => s.toList.getLast?) h
  simp only [Readable.checksum, Readable.writeNat] at h'
  rw [show ("forged" : String).toList = ['f', 'o', 'r', 'g', 'e'] ++ ['d'] from rfl] at h'
  have e₁ : ∀ l : List Char, (String.mk (l ++ [';'])).toList.getLast? = some ';' := by
    intro l
    show (l ++ [';']).getLast? = some ';'
    rw [List.getLast?_append]
    rfl
  rw [e₁] at h'
  exact absurd h' (by decide)

/-- C9 as stated fails: the token text `forgedExpiredToken` is well-formed,
its embedded expiry (100) lies before the current time (200), and its signature
is not the one of the secret. `verifyToken` fails on it with `Invalid token`,
not with `Token has expired`: the signature is checked before the expiry. -/
theorem expired_forged_token_is_invalid :
    Readable.codec.parse forgedExpiredToken
      = some ({ userId := 1, email := "ada@example.com", iat := some 0, exp := some 100
                iss := some "blog-api" },
              Readable.codec.encode { userId := 1, email := "ada@example.com", iat := some 0
                                      exp := some 100, iss := some "blog-api" },
              "forged") ∧
    (100 : Nat) < 200 ∧
    verifyToken Readable.codec sampleConfig 200 forgedExpiredToken
      = .error { message := "Invalid token" } ∧
    verifyToken Readable.codec sampleConfig 200 forgedExpiredToken
      ≠ .error { message := "Token has expired" } := by
  unfold forgedExpiredToken
  have hp := Readable.parse_compact { userId := 1, email := "ada@example.com", iat := some 0
                                      exp := some 100, iss := some "blog-api" } "forged"
  have hv := verifyToken_bad_signature Readable.codec sampleConfig 200 _ _ _ _
    hp (Readable.checksum_ne_forged _ _)
  refine ⟨hp, by decide, hv, ?_⟩
  rw [hv]
  decide

/-- C9, amended. For every token text, secret and time: a text that is
not a well-formed token, and a well-formed token whose signature is not the
one of the configured secret, fail with `Invalid token`, whatever expiry they
embed; a well-formed token signed with the configured secret, active, whose
embedded expiry is reached or passed, fails with `Token has expired`; and a
payload is returned only for a well-formed token signed with the configured
secret whose expiry, if it has one, lies in the future. -/
theorem verifyToken_classifies_failures (lib : JwsCodec) (cfg : JwtConfig) (now : Nat)
    (token : String) :
    (lib.parse token = none →
      verifyToken lib cfg now token = .error { message := "Invalid token" }) ∧
    (∀ c input signature, lib.parse token = some (c, input, signature) →
      signature ≠ lib.hmac cfg.secret input →
      verifyToken lib cfg now token = .error { message := "Invalid token" }) ∧
    (∀ c input exp, lib.parse token = some (c, input, lib.hmac cfg.secret input) →
      (∀ nbf, c.nbf = some nbf → nbf ≤ now) → c.exp = some exp → exp ≤ now →
      verifyToken lib cfg now token = .error { message := "Token has expired" }) ∧
    (∀ c, verifyToken lib cfg now token = .ok c →
      (∃ input, lib.parse token = some (c, input, lib.hmac cfg.secret input)) ∧
      (∀ exp, c.exp = some exp → now < exp)) :=
  ⟨verifyToken_malformed lib cfg now token,
   fun c input signature h hs => verifyToken_bad_signature lib cfg now token c input signature h hs,
   fun c input exp h hn he hexp => verifyToken_expired lib cfg now token c input exp h hn he hexp,
   fun c h => ⟨(verifyToken_ok lib cfg now token c h).1, (verifyToken_ok lib cfg now token c h).2.2⟩⟩

/-- Two cases of C9 as amended, in the readable encoding with the settings of
the test environment: the text `invalid-token` fails with `Invalid token`, and
Ada's token, which expires at 1700003600, fails at that time with
`Token has expired`. -/
theorem verifyToken_classifies_failures_witness :
    verifyToken Readable.codec sampleConfig 1700000000 "invalid-token"
      = .error { message := "Invalid token" } ∧
    verifyToken Readable.codec sampleConfig 1700003600
        (Readable.codec.compact (Readable.codec.encode sampleClaims)
          (Readable.codec.hmac sampleConfig.secret (Readable.codec.encode sampleClaims)))
      = .error { message := "Token has expired" } :=
  ⟨(verifyToken_classifies_failures Readable.codec sampleConfig 1700000000 "invalid-token").1
     (by decide),
   (verifyToken_classifies_failures Readable.codec sampleConfig 1700003600
       (Readable.codec.compact (Readable.codec.encode sampleClaims)
         (Readable.codec.hmac sampleConfig.secret (Readable.codec.encode sampleClaims)))).2.2.1
     sampleClaims (Readable.codec.encode sampleClaims) 1700003600
     (Readable.codec_lawful sampleClaims sampleConfig.secret)
     (by intro nbf h; cases h) rfl (by decide)⟩

/-! ## C10: what `authenticate` lets through -/

/-- C10. For every value of the Authorization header (absent, or a text),
`authenticate` calls `next` and writes no response if and only if the header is
a non-empty text whose split at spaces has exactly two parts, the first of
which is `Bearer`, and `verifyToken` succeeds on the second; in that case
`next` is called once and `req.user` is the payload `verifyToken` returned. -/
theorem authenticate_accepts_iff (lib : JwsCodec) (cfg : JwtConfig) (now : Nat)
    (authHeader : Option String) (user : Option Claims) :
    ((0 < (authenticate lib cfg now authHeader user).nextCalls ∧
        (authenticate lib cfg now authHeader user).reply = none) ↔
      ∃ header token decoded, authHeader = some header ∧ header ≠ "" ∧
        (jsSplit header ' ').length = 2 ∧ (jsSplit header ' ')[0]? = some "Bearer" ∧
        (jsSplit header ' ')[1]? = some token ∧
        verifyToken lib cfg now token = .ok decoded) ∧
    (∀ header token decoded, authHeader = some header → header ≠ "" →
        (jsSplit header ' ').length = 2 → (jsSplit header ' ')[0]? = some "Bearer" →
        (jsSplit header ' ')[1]? = some token →
        verifyToken lib cfg now token = .ok decoded →
        authenticate lib cfg now authHeader user
          = { reply := none, nextCalls := 1, user := some decoded }) := by
  have key : ∀ header token decoded, authHeader = some header → header ≠ "" →
      (jsSplit header ' ').length = 2 → (jsSplit header ' ')[0]? = some "Bearer" →
      (jsSplit header ' ')[1]? = some token →
      verifyToken lib cfg now token = .ok decoded →
      authenticate lib cfg now authHeader user
        = { reply := none, nextCalls := 1, user := some decoded } := by
    intro header token decoded hh hne hlen h0 h1 hv
    subst hh
    match hs : jsSplit header ' ', hlen, h0, h1 with
    | [a, b], _, h0, h1 =>
      simp only [List.getElem?_cons_zero, Option.some.injEq] at h0
      simp only [List.getElem?_cons_succ, List.getElem?_cons_zero, Option.some.injEq] at h1
      subst h0 h1
      simp only [authenticate, hne, if_false, hs, ne_eq, not_true_eq_false, hv]
  refine ⟨⟨?_, ?_⟩, key⟩
  · rintro ⟨hn, hr⟩
    unfold authenticate at hn hr
    cases authHeader with
    | none => simp at hr
    | some header =>
      simp only at hn hr
      by_cases hne : header = ""
      · simp [hne] at hr
      · simp only [hne, if_false] at hn hr
        split at hr
        · rename_i scheme token hs
          by_cases hb : scheme = "Bearer"
          · simp only [hb, ne_eq, not_true_eq_false, if_false] at hr
            cases hv : verifyToken lib cfg now token with
            | ok decoded =>
              exact ⟨header, token, decoded, rfl, hne, by simp [hs], by simp [hs, hb],
                by simp [hs], hv⟩
            | error e => simp [hv] at hr
          · simp [hb] at hr
        · simp at hr
  · rintro ⟨header, token, decoded, hh, hne, hlen, h0, h1, hv⟩
    rw [key header token decoded hh hne hlen h0 h1 hv]
    exact ⟨Nat.zero_lt_one, rfl⟩

set_option maxRecDepth 20000 in
/-- The header `Bearer <Ada's token>`, one second after the token was issued,
is a case of C10: `authenticate` writes no response, calls `next` once and
sets `req.user` to the payload of the token. -/
theorem authenticate_accepts_iff_witness :
    authenticate Readable.codec sampleConfig 1700000001 (some ("Bearer " ++ sampleToken)) none
      = { reply := none, nextCalls := 1, user := some sampleClaims } :=
  (authenticate_accepts_iff Readable.codec sampleConfig 1700000001
      (some ("Bearer " ++ sampleToken)) none).2
    ("Bearer " ++ sampleToken) sampleToken sampleClaims rfl (by decide) (by decide) (by decide)
    (by decide) (by decide)

/-! ## C11: what `authenticate` does when it rejects -/

/-- An error of `verifyToken` carries one of the two messages the function
makes, or is the library's not-yet-active error passed on as it is; a token
that parses and has no `nbf` fails with one of the two messages. -/
theorem verifyToken_error_message (lib : JwsCodec) (cfg : JwtConfig) (now : Nat)
    (token : String) (e : JsError) (h : verifyToken lib cfg now token = .error e) :
    e.message = "Token has expired" ∨ e.message = "Invalid token" ∨
      (e.message = "jwt not active" ∧
        ∃ c input signature nbf, lib.parse token = some (c, input, signature) ∧
          c.nbf = some nbf ∧ now < nbf) := by
  unfold verifyToken jwtVerify at h
  cases hp : lib.parse token with
  | none =>
    rw [hp] at h
    simp only [String.reduceEq, if_false, if_true, Except.error.injEq] at h
    right; left; rw [← h]
  | some t =>
    obtain ⟨c, input, signature⟩ := t
    rw [hp] at h
    simp only [ne_eq, ite_not] at h
    by_cases hs : signature = lib.hmac cfg.secret input
    · simp only [hs, if_true] at h
      by_cases hn : c.nbf.any (fun nbf => decide (now < nbf)) = true
      · simp only [hn, if_true, String.reduceEq, if_false, Except.error.injEq] at h
        right; right
        refine ⟨by rw [← h], c, input, signature, ?_⟩
        cases hc : c.nbf with
        | none => rw [hc] at hn; simp at hn
        | some nbf =>
          rw [hc] at hn
          exact ⟨nbf, rfl, rfl, by simpa using hn⟩
      · by_cases he : c.exp.any (fun exp => decide (exp ≤ now)) = true
        · simp only [hn, he, Bool.false_eq_true, if_false, if_true, Except.error.injEq] at h
          left; rw [← h]
        · simp [hn, he] at h
    · simp only [hs, if_false, String.reduceEq, if_true, Except.error.injEq] at h
      right; left; rw [← h]

theorem list_eq_pair_iff (l : List String) (a b : String) :
    l = [a, b] ↔ l.length = 2 ∧ l[0]? = some a ∧ l[1]? = some b := by
  constructor
  · rintro rfl
    exact ⟨rfl, rfl, rfl⟩
  · rintro ⟨hl, h0, h1⟩
    match l, hl, h0, h1 with
    | [x, y], _, h0, h1 =>
      simp only [List.getElem?_cons_zero, Option.some.injEq] at h0
      simp only [List.getElem?_cons_succ, List.getElem?_cons_zero, Option.some.injEq] at h1
      rw [h0, h1]

/-- C11. For every request: when the Authorization header is missing (absent
or empty), when it is malformed (its split at spaces has not exactly two parts
or the first part is not `Bearer`), and when it carries a token `verifyToken`
rejects, `authenticate` writes a response with status 401, `success = false`
and a non-empty message, does not call `next`, and leaves `req.user` as it was.
When `verifyToken` rejects the token with a non-empty error message, the
message of the response is that message, and that message is
`Token has expired` or `Invalid token` (or, for a token signed with the secret
that is not yet active, the library's own `jwt not active`). -/
theorem authenticate_rejects_with_401 (lib : JwsCodec) (cfg : JwtConfig) (now : Nat)
    (authHeader : Option String) (user : Option Claims) :
    let missing := authHeader = none ∨ authHeader = some ""
    let malformed := ∃ header, authHeader = some header ∧ header ≠ "" ∧
      ((jsSplit header ' ').length ≠ 2 ∨ (jsSplit header ' ')[0]? ≠ some "Bearer")
    let rejected := fun (e : JsError) => ∃ header token, authHeader = some header ∧
      header ≠ "" ∧ (jsSplit header ' ').length = 2 ∧
      (jsSplit header ' ')[0]? = some "Bearer" ∧ (jsSplit header ' ')[1]? = some token ∧
      verifyToken lib cfg now token = .error e
    ((missing ∨ malformed ∨ ∃ e, rejected e) →
      ∃ message, message ≠ "" ∧
        authenticate lib cfg now authHeader user
          = { reply := some { status := 401, success := false, message := message }
              nextCalls := 0, user := user }) ∧
    (∀ e, rejected e → e.message ≠ "" →
      authenticate lib cfg now authHeader user
          = { reply := some { status := 401, success := false, message := e.message }
              nextCalls := 0, user := user } ∧
      (e.message = "Token has expired" ∨ e.message = "Invalid token" ∨
        e.message = "jwt not active")) := by
  intro missing malformed rejected
  have hrej : ∀ e, rejected e →
      authenticate lib cfg now authHeader user
        = { reply := some { status := 401, success := false
                            message := if e.message = "" then "Invalid or expired token."
                                       else e.message }
            nextCalls := 0, user := user } := by
    rintro e ⟨header, token, hh, hne, hl, h0, h1, hv⟩
    have hs := (list_eq_pair_iff _ _ _).mpr ⟨hl, h0, h1⟩
    subst hh
    simp only [authenticate, hne, if_false, hs, ne_eq, not_true_eq_false, hv]
  constructor
  · rintro (hm | hm | ⟨e, he⟩)
    · rcases hm with hm | hm <;> subst hm <;>
        exact ⟨"Access denied. No token provided.", by decide, rfl⟩
    · obtain ⟨header, hh, hne, hns⟩ := hm
      subst hh
      refine ⟨"Invalid authorization format. Use: Bearer <token>", by decide, ?_⟩
      simp only [authenticate, hne, if_false]
      split
      · rename_i scheme token hs
        by_cases hb : scheme = "Bearer"
        · rw [hs, hb] at hns
          simp at hns
        · simp [hb]
      · rfl
    · rw [hrej e he]
      by_cases hm : e.message = ""
      · exact ⟨"Invalid or expired token.", by decide, by simp [hm]⟩
      · exact ⟨e.message, hm, by simp [hm]⟩
  · intro e he hm
    refine ⟨by rw [hrej e he]; simp [hm], ?_⟩
    obtain ⟨header, token, _, _, _, _, _, hv⟩ := he
    rcases verifyToken_error_message lib cfg now token e hv with h | h | h
    · exact Or.inl h
    · exact Or.inr (Or.inl h)
    · exact Or.inr (Or.inr h.1)

/-- Three cases of C11 in the readable encoding: no header, the header
`Token abc`, and the header `Bearer invalid-token` are each answered with 401
and `next` is not called. -/
theorem authenticate_rejects_with_401_witness :
    (∃ message, message ≠ "" ∧
      authenticate Readable.codec sampleConfig 1700000000 none none
        = { reply := some { status := 401, success := false, message := message }
            nextCalls := 0, user := none }) ∧
    (∃ message, message ≠ "" ∧
      authenticate Readable.codec sampleConfig 1700000000 (some "Token abc") none
        = { reply := some { status := 401, success := false, message := message }
            nextCalls := 0, user := none }) ∧
    authenticate Readable.codec sampleConfig 1700000000 (some "Bearer invalid-token") none
      = { reply := some { status := 401, success := false, message := "Invalid token" }
          nextCalls := 0, user := none } :=
  ⟨(authenticate_rejects_with_401 Readable.codec sampleConfig 1700000000 none none).1
     (Or.inl (Or.inl rfl)),
   (authenticate_rejects_with_401 Readable.codec sampleConfig 1700000000
       (some "Token abc") none).1
     (Or.inr (Or.inl ⟨"Token abc", rfl, by decide, by decide⟩)),
   ((authenticate_rejects_with_401 Readable.codec sampleConfig 1700000000
       (some "Bearer invalid-token") none).2 { message := "Invalid token" }
     ⟨"Bearer invalid-token", "invalid-token", rfl, by decide, by decide, by decide, by decide,
      by decide⟩
     (by decide)).1⟩

/-! ## C12: `optionalAuth` -/

/-- C12. For every value of the Authorization header and every `req.user` on
entry, `optionalAuth` writes no response and calls `next` exactly once. When
the header is a non-empty text whose split at spaces is `Bearer` and a token on
which `verifyToken` succeeds, `req.user` becomes the payload returned; in
every other case (header missing, malformed, token rejected) `req.user` is
left as it was, so it stays unset when it was unset. -/
theorem optionalAuth_never_rejects (lib : JwsCodec) (cfg : JwtConfig) (now : Nat)
    (authHeader : Option String) (user : Option Claims) :
    (optionalAuth lib cfg now authHeader user).reply = none ∧
    (optionalAuth lib cfg now authHeader user).nextCalls = 1 ∧
    (∀ header token decoded, authHeader = some header → header ≠ "" →
        (jsSplit header ' ').length = 2 → (jsSplit header ' ')[0]? = some "Bearer" →
        (jsSplit header ' ')[1]? = some token →
        verifyToken lib cfg now token = .ok decoded →
        (optionalAuth lib cfg now authHeader user).user = some decoded) ∧
    ((¬ ∃ header token decoded, authHeader = some header ∧ header ≠ "" ∧
        (jsSplit header ' ').length = 2 ∧ (jsSplit header ' ')[0]? = some "Bearer" ∧
        (jsSplit header ' ')[1]? = some token ∧
        verifyToken lib cfg now token = .ok decoded) →
      (optionalAuth lib cfg now authHeader user).user = user) := by
  have hshape : (optionalAuth lib cfg now authHeader user).reply = none ∧
      (optionalAuth lib cfg now authHeader user).nextCalls = 1 := by
    unfold optionalAuth
    cases authHeader with
    | none => exact ⟨rfl, rfl⟩
    | some header =>
      simp only
      split_ifs
      · exact ⟨rfl, rfl⟩
      · split
        · split_ifs
          · split <;> exact ⟨rfl, rfl⟩
          · exact ⟨rfl, rfl⟩
        · exact ⟨rfl, rfl⟩
  refine ⟨hshape.1, hshape.2, ?_, ?_⟩
  · intro header token decoded hh hne hl h0 h1 hv
    have hs := (list_eq_pair_iff _ _ _).mpr ⟨hl, h0, h1⟩
    subst hh
    simp only [optionalAuth, hne, if_false, hs, if_true, hv]
  · intro hno
    unfold optionalAuth
    cases authHeader with
    | none => rfl
    | some header =>
      simp only
      split_ifs with hne
      · rfl
      · split
        · rename_i scheme token hs
          split_ifs with hb
          · cases hv : verifyToken lib cfg now token with
            | ok decoded =>
              exfalso
              apply hno
              refine ⟨header, token, decoded, rfl, hne, ?_, ?_, ?_, hv⟩ <;> simp [hs, hb]
            | error e => rfl
          · rfl
        · rfl

set_option maxRecDepth 20000 in
/-- Two cases of C12 in the readable encoding: with Ada's token in the header
`req.user` becomes its payload, and with the header `Bearer invalid-token`
`req.user` stays unset; in both `next` is called once and nothing is written. -/
theorem optionalAuth_never_rejects_witness :
    (optionalAuth Readable.codec sampleConfig 1700000001 (some ("Bearer " ++ sampleToken))
        none).user = some sampleClaims ∧
    (optionalAuth Readable.codec sampleConfig 1700000001 (some "Bearer invalid-token")
        none).user = none ∧
    (optionalAuth Readable.codec sampleConfig 1700000001 (some "Bearer invalid-token")
        none).nextCalls = 1 :=
  ⟨(optionalAuth_never_rejects Readable.codec sampleConfig 1700000001
      (some ("Bearer " ++ sampleToken)) none).2.2.1
     ("Bearer " ++ sampleToken) sampleToken sampleClaims rfl (by decide) (by decide) (by decide)
     (by decide) (by decide),
   (optionalAuth_never_rejects Readable.codec sampleConfig 1700000001
      (some "Bearer invalid-token") none).2.2.2
     (by
       rintro ⟨header, token, decoded, hh, _, _, _, h1, hv⟩
       cases hh
       have h2 : (jsSplit "Bearer invalid-token" ' ')[1]? = some "invalid-token" := by decide
       rw [h2] at h1
       cases h1
       have h3 : verifyToken Readable.codec sampleConfig 1700000001 "invalid-token"
           = .error { message := "Invalid token" } := by decide
       rw [h3] at hv
       cases hv),
   (optionalAuth_never_rejects Readable.codec sampleConfig 1700000001
      (some "Bearer invalid-token") none).2.1⟩

/-! ## C13: a hit of the read-through cache -/

/-- A lookup gives a value exactly when `get` answers with a text that
deserializes to it. -/
theorem cacheLookup_eq_some_iff (r : Redis) (key : String) (v : JsonValue) :
    cacheLookup r key = some v ↔
      ∃ text, r.get key = .ok (some text) ∧ jsonParse text = .ok v := by
  unfold cacheLookup
  cases hg : r.get key with
  | error e => simp
  | ok cached =>
    cases cached with
    | none => simp [truthy]
    | some text =>
      cases text with
      | empty => simp [truthy, jsonParse]
      | unparsable s => simp [truthy, jsonParse]
      | json u => simp [truthy, jsonParse]

/-- With a working backend, what the readers store under a key is what the
next lookup of the key gives. -/
theorem cacheLookup_cacheStore (r : Redis) (h : r.Works) (key : String) (v : JsonValue) :
    cacheLookup (cacheStore r key v) key = some v := by
  obtain ⟨hg, hs, _, _⟩ := h
  simp [cacheLookup, cacheStore, Redis.setex, Redis.get, hs, hg, truthy, jsonParse,
    jsonStringify]

/-- A read of a list page whose key holds a cached value returns that value
and leaves the world as it is. -/
theorem getAllPosts_cached (params : ListParams) (w : World) (v : JsonValue)
    (h : cacheLookup w.redis (getPostsListCacheKey
      { page := params.page.orDefault (.num 1), limit := params.limit.orDefault (.num 10)
        published := params.published, authorId := params.authorId }) = some v) :
    getAllPosts params w = (.ok v, w) := by
  simp only [getAllPosts, h]

/-- C13. For every key and every state: when the cache answers the key of
`getPostById(postId)`, or of `getAllPosts(params)`, with a text that
deserializes to a value, the function returns that value; it does so whatever
the store holds (no query of the store decides the answer) and the cache and
the store are left as they are (no write). And after a miss that populated
the cache through a working backend, the next call is a hit and returns the
JSON round trip (`JSON.parse` of `JSON.stringify`) of the value the miss
returned. -/
theorem read_through_hit (w : World) (postId : String) (params : ListParams) :
    (∀ text v, w.redis.get (getPostCacheKey postId) = .ok (some text) →
      jsonParse text = .ok v →
      ∀ st : Store, getPostById postId { w with store := st }
        = (.ok v, { w with store := st })) ∧
    (∀ text v,
      w.redis.get (getPostsListCacheKey
        { page := params.page.orDefault (.num 1), limit := params.limit.orDefault (.num 10)
          published := params.published, authorId := params.authorId }) = .ok (some text) →
      jsonParse text = .ok v →
      ∀ st : Store, getAllPosts params { w with store := st }
        = (.ok v, { w with store := st })) ∧
    (∀ v w', w.redis.Works → cacheLookup w.redis (getPostCacheKey postId) = none →
      getPostById postId w = (.ok v, w') →
      ∃ v', jsonParse (jsonStringify v) = .ok v' ∧ getPostById postId w' = (.ok v', w')) ∧
    (∀ v w', w.redis.Works →
      cacheLookup w.redis (getPostsListCacheKey
        { page := params.page.orDefault (.num 1), limit := params.limit.orDefault (.num 10)
          published := params.published, authorId := params.authorId }) = none →
      getAllPosts params w = (.ok v, w') →
      ∃ v', jsonParse (jsonStringify v) = .ok v' ∧ getAllPosts params w' = (.ok v', w')) := by
  refine ⟨?_, ?_, ?_, ?_⟩
  · intro text v hg hp st
    exact getPostById_cached postId _ v ((cacheLookup_eq_some_iff _ _ _).mpr ⟨text, hg, hp⟩)
  · intro text v hg hp st
    exact getAllPosts_cached params _ v ((cacheLookup_eq_some_iff _ _ _).mpr ⟨text, hg, hp⟩)
  · intro v w' hw hmiss h
    simp only [getPostById, hmiss] at h
    cases hf : w.store.findPostDetail (parseInt postId) with
    | error e => rw [hf] at h; simp at h
    | ok found =>
      cases found with
      | none => rw [hf] at h; simp at h
      | some d =>
        rw [hf] at h
        simp only [Prod.mk.injEq, Except.ok.injEq] at h
        obtain ⟨hv, hw'⟩ := h
        subst hv hw'
        exact ⟨_, rfl, getPostById_cached postId _ _ (cacheLookup_cacheStore _ hw _ _)⟩
  · intro v w' hw hmiss h
    simp only [getAllPosts, hmiss] at h
    cases hf : loadPostsPage w.store (params.page.orDefault (.num 1))
        (params.limit.orDefault (.num 10)) params.published params.authorId with
    | error e => rw [hf] at h; simp at h
    | ok res =>
      rw [hf] at h
      simp only [Prod.mk.injEq, Except.ok.injEq] at h
      obtain ⟨hv, hw'⟩ := h
      subst hv hw'
      exact ⟨_, rfl, getAllPosts_cached params _ _ (cacheLookup_cacheStore _ hw _ _)⟩

/-- Two cases of C13 in the sample state: with Ada's post cached under
`post:1`, `getPostById('1')` returns it even over an empty store and changes
nothing; and the miss on the sample state populates the cache so that the next
call returns the round trip of what the miss returned. -/
theorem read_through_hit_witness :
    getPostById "1" { sampleWorldCached with store := {} }
      = (.ok (.postDetail sampleDetail), { sampleWorldCached with store := {} }) ∧
    ∃ v', jsonParse (jsonStringify (.postDetail sampleDetail)) = .ok v' ∧
      getPostById "1" sampleWorldCached = (.ok v', sampleWorldCached) :=
  ⟨(read_through_hit sampleWorldCached "1" {}).1 (.json (.postDetail sampleDetail))
      (.postDetail sampleDetail) (by decide) rfl {},
   (read_through_hit sampleWorld "1" {}).2.2.1 (.postDetail sampleDetail) sampleWorldCached
      (by decide) (by decide) (by decide)⟩

/-! ## C14: failures of the cache on the read path -/

theorem cacheLookup_of_failsRead (r : Redis) (key : String) (h : r.FailsRead key) :
    cacheLookup r key = none := by
  rcases h with h | ⟨text, hg, hp⟩ | h
  · simp [cacheLookup, Redis.get, h]
  · unfold cacheLookup
    rw [hg]
    cases hj : jsonParse text with
    | ok v => exact absurd hj (hp v)
    | error e => cases text <;> simp [truthy, hj]
  · simp [cacheLookup, h, truthy]

/-- When the lookup gives nothing, `getPostById` answers from the store. -/
theorem getPostById_miss (postId : String) (w : World)
    (h : cacheLookup w.redis (getPostCacheKey postId) = none) :
    (getPostById postId w).1 = postFromStore w.store postId := by
  simp only [getPostById, h, postFromStore]
  cases w.store.findPostDetail (parseInt postId) with
  | error e => rfl
  | ok found => cases found <;> rfl

/-- When the lookup gives nothing, `getAllPosts` answers from the store. -/
theorem getAllPosts_miss (params : ListParams) (w : World)
    (h : cacheLookup w.redis (listKeyOf params) = none) :
    (getAllPosts params w).1 = listFromStore w.store params := by
  unfold listKeyOf at h
  simp only [getAllPosts, h, listFromStore]
  cases loadPostsPage w.store (params.page.orDefault (.num 1))
    (params.limit.orDefault (.num 10)) params.published params.authorId <;> rfl

theorem cacheLookup_empty (key : String) : cacheLookup {} key = none := rfl

/-- The store path of the list never throws the error of the cache client. -/
theorem loadPostsPage_error (st : Store) (page limit published authorId : JsParam)
    (e : JsError) (h : loadPostsPage st page limit published authorId = .error e) :
    e = queryValidationError := by
  unfold loadPostsPage Store.findManyPosts Store.countPosts at h
  simp only at h
  split at h
  · simp at h
  · rename_i e' _ _ he'
    simp only [Except.error.injEq] at h
    subst h
    split at he'
    · split_ifs at he'
      · simp only [Except.error.injEq] at he'
        exact he'.symm
    · simp only [Except.error.injEq] at he'
      exact he'.symm
  · rename_i e' _ hc _
    simp only [Except.error.injEq] at h
    subst h
    split_ifs at hc
    simp only [Except.error.injEq] at hc
    exact hc.symm
  · simp only [Except.error.injEq] at h
    exact h.symm

/-- C14. For every store state and every way the cache fails a read (`get`
raises, the cached text does not deserialize, the key holds nothing, and in
each case `setex` may raise or not), `getPostById` and `getAllPosts` return or
fail exactly as they do over the same store with an empty, working cache: the
value freshly loaded from the store, or the 404 for an absent post (or the
error of the store's client for an id that does not parse). No error of the
cache client reaches the caller, in any state. -/
theorem cache_failures_invisible_on_reads (w : World) (postId : String) (params : ListParams) :
    (w.redis.FailsRead (getPostCacheKey postId) →
      (getPostById postId w).1 = (getPostById postId { store := w.store, redis := {} }).1 ∧
      (getPostById postId w).1 = postFromStore w.store postId) ∧
    (w.redis.FailsRead (listKeyOf params) →
      (getAllPosts params w).1 = (getAllPosts params { store := w.store, redis := {} }).1 ∧
      (getAllPosts params w).1 = listFromStore w.store params) ∧
    (getPostById postId w).1 ≠ .error redisError ∧
    (getAllPosts params w).1 ≠ .error redisError := by
  refine ⟨?_, ?_, ?_, ?_⟩
  · intro h
    have hm := getPostById_miss postId w (cacheLookup_of_failsRead _ _ h)
    exact ⟨by rw [hm, getPostById_miss postId _ (cacheLookup_empty _)], hm⟩
  · intro h
    have hm := getAllPosts_miss params w (cacheLookup_of_failsRead _ _ h)
    exact ⟨by rw [hm, getAllPosts_miss params _ (cacheLookup_empty _)], hm⟩
  · cases hl : cacheLookup w.redis (getPostCacheKey postId) with
    | some v => rw [getPostById_cached postId w v hl]; simp
    | none =>
      rw [getPostById_miss postId w hl]
      unfold postFromStore Store.findPostDetail
      cases parseInt postId with
      | none => simp [queryValidationError, redisError]
      | some n =>
        cases hd : w.store.postDetailById n <;> simp [hd, postNotFound, redisError]
  · cases hl : cacheLookup w.redis (listKeyOf params) with
    | some v => rw [getAllPosts_cached params w v hl]; simp
    | none =>
      rw [getAllPosts_miss params w hl]
      unfold listFromStore
      cases hp : loadPostsPage w.store (params.page.orDefault (.num 1))
          (params.limit.orDefault (.num 10)) params.published params.authorId with
      | ok r => simp
      | error e =>
        rw [loadPostsPage_error _ _ _ _ _ e hp]
        simp [queryValidationError, redisError]

/-- Two cases of C14: with the cache backend down, `getPostById('1')` returns
Ada's post as the store holds it, and `getPostById('99999')` fails with the
404. -/
theorem cache_failures_invisible_on_reads_witness :
    (getPostById "1" sampleWorldCacheDown).1 = .ok (.postDetail sampleDetail) ∧
    (getPostById "99999" sampleWorldCacheDown).1 = .error postNotFound :=
  ⟨((cache_failures_invisible_on_reads sampleWorldCacheDown "1" {}).1
      (Or.inl rfl)).2.trans (by decide),
   ((cache_failures_invisible_on_reads sampleWorldCacheDown "99999" {}).1
      (Or.inl rfl)).2.trans (by decide)⟩

/-! ## C15 and C16: one page of the list -/

/-- The answer of the store path of `getAllPosts` for a page and a limit that
read as integers, both at least 1, and a `where` object the store accepts. -/
theorem loadPostsPage_reads (st : Store) (page limit : JsParam) (p l : Int)
    (hpage : page.Reads p) (hlimit : limit.Reads l) (hp : 1 ≤ p) (hl : 1 ≤ l)
    (published authorId : JsParam) (hv : (buildWhere published authorId).valid = true) :
    loadPostsPage st page limit published authorId
      = .ok (pageOfStore st (buildWhere published authorId) p l) := by
  have hsk : ¬ ((p - 1) * l < 0) := by
    have : 0 ≤ (p - 1) * l := mul_nonneg (by omega) (by omega)
    omega
  have hl0 : 0 ≤ l := by omega
  have hlpos : 0 < l := by omega
  simp only [pageOfStore, loadPostsPage, hpage.1, hpage.2, hlimit.1, hlimit.2,
    Store.findManyPosts, Store.countPosts, hv, ceilDiv, hsk, hl0, hlpos, decide_False,
    Bool.not_true, Bool.or_false, Bool.false_eq_true, if_false, if_true]

/-- On a miss, `getAllPosts` with a page and a limit that read as integers at
least 1 returns the page of the store. -/
theorem getAllPosts_miss_page (w : World) (params : ListParams) (p l : Int)
    (hpage : (params.page.orDefault (.num 1)).Reads p)
    (hlimit : (params.limit.orDefault (.num 10)).Reads l) (hp : 1 ≤ p) (hl : 1 ≤ l)
    (hv : (buildWhere params.published params.authorId).valid = true)
    (hmiss : cacheLookup w.redis (listKeyOf params) = none) :
    (getAllPosts params w).1
      = .ok (.postList
          (pageOfStore w.store (buildWhere params.published params.authorId) p l)) := by
  rw [getAllPosts_miss params w hmiss]
  unfold listFromStore
  rw [loadPostsPage_reads w.store _ _ p l hpage hlimit hp hl _ _ hv]

/-- The rounded-up quotient computed on natural numbers is the ceiling of the
quotient. -/
theorem ceil_div_nat (t n : Nat) (hn : 1 ≤ n) :
    (((t + n - 1) / n : Nat) : Int) = ⌈(t : ℚ) / (n : ℚ)⌉ := by
  symm
  rw [Int.ceil_eq_iff]
  have hnq : (0 : ℚ) < (n : ℚ) := by exact_mod_cast hn
  have h1 : (t + n - 1) / n * n ≤ t + n - 1 := Nat.div_mul_le_self _ _
  have h2 : t + n - 1 < ((t + n - 1) / n + 1) * n := by
    have := Nat.lt_div_mul_add (a := t + n - 1) (b := n) (by omega)
    calc t + n - 1 < (t + n - 1) / n * n + n := this
      _ = ((t + n - 1) / n + 1) * n := by ring
  generalize (t + n - 1) / n = k at h1 h2
  have h1' : (k : ℚ) * n ≤ t + n - 1 := by
    have : ((k * n : Nat) : ℚ) ≤ ((t + n - 1 : Nat) : ℚ) := by exact_mod_cast h1
    rw [Nat.cast_sub (by omega)] at this
    push_cast at this
    linarith
  have h2' : (t : ℚ) + n - 1 < (k + 1) * n := by
    have : ((t + n - 1 : Nat) : ℚ) < (((k + 1) * n : Nat) : ℚ) := by exact_mod_cast h2
    rw [Nat.cast_sub (by omega)] at this
    push_cast at this
    linarith
  constructor
  · rw [lt_div_iff₀ hnq]
    push_cast
    nlinarith
  · rw [div_le_iff₀ hnq]
    push_cast
    have h3 : (t : ℚ) + n - 1 < (k + 1) * n := h2'
    have : (t : ℚ) < k * n + 1 := by linarith
    have hk : (t : ℤ) < k * n + 1 := by exact_mod_cast this
    have : (t : ℤ) ≤ k * n := by omega
    exact_mod_cast this

/-- C15. For every store state, every page and limit that read as integers at
least 1 (numbers, or such texts of the query string) and every filter the
store accepts, on a cache miss `getAllPosts` succeeds and its pagination has
`currentPage = page`, `itemsPerPage = limit`, `totalItems` = the number of
stored posts that satisfy the filter, and `totalPages` = the ceiling of
`totalItems / limit`; with no matching post `totalPages` is 0. -/
theorem pagination_metadata (w : World) (params : ListParams) (p l : Int)
    (hpage : (params.page.orDefault (.num 1)).Reads p)
    (hlimit : (params.limit.orDefault (.num 10)).Reads l) (hp : 1 ≤ p) (hl : 1 ≤ l)
    (hv : (buildWhere params.published params.authorId).valid = true)
    (hmiss : cacheLookup w.redis (listKeyOf params) = none) :
    ∃ res, (getAllPosts params w).1 = .ok (.postList res) ∧
      res.pagination.currentPage = some p ∧
      res.pagination.itemsPerPage = l ∧
      res.pagination.totalItems
        = (w.store.posts.filter (buildWhere params.published params.authorId).test).length ∧
      res.pagination.totalPages = some ⌈(res.pagination.totalItems : ℚ) / (l : ℚ)⌉ ∧
      (res.pagination.totalItems = 0 → res.pagination.totalPages = some 0) := by
  refine ⟨_, getAllPosts_miss_page w params p l hpage hlimit hp hl hv hmiss, rfl, rfl, rfl,
    ?_, ?_⟩
  · simp only [pageOfStore]
    rw [ceil_div_nat _ _ (by omega)]
    have : ((l.toNat : ℕ) : ℚ) = (l : ℚ) := by
      have h : ((l.toNat : ℕ) : ℤ) = l := Int.toNat_of_nonneg (by omega)
      exact_mod_cast congrArg (fun z : ℤ => (z : ℚ)) h
    rw [this]
  · intro h0
    simp only [pageOfStore] at h0 ⊢
    rw [h0]
    have hn : 1 ≤ l.toNat := by omega
    simp only [Nat.zero_add, Option.some.injEq, Nat.cast_eq_zero]
    exact Nat.div_eq_of_lt (by omega)

/-- The case of the specification: over the two posts of the sample state,
the query `page=1&limit=1` misses the empty cache and reports 2 items on 2
pages of 1 item. -/
theorem pagination_metadata_witness :
    ∃ res, (getAllPosts { page := .str "1", limit := .str "1" } sampleWorldTwoPosts).1
        = .ok (.postList res) ∧
      res.pagination.currentPage = some 1 ∧
      res.pagination.itemsPerPage = 1 ∧
      res.pagination.totalItems = 2 ∧
      res.pagination.totalPages = some 2 :=
  match pagination_metadata sampleWorldTwoPosts { page := .str "1", limit := .str "1" } 1 1
      (by decide) (by decide) (by decide) (by decide) (by decide) (by decide) with
  | ⟨res, h, hc, hi, ht, hp, _⟩ =>
    ⟨res, h, hc, hi, ht.trans (by decide), by
      rw [hp, ht]
      have : (sampleWorldTwoPosts.store.posts.filter
          (buildWhere JsParam.undefined JsParam.undefined).test).length = 2 := by decide
      simp only [this]
      norm_num⟩

/-- The posts matching a filter, as the list query orders them: a
rearrangement of the stored posts that pass the filter, newest first. -/
theorem matchingPosts_sorted_perm (st : Store) (wh : PostWhere) :
    (st.matchingPosts wh).Perm (st.posts.filter wh.test) ∧
    (st.matchingPosts wh).Sorted newerFirst ∧
    (st.matchingPosts wh).length = (st.posts.filter wh.test).length := by
  unfold Store.matchingPosts
  haveI : IsTotal Post newerFirst := ⟨fun a b => Nat.le_total b.createdAt a.createdAt⟩
  haveI : IsTrans Post newerFirst := ⟨fun a b c hab hbc => Nat.le_trans hbc hab⟩
  exact ⟨List.perm_insertionSort _ _, List.sorted_insertionSort _ _,
    List.length_insertionSort _ _⟩

/-- C16. For every store state, every page and limit that read as integers at
least 1 and every filter the store accepts, on a cache miss the posts
`getAllPosts` returns are the elements at the positions `skip` to
`skip + limit - 1`, with `skip = (page - 1) * limit`, of the stored posts that
pass the filter ordered by creation time, newest first (each joined with its
author and comment count); at most `limit` posts are returned, and exactly
`min(limit, max(0, totalItems - skip))`. -/
theorem page_contents (w : World) (params : ListParams) (p l : Int)
    (hpage : (params.page.orDefault (.num 1)).Reads p)
    (hlimit : (params.limit.orDefault (.num 10)).Reads l) (hp : 1 ≤ p) (hl : 1 ≤ l)
    (hv : (buildWhere params.published params.authorId).valid = true)
    (hmiss : cacheLookup w.redis (listKeyOf params) = none) :
    ∃ (res : ListResult) (matching : List Post),
      (getAllPosts params w).1 = .ok (.postList res) ∧
      matching.Perm (w.store.posts.filter (buildWhere params.published params.authorId).test) ∧
      matching.Sorted (fun a b => b.createdAt ≤ a.createdAt) ∧
      (∀ i : Nat, i < l.toNat →
        res.posts[i]? = (matching[((p - 1) * l).toNat + i]?).map w.store.listItem) ∧
      (∀ i : Nat, l.toNat ≤ i → res.posts[i]? = none) ∧
      (res.posts.length : Int) ≤ l ∧
      (res.posts.length : Int)
        = min l (max 0 ((res.pagination.totalItems : Int) - (p - 1) * l)) := by
  obtain ⟨hperm, hsorted, hlen⟩ :=
    matchingPosts_sorted_perm w.store (buildWhere params.published params.authorId)
  refine ⟨_, w.store.matchingPosts (buildWhere params.published params.authorId),
    getAllPosts_miss_page w params p l hpage hlimit hp hl hv hmiss, hperm, hsorted, ?_, ?_, ?_, ?_⟩
  · intro i hi
    simp only [pageOfStore, List.getElem?_map, List.getElem?_take_of_lt hi, List.getElem?_drop]
  · intro i hi
    simp only [pageOfStore, List.getElem?_map, Option.map_eq_none']
    rw [List.getElem?_eq_none]
    simp only [List.length_take, List.length_drop]
    omega
  · simp only [pageOfStore, List.length_map, List.length_take, List.length_drop]
    omega
  · simp only [pageOfStore, List.length_map, List.length_take, List.length_drop, hlen]
    have hsk : 0 ≤ (p - 1) * l := mul_nonneg (by omega) (by omega)
    omega

/-- The case of the specification: over the two posts of the sample state, the
query `page=1&limit=1` returns exactly one post, the newest; `page=2&limit=1`
returns the other. -/
theorem page_contents_witness :
    (∃ res, (getAllPosts { page := .str "1", limit := .str "1" } sampleWorldTwoPosts).1
        = .ok (.postList res) ∧ (res.posts.length : Int) ≤ 1) ∧
    listedTitles (getAllPosts { page := .str "1", limit := .str "1" } sampleWorldTwoPosts).1
      = some ["Post 1"] ∧
    listedTitles (getAllPosts { page := .str "2", limit := .str "1" } sampleWorldTwoPosts).1
      = some ["Original Title"] :=
  ⟨match page_contents sampleWorldTwoPosts { page := .str "1", limit := .str "1" } 1 1
      (by decide) (by decide) (by decide) (by decide) (by decide) (by decide) with
   | ⟨res, _, h, _, _, _, _, hle, _⟩ => ⟨res, h, hle⟩,
   by decide, by decide⟩

/-! ## C17: the filters of the list -/

/-- What a successful store path of `getAllPosts` returns: every post of the
answer is a stored post that satisfies the `where` object built from the
parameters, and `totalItems` counts the stored posts that satisfy it. -/
theorem loadPostsPage_ok (st : Store) (page limit published authorId : JsParam)
    (res : ListResult) (h : loadPostsPage st page limit published authorId = .ok res) :
    (∀ item ∈ res.posts, ∃ p ∈ st.posts,
      (buildWhere published authorId).test p = true ∧ item = st.listItem p) ∧
    res.pagination.totalItems = (st.posts.filter (buildWhere published authorId).test).length := by
  unfold loadPostsPage at h
  simp only at h
  split at h
  · rename_i posts totalCount tk hfm hc _
    simp only [Except.ok.injEq] at h
    subst h
    constructor
    · intro item hitem
      simp only at hitem
      unfold Store.findManyPosts at hfm
      split at hfm
      · split_ifs at hfm with hbad h0
        · simp only [Except.ok.injEq] at hfm
          rw [← hfm, List.mem_map] at hitem
          obtain ⟨p, hp, rfl⟩ := hitem
          have hp' := (List.take_sublist _ _).subset hp
          have hp'' := (List.drop_sublist _ _).subset hp'
          exact ⟨p, ((mem_matchingPosts _ _ _).mp hp'').1, ((mem_matchingPosts _ _ _).mp hp'').2,
            rfl⟩
        · simp only [Except.ok.injEq] at hfm
          rw [← hfm, List.mem_map] at hitem
          obtain ⟨p, hp, rfl⟩ := hitem
          have hp₀ := List.mem_reverse.mp hp
          have hp' := (List.take_sublist _ _).subset hp₀
          have hp'' := List.mem_reverse.mp ((List.drop_sublist _ _).subset hp')
          exact ⟨p, ((mem_matchingPosts _ _ _).mp hp'').1, ((mem_matchingPosts _ _ _).mp hp'').2,
            rfl⟩
      · simp at hfm
    · unfold Store.countPosts at hc
      split_ifs at hc
      simp only [Except.ok.injEq] at hc
      exact hc.symm
  · simp at h
  · simp at h
  · simp at h

theorem buildWhere_test_published (published authorId : JsParam) (p : Post) (b : Bool)
    (hb : (buildWhere published authorId).published = some b)
    (h : (buildWhere published authorId).test p = true) : p.published = b := by
  unfold PostWhere.test at h
  rw [hb] at h
  simp only [Bool.and_eq_true, beq_iff_eq] at h
  exact h.1

theorem buildWhere_test_author (published authorId : JsParam) (p : Post) (a : Int)
    (ht : authorId.truthy = true) (ha : authorId.parseInt = some a)
    (h : (buildWhere published authorId).test p = true) : p.authorId = a := by
  unfold PostWhere.test at h
  simp only [buildWhere, ht, if_true, ha, Bool.and_eq_true, beq_iff_eq] at h
  exact h.2

/-- C17 as stated fails, because it is stated for every cache state: on a hit
`getAllPosts` returns what the cache holds and applies no filter. (1) Over
the two posts of the sample state, with the unfiltered page held under the key
of the query `published = true`, `getAllPosts({published: true})` returns Ada's
unpublished post as well. (2) In a state the program reaches by itself, after
`getAllPosts({published: 'undefined'})` has been served, the query with
`published` unset is answered from the cache with the unpublished post only,
although the store holds a published post and no filter was asked for. -/
theorem filters_not_applied_on_a_hit :
    listedPublished (getAllPosts { published := .bool true } sampleWorldForeignEntry).1
      = some [true, false] ∧
    listedPublished (listFromStore sampleWorldTwoPosts.store {}) = some [true, false] ∧
    listedPublished
        (getAllPosts {} (getAllPosts { published := .str "undefined" } sampleWorldTwoPosts).2).1
      = some [false] := by
  decide

/-- C17, amended. For every store state, on a cache miss: `getAllPosts`
returns a list whenever page and limit read as integers at least 1 and the
store accepts the filter; and whenever it returns a list, with `published` set
to true (the boolean or the text `'true'`) every post returned has
`published == true`; with `published` set to false (the boolean or the text
`'false'`) every post returned has `published == false`; with `published`
unset no published filter is applied (`totalItems` counts every stored post
when `authorId` is unset too, and every stored post of the author when
`authorId` is set); and with `authorId` set to a value that reads as an id,
every post returned has that `authorId`. Every post returned is a stored
post. -/
theorem filters_applied_on_a_miss (w : World) (params : ListParams)
    (hmiss : cacheLookup w.redis (listKeyOf params) = none) :
    (∀ p l : Int, (params.page.orDefault (.num 1)).Reads p →
      (params.limit.orDefault (.num 10)).Reads l → 1 ≤ p → 1 ≤ l →
      (buildWhere params.published params.authorId).valid = true →
      ∃ res, (getAllPosts params w).1 = .ok (.postList res)) ∧
    (∀ res, (getAllPosts params w).1 = .ok (.postList res) →
      ((params.published = .bool true ∨ params.published = .str "true") →
        ∀ item ∈ res.posts, item.post.published = true) ∧
      ((params.published = .bool false ∨ params.published = .str "false") →
        ∀ item ∈ res.posts, item.post.published = false) ∧
      (params.published = .undefined → params.authorId = .undefined →
        res.pagination.totalItems = w.store.posts.length) ∧
      (∀ a, params.published = .undefined → params.authorId.truthy = true →
        params.authorId.parseInt = some a →
        res.pagination.totalItems
          = (w.store.posts.filter (fun p => p.authorId == a)).length) ∧
      (∀ a, params.authorId.truthy = true → params.authorId.parseInt = some a →
        ∀ item ∈ res.posts, item.post.authorId = a) ∧
      (∀ item ∈ res.posts, item.post ∈ w.store.posts)) := by
  constructor
  · intro p l hpage hlimit hp hl hv
    exact ⟨_, getAllPosts_miss_page w params p l hpage hlimit hp hl hv hmiss⟩
  intro res h
  rw [getAllPosts_miss params w hmiss] at h
  unfold listFromStore at h
  cases hl : loadPostsPage w.store (params.page.orDefault (.num 1))
      (params.limit.orDefault (.num 10)) params.published params.authorId with
  | error e => rw [hl] at h; simp at h
  | ok r =>
    rw [hl] at h
    simp only [Except.ok.injEq, JsonValue.postList.injEq] at h
    subst h
    obtain ⟨hmem, htotal⟩ := loadPostsPage_ok _ _ _ _ _ _ hl
    refine ⟨?_, ?_, ?_, ?_, ?_, ?_⟩
    · intro hp item hitem
      obtain ⟨p, _, ht, rfl⟩ := hmem item hitem
      refine buildWhere_test_published _ _ p true ?_ ht
      rcases hp with hp | hp <;> rw [hp] <;> rfl
    · intro hp item hitem
      obtain ⟨p, _, ht, rfl⟩ := hmem item hitem
      refine buildWhere_test_published _ _ p false ?_ ht
      rcases hp with hp | hp <;> rw [hp] <;> rfl
    · intro hp ha
      rw [htotal, hp, ha]
      congr 1
      rw [List.filter_eq_self]
      intro p _
      rfl
    · intro a hp ht ha
      rw [htotal, hp]
      congr 1
      apply List.filter_congr
      intro p _
      simp [PostWhere.test, buildWhere, ht, ha]
    · intro a ht ha item hitem
      obtain ⟨p, _, htest, rfl⟩ := hmem item hitem
      exact buildWhere_test_author _ _ p a ht ha htest
    · intro item hitem
      obtain ⟨p, hp, _, rfl⟩ := hmem item hitem
      exact hp

/-- The case of the test suite: over the two posts of the sample state and an
empty cache, `getAllPosts({published: 'true'})` returns a list, and every post
of it is published. -/
theorem filters_applied_on_a_miss_witness :
    ∃ res, (getAllPosts { published := .str "true" } sampleWorldTwoPosts).1
        = .ok (.postList res) ∧ res.posts.length = 1 ∧
      ∀ item ∈ res.posts, item.post.published = true :=
  ⟨pageOfStore sampleWorldTwoPosts.store (buildWhere (.str "true") .undefined) 1 10,
   by decide, by decide,
   ((filters_applied_on_a_miss sampleWorldTwoPosts { published := .str "true" }
      (by decide)).2
      (pageOfStore sampleWorldTwoPosts.store (buildWhere (.str "true") .undefined) 1 10)
      (by decide)).1 (Or.inr rfl)⟩

/-! ## C18: `getPostById` on absence and on an empty cache -/

/-- A lookup that answers with a row was made with the id of the row, which is
a stored post. -/
theorem Store.findPost_ok_some (st : Store) (id : Option Int) (p : Post)
    (h : st.findPost id = .ok (some p)) :
    id = some p.id ∧ st.postById p.id = some p := by
  unfold Store.findPost at h
  cases id with
  | none => simp at h
  | some n =>
    simp only [Except.ok.injEq] at h
    have h1 := (Store.postById_some _ _ _ h).1
    subst h1
    exact ⟨rfl, h⟩

/-- The comments of a post as the store returns them: the stored comments of
the post, rearranged newest first, each with its author. -/
theorem commentsOfPost_spec (st : Store) (postId : Int) :
    ∃ cs : List Comment,
      cs.Perm (st.comments.filter (fun c => c.postId == postId)) ∧
      cs.Sorted (fun a b => b.createdAt ≤ a.createdAt) ∧
      st.commentsOfPost postId
        = cs.map (fun c => { comment := c, author := st.authorOf c.authorId }) := by
  haveI : IsTotal Comment (fun a b => b.createdAt ≤ a.createdAt) :=
    ⟨fun a b => Nat.le_total b.createdAt a.createdAt⟩
  haveI : IsTrans Comment (fun a b => b.createdAt ≤ a.createdAt) :=
    ⟨fun a b c hab hbc => Nat.le_trans hbc hab⟩
  exact ⟨_, List.perm_insertionSort _ _, List.sorted_insertionSort _ _, rfl⟩

/-- The author joined to a row is the projection `{id, name, email}` of the
user with that id. -/
theorem authorOf_spec (st : Store) (authorId : Int) (u : User)
    (h : st.users.find? (fun u => u.id == authorId) = some u) :
    st.authorOf authorId = some { id := authorId, name := u.name, email := u.email } := by
  have hid : u.id = authorId := by
    have := List.find?_some h
    simpa using this
  simp [Store.authorOf, h, hid]

/-- C18, the case the claim leaves out. The id text `abc` does not parse: the
cache of the sample state holds no entry and the store holds no post with id
`parseInt('abc')`, yet `getPostById('abc')` fails with the validation error of
the store's client, which carries no status code, not with 404 and
`Post not found`. -/
theorem getPostById_unparsable_id_is_no_404 :
    parseInt "abc" = none ∧ sampleWorld.redis.entries = [] ∧
    (∀ p ∈ sampleWorld.store.posts, parseInt "abc" ≠ some p.id) ∧
    getPostById "abc" sampleWorld = (.error queryValidationError, sampleWorld) ∧
    queryValidationError.statusCode = none ∧
    ¬ FailsWith (getPostById "abc" sampleWorld).1 404 := by
  decide

/-- C18, amended. For every id text and every state: when `parseInt(id)` is an
integer, the cache holds no entry under the key of the post and the store
holds no post with that id, `getPostById` fails with status 404 and message
`Post not found` and leaves the cache (and the store) as they are; when
`parseInt(id)` is `NaN` and the cache holds no entry under the key, it fails
with the validation error of the store's client and leaves the state as it is.
When the cache is empty and the store holds the post, `getPostById` returns
the stored post with its author (the `{id, name, email}` of the user with the
post's `authorId`) and its comments (the stored comments of the post, newest
first, each with its author). -/
theorem getPostById_absent_or_fresh (w : World) (postId : String) :
    (∀ n, parseInt postId = some n →
      (∀ e ∈ w.redis.entries, e.1 ≠ getPostCacheKey postId) →
      (∀ p ∈ w.store.posts, p.id ≠ n) →
      getPostById postId w
        = (.error { message := "Post not found", statusCode := some 404 }, w)) ∧
    (parseInt postId = none →
      (∀ e ∈ w.redis.entries, e.1 ≠ getPostCacheKey postId) →
      getPostById postId w = (.error queryValidationError, w)) ∧
    (∀ p, w.redis.entries = [] → w.store.findPost (parseInt postId) = .ok (some p) →
      (getPostById postId w).1
        = .ok (.postDetail { post := p, author := w.store.authorOf p.authorId
                             comments := w.store.commentsOfPost p.id }) ∧
      (∀ u, w.store.users.find? (fun u => u.id == p.authorId) = some u →
        w.store.authorOf p.authorId
          = some { id := p.authorId, name := u.name, email := u.email }) ∧
      ∃ cs : List Comment,
        cs.Perm (w.store.comments.filter (fun c => c.postId == p.id)) ∧
        cs.Sorted (fun a b => b.createdAt ≤ a.createdAt) ∧
        w.store.commentsOfPost p.id
          = cs.map (fun c => { comment := c, author := w.store.authorOf c.authorId })) := by
  refine ⟨?_, ?_, ?_⟩
  · intro n hid hc hs'
    have hs := (Store.postById_eq_none_iff _ _).mpr hs'
    have hmiss : cacheLookup w.redis (getPostCacheKey postId) = none :=
      cacheLookup_absent _ _ (fun e he => by simpa using hc e he)
    simp only [getPostById, hmiss, Store.findPostDetail, hid, Store.postDetailById, hs,
      Option.map_none', postNotFound]
  · intro hid hc
    have hmiss : cacheLookup w.redis (getPostCacheKey postId) = none :=
      cacheLookup_absent _ _ (fun e he => by simpa using hc e he)
    simp only [getPostById, hmiss, Store.findPostDetail, hid]
  · intro p hc hs
    have hmiss : cacheLookup w.redis (getPostCacheKey postId) = none :=
      cacheLookup_absent _ _ (fun e he => by rw [hc] at he; simp at he)
    refine ⟨?_, fun u hu => authorOf_spec _ _ u hu, commentsOfPost_spec _ _⟩
    rw [getPostById_miss postId w hmiss]
    obtain ⟨hid, hrow⟩ := Store.findPost_ok_some _ _ p hs
    simp only [postFromStore, Store.findPostDetail, hid, Store.postDetailById, hrow,
      Option.map_some', Store.commentsOfPost]

/-- The two cases of the test suite on the sample state: the id `99999` gives
the 404 and leaves the state as it is, and the id `1` gives Ada's post with
its author and Bob's comment. -/
theorem getPostById_absent_or_fresh_witness :
    getPostById "99999" sampleWorld
      = (.error { message := "Post not found", statusCode := some 404 }, sampleWorld) ∧
    (getPostById "1" sampleWorld).1 = .ok (.postDetail sampleDetail) :=
  ⟨(getPostById_absent_or_fresh sampleWorld "99999").1 99999 (by decide) (by decide)
     (by decide),
   ((getPostById_absent_or_fresh sampleWorld "1").2.2 samplePost (by decide)
     (by decide)).1.trans (by decide)⟩

/-! ## C19: `createComment` and its parent post -/

/-- C19, the case the claim leaves out. The id text `abc` does not parse: the
store holds no post with id `parseInt('abc')`, yet `createComment` on it fails
with the validation error of the store's client, which carries no status
code, not with 404 and `Post not found`. No comment is added. -/
theorem createComment_unparsable_id_is_no_404 :
    parseInt "abc" = none ∧
    (∀ p ∈ sampleWorld.store.posts, parseInt "abc" ≠ some p.id) ∧
    createComment "Test comment" "abc" 1 sampleWorld
      = (.error queryValidationError, sampleWorld) ∧
    queryValidationError.statusCode = none ∧
    ¬ FailsWith (createComment "Test comment" "abc" 1 sampleWorld).1 404 := by
  decide

/-- C19, amended. For every store state, content, post id text and requester:
when `parseInt(postId)` is an integer and the store holds no post with that
id, `createComment` fails with status 404 and message `Post not found` and the
state is as before (no comment is added); when `parseInt(postId)` is `NaN` it
fails with the validation error of the store's client, again adding nothing.
Otherwise exactly one comment is added to the store, with the given content,
the id of that post as `postId` and the requester as `authorId`; it is
returned joined with its author (the `{id, name, email}` of the user with the
requester's id) and with the post's `{id, title}`; nothing else of the tables
changes. -/
theorem createComment_requires_post (w : World) (content postId : String) (authorId : Int) :
    (∀ n, parseInt postId = some n → (∀ p ∈ w.store.posts, p.id ≠ n) →
      createComment content postId authorId w
        = (.error { message := "Post not found", statusCode := some 404 }, w)) ∧
    (parseInt postId = none →
      createComment content postId authorId w = (.error queryValidationError, w)) ∧
    (∀ p, w.store.findPost (parseInt postId) = .ok (some p) →
      ∃ (c : Comment) (w' : World),
        createComment content postId authorId w
          = (.ok { comment := c, author := w.store.authorOf authorId
                   post := some { id := p.id, title := p.title } }, w') ∧
        w'.store.comments = w.store.comments ++ [c] ∧
        c.content = content ∧ c.postId = p.id ∧ c.authorId = authorId ∧
        parseInt postId = some p.id ∧
        w'.store.posts = w.store.posts ∧ w'.store.users = w.store.users ∧
        w'.redis = w.redis ∧
        (∀ u, w.store.users.find? (fun u => u.id == authorId) = some u →
          w.store.authorOf authorId
            = some { id := authorId, name := u.name, email := u.email })) := by
  refine ⟨?_, ?_, ?_⟩
  · intro n hid hs
    have hf := (Store.postById_eq_none_iff _ _).mpr hs
    simp only [createComment, hid, Store.findPost, hf, postNotFound]
  · intro hid
    simp only [createComment, hid, Store.findPost]
  · intro p hf
    obtain ⟨hid, hrow⟩ := Store.findPost_ok_some _ _ p hf
    have href : w.store.postRefOf p.id = some { id := p.id, title := p.title } := by
      have : w.store.posts.find? (fun q => q.id == p.id) = some p := hrow
      simp [Store.postRefOf, this]
    refine ⟨{ id := w.store.nextCommentId, content := content, postId := p.id
              authorId := authorId, createdAt := w.store.clock, updatedAt := w.store.clock },
      { w with store := (w.store.createComment content p.id authorId).2 },
      ?_, rfl, rfl, rfl, rfl, hid, rfl, rfl, rfl, fun u hu => authorOf_spec _ _ u hu⟩
    simp only [createComment, hid, Store.findPost, hrow, Store.createComment, href]

/-- The two cases of the test suite on the sample state: a comment on the post
`99999` fails with the 404 and adds nothing, and Ada's comment on post 1 is
added as the second comment of the store and returned with author and post. -/
theorem createComment_requires_post_witness :
    createComment "Comment on non-existent post" "99999" 1 sampleWorld
      = (.error { message := "Post not found", statusCode := some 404 }, sampleWorld) ∧
    ∃ (c : Comment) (w' : World),
      createComment "This is a great post!" "1" 1 sampleWorld
        = (.ok { comment := c, author := sampleWorld.store.authorOf 1
                 post := some { id := 1, title := "Original Title" } }, w') ∧
      w'.store.comments = [sampleComment, c] ∧ c.authorId = 1 ∧ c.postId = 1 :=
  ⟨(createComment_requires_post sampleWorld "Comment on non-existent post" "99999" 1).1
     99999 (by decide) (by decide),
   match (createComment_requires_post sampleWorld "This is a great post!" "1" 1).2.2 samplePost
     (by decide) with
   | ⟨c, w', h, hc, _, hp, ha, _⟩ => ⟨c, w', h, hc, ha, hp⟩⟩

/-! ## C20: the password stays inside the auth service -/

theorem User.select_toObject (u : User) : u.toObject.select userSelect = u.publicObject := rfl

theorem User.omit_toObject (u : User) : u.toObject.omit "password" = u.publicObject := rfl

theorem User.publicObject_hasField (u : User) : u.publicObject.hasField "password" = false := rfl

/-- C20. For every store state, every input and every behaviour of the
hashing library: the user object `registerUser`, `loginUser` and `getUserById`
return has no field `password`; it is the object of the five fields `id`,
`name`, `email`, `createdAt`, `updatedAt` of a stored user (the created one for
`registerUser`), so it carries neither the hash nor the plain text as a
password. The object `registerUser` returns is the same whatever password is
given. `registerUser` does return a user when the email is new, and
`getUserById` when the id is stored. -/
theorem password_never_returned (bcrypt : Bcrypt) (w : World) :
    (∀ userData u w', registerUser bcrypt userData w = (.ok u, w') →
      u.hasField "password" = false ∧ u.map Prod.fst = userSelect ∧
      ∃ row ∈ w'.store.users, u = row.publicObject ∧ row.email = userData.email ∧
        row.password = bcrypt.hash userData.password SALT_ROUNDS) ∧
    (∀ userData password, (registerUser bcrypt { userData with password := password } w).1
        = (registerUser bcrypt userData w).1) ∧
    (∀ credentials u w', loginUser bcrypt credentials w = (.ok u, w') →
      u.hasField "password" = false ∧ u.map Prod.fst = userSelect ∧
      ∃ row ∈ w.store.users, u = row.publicObject ∧ row.email = credentials.email) ∧
    (∀ userId u w', getUserById userId w = (.ok u, w') →
      u.hasField "password" = false ∧ u.map Prod.fst = userSelect ∧
      ∃ row ∈ w.store.users, u = row.publicObject ∧ row.id = userId) ∧
    (∀ userData, (∀ row ∈ w.store.users, row.email ≠ userData.email) →
      Succeeds (registerUser bcrypt userData w).1) ∧
    (∀ row ∈ w.store.users, Succeeds (getUserById row.id w).1) := by
  refine ⟨?_, ?_, ?_, ?_, ?_, ?_⟩
  · intro userData u w' h
    unfold registerUser at h
    split at h
    · simp at h
    · simp only [Store.createUser, Prod.mk.injEq, Except.ok.injEq] at h
      obtain ⟨hu, hw⟩ := h
      subst hu hw
      exact ⟨rfl, rfl, _, by simp, rfl, rfl, rfl⟩
  · intro userData password
    unfold registerUser
    simp only
    split <;> rfl
  · intro credentials u w' h
    unfold loginUser at h
    split at h
    · simp at h
    · rename_i user hf
      split_ifs at h
      · simp only [Prod.mk.injEq, Except.ok.injEq] at h
        obtain ⟨hu, _⟩ := h
        subst hu
        refine ⟨rfl, rfl, user, List.mem_of_find?_eq_some hf, rfl, ?_⟩
        have := List.find?_some hf
        simpa using this
      · simp at h
  · intro userId u w' h
    unfold getUserById at h
    split at h
    · simp at h
    · rename_i user hf
      simp only [Prod.mk.injEq, Except.ok.injEq] at h
      obtain ⟨hu, _⟩ := h
      subst hu
      refine ⟨rfl, rfl, user, List.mem_of_find?_eq_some hf, rfl, ?_⟩
      have := List.find?_some hf
      simpa using this
  · intro userData hnew
    have hf : w.store.findUserByEmail userData.email = none := by
      unfold Store.findUserByEmail
      rw [List.find?_eq_none]
      intro row hrow
      simpa using hnew row hrow
    unfold registerUser
    rw [hf]
    exact ⟨_, rfl⟩
  · intro row hrow
    unfold getUserById
    cases hf : w.store.findUserById row.id with
    | none =>
      unfold Store.findUserById at hf
      rw [List.find?_eq_none] at hf
      have := hf row hrow
      simp at this
    | some user => exact ⟨_, rfl⟩

/-- The case of the test suite: the registration of the test user on the
sample state succeeds and the object returned has no field `password`; so has
the object `loginUser` returns for the registered user. -/
theorem password_never_returned_witness :
    (registerUser sampleBcrypt sampleRegistration sampleWorld).1
      = .ok [("id", .num 3), ("name", .str "Test User"), ("email", .str "test@example.com"),
             ("createdAt", .date 4), ("updatedAt", .date 4)] ∧
    JsObject.hasField
      [("id", .num 3), ("name", .str "Test User"), ("email", .str "test@example.com"),
       ("createdAt", .date 4), ("updatedAt", .date 4)] "password" = false ∧
    (loginUser sampleBcrypt { email := "test@example.com", password := "Test123" }
        sampleWorldRegistered).1
      = .ok [("id", .num 3), ("name", .str "Test User"), ("email", .str "test@example.com"),
             ("createdAt", .date 4), ("updatedAt", .date 4)] :=
  ⟨by decide,
   ((password_never_returned sampleBcrypt sampleWorld).1 sampleRegistration
      [("id", .num 3), ("name", .str "Test User"), ("email", .str "test@example.com"),
       ("createdAt", .date 4), ("updatedAt", .date 4)]
      sampleWorldRegistered (by decide)).1,
   by decide⟩


/-! ## C21: registering an email twice -/

/-- When a stored user has the email, `registerUser` throws the conflict and
leaves the state as it is. -/
theorem registerUser_conflict (bcrypt : Bcrypt) (w : World) (userData : Registration)
    (h : ∃ u ∈ w.store.users, u.email = userData.email) :
    registerUser bcrypt userData w
      = (.error { message := "User with this email already exists", statusCode := some 409 },
         w) := by
  obtain ⟨u, hu, he⟩ := h
  unfold registerUser
  cases hf : w.store.findUserByEmail userData.email with
  | some _ => rfl
  | none =>
    unfold Store.findUserByEmail at hf
    rw [List.find?_eq_none] at hf
    have := hf u hu
    simp [he] at this

/-- When no stored user has the email, `registerUser` creates the row, with
the email of the input, and returns. -/
theorem registerUser_new (bcrypt : Bcrypt) (w : World) (userData : Registration)
    (h : ∀ u ∈ w.store.users, u.email ≠ userData.email) :
    ∃ user u, u.email = userData.email ∧
      registerUser bcrypt userData w
        = (.ok user, { w with store :=
            { w.store with
              users := w.store.users ++ [u]
              nextUserId := w.store.nextUserId + 1
              clock := w.store.clock + 1 } }) := by
  have hf : w.store.findUserByEmail userData.email = none := by
    unfold Store.findUserByEmail
    rw [List.find?_eq_none]
    intro u hu
    simpa using h u hu
  unfold registerUser
  rw [hf]
  exact ⟨_, { id := w.store.nextUserId, name := userData.name, email := userData.email
              password := bcrypt.hash userData.password SALT_ROUNDS
              createdAt := w.store.clock, updatedAt := w.store.clock }, rfl, rfl⟩

/-- C21. For every state and every registration input: when a stored user
already has the email of the input, `registerUser` fails with status 409 and a
message that contains `already exists`, and the state after the call is the
state before it (the store is unchanged). Hence, when no stored user has the
email, registering the input succeeds, and registering the same input again
in the state the first call leaves fails with status 409, again without
changing the store. This holds for every behaviour of bcrypt. -/
theorem duplicate_registration_conflict (bcrypt : Bcrypt) (w : World)
    (userData : Registration) :
    ((∃ u ∈ w.store.users, u.email = userData.email) →
      ∃ e, registerUser bcrypt userData w = (.error e, w) ∧ e.statusCode = some 409 ∧
        ∃ a b : String, e.message = a ++ "already exists" ++ b) ∧
    ((∀ u ∈ w.store.users, u.email ≠ userData.email) →
      ∃ user w₁, registerUser bcrypt userData w = (.ok user, w₁) ∧
        ∃ e, registerUser bcrypt userData w₁ = (.error e, w₁) ∧ e.statusCode = some 409 ∧
          ∃ a b : String, e.message = a ++ "already exists" ++ b) := by
  constructor
  · intro h
    exact ⟨_, registerUser_conflict bcrypt w userData h, rfl,
      "User with this email ", "", by decide⟩
  · intro h
    obtain ⟨user, u, hu, hr⟩ := registerUser_new bcrypt w userData h
    refine ⟨user, _, hr, _, registerUser_conflict bcrypt _ userData ?_, rfl,
      "User with this email ", "", by decide⟩
    exact ⟨u, by simp, hu⟩

/-- The case of the test suite: the registration of the test user succeeds on
the sample state and fails with 409 when it is repeated. -/
theorem duplicate_registration_conflict_witness :
    Succeeds (registerUser sampleBcrypt sampleRegistration sampleWorld).1 ∧
    ∃ e, registerUser sampleBcrypt sampleRegistration sampleWorldRegistered
        = (.error e, sampleWorldRegistered) ∧ e.statusCode = some 409 ∧
      ∃ a b : String, e.message = a ++ "already exists" ++ b :=
  ⟨by decide,
   (duplicate_registration_conflict sampleBcrypt sampleWorldRegistered sampleRegistration).1
     ⟨{ id := 3, name := "Test User", email := "test@example.com"
        password := sampleBcrypt.hash "Test123" SALT_ROUNDS
        createdAt := 4, updatedAt := 4 }, by decide, rfl⟩⟩

/-! ## C22: the failures of `loginUser` -/

/-- The lookup by email gives nothing exactly when no stored user has the
email. -/
theorem Store.findUserByEmail_eq_none_iff (st : Store) (email : String) :
    st.findUserByEmail email = none ↔ ∀ u ∈ st.users, u.email ≠ email := by
  unfold Store.findUserByEmail
  rw [List.find?_eq_none]
  constructor
  · intro h u hu
    simpa using h u hu
  · intro h u hu
    simpa using h u hu

/-- The row the lookup by email finds is a stored user with that email. -/
theorem Store.findUserByEmail_some (st : Store) (email : String) (u : User)
    (h : st.findUserByEmail email = some u) : u ∈ st.users ∧ u.email = email := by
  unfold Store.findUserByEmail at h
  refine ⟨List.mem_of_find?_eq_some h, ?_⟩
  have := List.find?_some h
  simpa using this

/-- The three outcomes of `loginUser`, by the lookup and the comparison. -/
theorem loginUser_cases (bcrypt : Bcrypt) (w : World) (credentials : Credentials) :
    loginUser bcrypt credentials w
      = match w.store.findUserByEmail credentials.email with
        | none => (.error { message := "Invalid email or password", statusCode := some 401 }, w)
        | some user =>
          if bcrypt.compare credentials.password user.password = true then
            (.ok user.publicObject, w)
          else (.error { message := "Invalid email or password", statusCode := some 401 }, w) := by
  unfold loginUser
  cases w.store.findUserByEmail credentials.email with
  | none => rfl
  | some user =>
    by_cases hc : bcrypt.compare credentials.password user.password = true
    · simp [hc, User.omit_toObject]
    · simp [hc]

/-- C22. For every state, every credentials and every behaviour of bcrypt:
`loginUser` fails with status 401 if and only if no stored user has the email,
or the password does not match the hash of the stored user with that email;
every error it raises is the same error, with status 401 and the message
`Invalid email or password`, so two failing calls (in any two states, with any
two credentials) give identical results; otherwise, when the stored user with
the email is found and the password matches its hash, it returns that stored
user (its fields other than the password). The state is left as it is. -/
theorem login_failures_indistinguishable (bcrypt : Bcrypt) (w : World)
    (credentials : Credentials) :
    (FailsWith (loginUser bcrypt credentials w).1 401 ↔
      ((∀ u ∈ w.store.users, u.email ≠ credentials.email) ∨
       ∃ u, w.store.findUserByEmail credentials.email = some u ∧
         bcrypt.compare credentials.password u.password = false)) ∧
    (∀ e, (loginUser bcrypt credentials w).1 = .error e →
      e = { message := "Invalid email or password", statusCode := some 401 }) ∧
    (∀ (w₂ : World) (credentials₂ : Credentials),
      FailsWith (loginUser bcrypt credentials w).1 401 →
      FailsWith (loginUser bcrypt credentials₂ w₂).1 401 →
      (loginUser bcrypt credentials w).1 = (loginUser bcrypt credentials₂ w₂).1) ∧
    (∀ u, w.store.findUserByEmail credentials.email = some u →
      bcrypt.compare credentials.password u.password = true →
      u ∈ w.store.users ∧ u.email = credentials.email ∧
      (loginUser bcrypt credentials w).1 = .ok u.publicObject) ∧
    (loginUser bcrypt credentials w).2 = w := by
  have herr : ∀ (w : World) (credentials : Credentials) (e : JsError),
      (loginUser bcrypt credentials w).1 = .error e →
      e = { message := "Invalid email or password", statusCode := some 401 } := by
    intro w credentials e h
    rw [loginUser_cases] at h
    cases hf : w.store.findUserByEmail credentials.email with
    | none =>
      rw [hf] at h
      simp only [Except.error.injEq] at h
      exact h.symm
    | some user =>
      rw [hf] at h
      by_cases hc : bcrypt.compare credentials.password user.password = true
      · simp [hc] at h
      · have hc' : bcrypt.compare credentials.password user.password = false := by
          simpa using hc
        simp only [hc', Bool.false_eq_true, if_false, Except.error.injEq] at h
        exact h.symm
  refine ⟨?_, herr w credentials, ?_, ?_, ?_⟩
  · rw [loginUser_cases]
    cases hf : w.store.findUserByEmail credentials.email with
    | none =>
      constructor
      · intro _
        exact Or.inl ((Store.findUserByEmail_eq_none_iff _ _).1 hf)
      · intro _
        exact ⟨_, rfl, rfl⟩
    | some user =>
      have hne : ¬ ∀ u ∈ w.store.users, u.email ≠ credentials.email := by
        intro hall
        rw [(Store.findUserByEmail_eq_none_iff _ _).2 hall] at hf
        cases hf
      by_cases hc : bcrypt.compare credentials.password user.password = true
      · simp only [hc, if_true]
        constructor
        · rintro ⟨e, he, _⟩
          cases he
        · rintro (h | ⟨u, hu, hcu⟩)
          · exact absurd h hne
          · cases hu
            rw [hc] at hcu
            cases hcu
      · simp only [hc, if_false]
        constructor
        · intro _
          exact Or.inr ⟨user, rfl, by simpa using hc⟩
        · intro _
          exact ⟨_, rfl, rfl⟩
  · rintro w₂ credentials₂ ⟨e, he, _⟩ ⟨e₂, he₂, _⟩
    rw [he, he₂, herr w credentials e he, herr w₂ credentials₂ e₂ he₂]
  · intro u hf hc
    obtain ⟨hmem, hemail⟩ := Store.findUserByEmail_some _ _ _ hf
    refine ⟨hmem, hemail, ?_⟩
    rw [loginUser_cases, hf]
    simp [hc]
  · rw [loginUser_cases]
    cases w.store.findUserByEmail credentials.email with
    | none => rfl
    | some user =>
      by_cases hc : bcrypt.compare credentials.password user.password = true
      · simp [hc]
      · simp [hc]

/-- The cases of the test suite, on the state after the registration of the
test user: an unknown email and a wrong password fail with the same error, and
the right password returns the user. -/
theorem login_failures_indistinguishable_witness :
    (loginUser sampleBcrypt { email := "wrong@example.com", password := "Test123" }
        sampleWorldRegistered).1
      = (loginUser sampleBcrypt { email := "test@example.com", password := "WrongPass123" }
          sampleWorldRegistered).1 ∧
    FailsWith (loginUser sampleBcrypt { email := "wrong@example.com", password := "Test123" }
        sampleWorldRegistered).1 401 ∧
    Succeeds (loginUser sampleBcrypt { email := "test@example.com", password := "Test123" }
        sampleWorldRegistered).1 :=
  ⟨(login_failures_indistinguishable sampleBcrypt sampleWorldRegistered
      { email := "wrong@example.com", password := "Test123" }).2.2.1 sampleWorldRegistered
      { email := "test@example.com", password := "WrongPass123" } (by decide) (by decide),
   by decide, by decide⟩

/-! ## C23: the error handler and the taxonomy of errors -/

/-- A body that starts with `success` and `message` is sent with both. -/
theorem sendJson_head_fields (statusCode : Nat) (success : Bool) (message : String)
    (rest : JsonBody) :
    (sendJson statusCode ([("success", .bool success), ("message", .str message)] ++ rest)).field
        "success" = some (.bool success) ∧
    (sendJson statusCode ([("success", .bool success), ("message", .str message)] ++ rest)).field
        "message" = some (.str message) := by
  constructor <;> simp [sendJson, Sent.field, List.filter_cons, List.lookup]

/-- The shape of what the error handler sends: a status, `success: false`, a
message that is not empty, `errors` when the handler has a truthy value for it,
and `stack` in the development environment. -/
theorem errorHandler_shape (nodeEnv : Option String) (err : Thrown) :
    ∃ (statusCode : Nat) (message : String) (errors : JsAny), message ≠ "" ∧
      errorHandler nodeEnv err
        = sendJson statusCode
            ([("success", .bool false), ("message", .str message)] ++
              ((if errors.truthy then [("errors", errors)] else []) ++
               (if nodeEnv = some "development" then [("stack", err.stack)] else []))) := by
  refine ⟨?statusCode, ?message, ?errors, ?nonempty, ?shape⟩
  case shape => exact congrArg (sendJson _) (List.append_assoc _ _ _)
  by_cases h1 : err.name = "TokenExpiredError"
  · simp [h1]
  by_cases h2 : err.name = "JsonWebTokenError"
  · simp [h1, h2]
  by_cases h3 : err.name = "ValidationError"
  · simp [h1, h2, h3]
  simp only [h1, h2, h3, if_false]
  by_cases hc : err.code.getD "" = ""
  · simp only [hc, if_true]
    by_cases hm : err.message = ""
    · simp [hm]
    · simp [hm]
  · simp only [hc, if_false]
    split_ifs <;> simp

/-- C23, the case the claim leaves out: the error `jsonwebtoken` throws for an
expired token has neither `statusCode` nor `code`, and the error handler
answers it with 401 and the message `Token has expired`, not with 500. -/
theorem token_error_without_status_gets_401 :
    sampleTokenError.statusCode = none ∧ sampleTokenError.code = none ∧
    (errorHandler none sampleTokenError).status = 401 ∧
    (errorHandler none sampleTokenError).field "message" = some (.str "Token has expired") := by
  decide

/-- C23, amended. In every environment: an error made by the services (an
`Error` with no `code` and a message) with `statusCode` s in 401, 403, 404, 409
is answered with status s, `success: false` and its own message; a
unique-constraint violation of the store (code `P2002`) is answered with 409;
an error named `ValidationError` with 400; an error with neither `statusCode`
nor `code` whose name is none of `ValidationError`, `JsonWebTokenError`,
`TokenExpiredError` with 500 (the two token names are answered with 401); and
the body of every answer carries `success: false` and a message that is not
empty. -/
theorem errorHandler_maps_taxonomy (nodeEnv : Option String) (err : Thrown) :
    (∀ s, err.name = "Error" → err.code = none → err.message ≠ "" →
      err.statusCode = some s → (s = 401 ∨ s = 403 ∨ s = 404 ∨ s = 409) →
      (errorHandler nodeEnv err).status = s ∧
      (errorHandler nodeEnv err).field "success" = some (.bool false) ∧
      (errorHandler nodeEnv err).field "message" = some (.str err.message)) ∧
    (err.code = some "P2002" → err.name ∉ namedErrors →
      (errorHandler nodeEnv err).status = 409) ∧
    (err.name = "ValidationError" → (errorHandler nodeEnv err).status = 400) ∧
    (err.statusCode = none → err.code = none → err.name ∉ namedErrors →
      (errorHandler nodeEnv err).status = 500) ∧
    ((err.name = "JsonWebTokenError" ∨ err.name = "TokenExpiredError") →
      (errorHandler nodeEnv err).status = 401) ∧
    ((errorHandler nodeEnv err).field "success" = some (.bool false) ∧
     ∃ m, (errorHandler nodeEnv err).field "message" = some (.str m) ∧ m ≠ "") := by
  refine ⟨?_, ?_, ?_, ?_, ?_, ?_⟩
  · intro s hn hc hm hs h
    have h0 : s ≠ 0 := by omega
    refine ⟨by simp [errorHandler, sendJson, hn, hc, hs, h0], ?_, ?_⟩
    · obtain ⟨st, m, errs, _, hshape⟩ := errorHandler_shape nodeEnv err
      rw [hshape]
      exact (sendJson_head_fields _ _ _ _).1
    · simp [errorHandler, sendJson, Sent.field, List.filter_cons, List.lookup, hn, hc, hm]
  · intro hc hn
    simp only [namedErrors, List.mem_cons, List.mem_singleton, List.not_mem_nil, or_false,
      not_or] at hn
    simp [errorHandler, sendJson, hc, hn.1, hn.2.1, hn.2.2]
  · intro hn
    simp [errorHandler, sendJson, hn]
  · intro hs hc hn
    simp only [namedErrors, List.mem_cons, List.mem_singleton, List.not_mem_nil, or_false,
      not_or] at hn
    simp [errorHandler, sendJson, hs, hc, hn.1, hn.2.1, hn.2.2]
  · rintro (hn | hn)
    · simp [errorHandler, sendJson, hn]
    · simp [errorHandler, sendJson, hn]
  · obtain ⟨st, m, errs, hm, hshape⟩ := errorHandler_shape nodeEnv err
    rw [hshape]
    exact ⟨(sendJson_head_fields _ _ _ _).1, m, (sendJson_head_fields _ _ _ _).2, hm⟩

/-- The case of the test suite: the 403 of an update by another user than the
author is answered with status 403, `success: false` and the message of the
error. -/
theorem errorHandler_maps_taxonomy_witness :
    (errorHandler (some "test")
        (JsError.thrown { message := "You are not authorized to update this comment"
                          statusCode := some 403 } "Error: at updateComment")).status = 403 ∧
    (errorHandler (some "test")
        (JsError.thrown { message := "You are not authorized to update this comment"
                          statusCode := some 403 } "Error: at updateComment")).field "success"
      = some (.bool false) ∧
    (errorHandler (some "test")
        (JsError.thrown { message := "You are not authorized to update this comment"
                          statusCode := some 403 } "Error: at updateComment")).field "message"
      = some (.str "You are not authorized to update this comment") :=
  (errorHandler_maps_taxonomy (some "test")
    (JsError.thrown { message := "You are not authorized to update this comment"
                      statusCode := some 403 } "Error: at updateComment")).1 403
    rfl rfl (by decide) rfl (Or.inr (Or.inl rfl))

/-! ## C24: the envelope of the responses -/

/-- A truthy value is not `undefined`. -/
theorem JsAny.ne_undefined_of_truthy (v : JsAny) (h : v.truthy = true) : v ≠ .undefined := by
  intro hv
  rw [hv] at h
  cases h

/-- C24, the case the claim leaves out: in the development environment the
error handler sends the stack trace of the error under the key `stack`, which
is none of `success`, `message`, `data`, `errors`. -/
theorem development_response_carries_stack :
    (errorHandler (some "development") samplePostNotFound).keys
      = ["success", "message", "stack"] ∧
    "stack" ∉ envelopeKeys := by
  decide

/-- C24, amended. For every call of `successResponse` and `errorResponse`, and
for every call of `errorHandler` in every environment: the body sent has a
boolean `success` (true for `successResponse`, false for the other two) and a
message. The body of `successResponse` and `errorResponse` has no key other
than `success`, `message`, `data`, `errors`; so has the body of `errorHandler`
in every environment other than `development`, where it has at most the key
`stack` besides (exactly when the error has a stack). `successResponse`
includes `data` exactly when the data argument is neither `null` nor left
out, and `errorResponse` includes `errors` likewise. -/
theorem response_envelope (statusCode : Nat) (message : String) (value : JsAny)
    (nodeEnv : Option String) (err : Thrown) :
    ((successResponse statusCode message value).field "success" = some (.bool true) ∧
     (successResponse statusCode message value).field "message" = some (.str message) ∧
     (∀ k ∈ (successResponse statusCode message value).keys, k ∈ envelopeKeys) ∧
     ("data" ∈ (successResponse statusCode message value).keys ↔
        value ≠ .null ∧ value ≠ .undefined)) ∧
    ((errorResponse statusCode message value).field "success" = some (.bool false) ∧
     (errorResponse statusCode message value).field "message" = some (.str message) ∧
     (∀ k ∈ (errorResponse statusCode message value).keys, k ∈ envelopeKeys) ∧
     ("errors" ∈ (errorResponse statusCode message value).keys ↔
        value ≠ .null ∧ value ≠ .undefined)) ∧
    ((errorHandler nodeEnv err).field "success" = some (.bool false) ∧
     (∃ m, (errorHandler nodeEnv err).field "message" = some (.str m)) ∧
     (nodeEnv ≠ some "development" → ∀ k ∈ (errorHandler nodeEnv err).keys, k ∈ envelopeKeys) ∧
     (∀ k ∈ (errorHandler nodeEnv err).keys, k ∈ envelopeKeys ∨ k = "stack") ∧
     ("stack" ∈ (errorHandler nodeEnv err).keys ↔
        nodeEnv = some "development" ∧ err.stack ≠ .undefined)) := by
  refine ⟨?_, ?_, ?_⟩
  · by_cases hu : value = .undefined
    · subst hu
      simp [successResponse, sendJson, Sent.field, Sent.keys, envelopeKeys, List.lookup]
    · by_cases hn : value = .null
      · subst hn
        simp [successResponse, sendJson, Sent.field, Sent.keys, envelopeKeys, List.lookup]
      · simp [successResponse, sendJson, Sent.field, Sent.keys, envelopeKeys, List.lookup,
          List.filter_cons, hu, hn]
  · by_cases hu : value = .undefined
    · subst hu
      simp [errorResponse, sendJson, Sent.field, Sent.keys, envelopeKeys, List.lookup]
    · by_cases hn : value = .null
      · subst hn
        simp [errorResponse, sendJson, Sent.field, Sent.keys, envelopeKeys, List.lookup]
      · simp [errorResponse, sendJson, Sent.field, Sent.keys, envelopeKeys, List.lookup,
          List.filter_cons, hu, hn]
  · obtain ⟨st, m, errs, _, hshape⟩ := errorHandler_shape nodeEnv err
    rw [hshape]
    refine ⟨(sendJson_head_fields _ _ _ _).1, ⟨m, (sendJson_head_fields _ _ _ _).2⟩, ?_, ?_, ?_⟩
    · intro henv
      by_cases ht : errs.truthy = true
      · have := JsAny.ne_undefined_of_truthy errs ht
        simp [sendJson, Sent.keys, envelopeKeys, List.filter_cons, henv, ht, this]
      · simp [sendJson, Sent.keys, envelopeKeys, List.filter_cons, henv, ht]
    · by_cases ht : errs.truthy = true
      · have := JsAny.ne_undefined_of_truthy errs ht
        by_cases henv : nodeEnv = some "development"
        · by_cases hs : err.stack = .undefined
          · simp [sendJson, Sent.keys, envelopeKeys, List.filter_cons, henv, ht, this, hs]
          · simp [sendJson, Sent.keys, envelopeKeys, List.filter_cons, henv, ht, this, hs]
        · simp [sendJson, Sent.keys, envelopeKeys, List.filter_cons, henv, ht, this]
      · by_cases henv : nodeEnv = some "development"
        · by_cases hs : err.stack = .undefined
          · simp [sendJson, Sent.keys, envelopeKeys, List.filter_cons, henv, ht, hs]
          · simp [sendJson, Sent.keys, envelopeKeys, List.filter_cons, henv, ht, hs]
        · simp [sendJson, Sent.keys, envelopeKeys, List.filter_cons, henv, ht]
    · by_cases ht : errs.truthy = true
      · have := JsAny.ne_undefined_of_truthy errs ht
        by_cases henv : nodeEnv = some "development"
        · by_cases hs : err.stack = .undefined
          · simp [sendJson, Sent.keys, List.filter_cons, henv, ht, this, hs]
          · simp [sendJson, Sent.keys, List.filter_cons, henv, ht, this, hs]
        · simp [sendJson, Sent.keys, List.filter_cons, henv, ht, this]
      · by_cases henv : nodeEnv = some "development"
        · by_cases hs : err.stack = .undefined
          · simp [sendJson, Sent.keys, List.filter_cons, henv, ht, hs]
          · simp [sendJson, Sent.keys, List.filter_cons, henv, ht, hs]
        · simp [sendJson, Sent.keys, List.filter_cons, henv, ht]

/-- The 404 of the post service in the test environment: the body has the
keys `success` and `message` only, both allowed. -/
theorem response_envelope_witness :
    (errorHandler (some "test") samplePostNotFound).keys = ["success", "message"] ∧
    ∀ k ∈ (errorHandler (some "test") samplePostNotFound).keys, k ∈ envelopeKeys :=
  ⟨by decide,
   (response_envelope 200 "Post retrieved successfully" .null (some "test")
      samplePostNotFound).2.2.2.2.1 (by decide)⟩

/-! ## C25: the comments of a post -/

/-- C25, the case the claim leaves out. The id text `abc` does not parse: the
store holds no post with id `parseInt('abc')`, yet `getCommentsByPostId('abc')`
fails with the validation error of the store's client, which carries no status
code, not with 404 and `Post not found`. -/
theorem getCommentsByPostId_unparsable_id_is_no_404 :
    parseInt "abc" = none ∧
    (∀ p ∈ sampleWorld.store.posts, parseInt "abc" ≠ some p.id) ∧
    getCommentsByPostId "abc" sampleWorld = (.error queryValidationError, sampleWorld) ∧
    queryValidationError.statusCode = none ∧
    ¬ FailsWith (getCommentsByPostId "abc" sampleWorld).1 404 := by
  decide

/-- C25, amended. For every store state and post id text: when
`parseInt(postId)` is an integer and the store holds no post with that id,
`getCommentsByPostId` fails with status 404 and the message `Post not found`;
when `parseInt(postId)` is `NaN` it fails with the validation error of the
store's client. Otherwise it returns exactly the stored comments whose `postId`
is the id of that post (a rearrangement of them, so each one once; the empty
list when there are none), ordered by creation time descending, each joined
with its author, the `{id, name, email}` of the user with the comment's
`authorId`. The state is left as it is in every case. -/
theorem getCommentsByPostId_spec (w : World) (postId : String) :
    (∀ n, parseInt postId = some n → (∀ p ∈ w.store.posts, p.id ≠ n) →
      getCommentsByPostId postId w
        = (.error { message := "Post not found", statusCode := some 404 }, w)) ∧
    (parseInt postId = none →
      getCommentsByPostId postId w = (.error queryValidationError, w)) ∧
    (∀ p, w.store.findPost (parseInt postId) = .ok (some p) →
      ∃ cs : List Comment,
        getCommentsByPostId postId w
          = (.ok (cs.map (fun c => { comment := c, author := w.store.authorOf c.authorId })),
             w) ∧
        parseInt postId = some p.id ∧
        cs.Perm (w.store.comments.filter (fun c => c.postId == p.id)) ∧
        cs.Sorted (fun a b => b.createdAt ≤ a.createdAt) ∧
        ((∀ c ∈ w.store.comments, c.postId ≠ p.id) → cs = []) ∧
        (∀ c ∈ cs, ∀ u, w.store.users.find? (fun u => u.id == c.authorId) = some u →
          w.store.authorOf c.authorId
            = some { id := c.authorId, name := u.name, email := u.email })) := by
  refine ⟨?_, ?_, ?_⟩
  · intro n hid hs
    have hf := (Store.postById_eq_none_iff _ _).mpr hs
    simp only [getCommentsByPostId, hid, Store.findPost, hf, postNotFound]
  · intro hid
    simp only [getCommentsByPostId, hid, Store.findPost]
  · intro p hf
    obtain ⟨hid, hrow⟩ := Store.findPost_ok_some _ _ p hf
    obtain ⟨cs, hperm, hsorted, hcs⟩ := commentsOfPost_spec w.store p.id
    refine ⟨cs, ?_, hid, hperm, hsorted, ?_, fun c _ u hu => authorOf_spec _ _ u hu⟩
    · simp only [getCommentsByPostId, hid, Store.findPost, hrow, hcs]
    · intro hnone
      have hempty : w.store.comments.filter (fun c => c.postId == p.id) = [] := by
        rw [List.filter_eq_nil_iff]
        intro c hc
        simpa using hnone c hc
      rw [hempty] at hperm
      exact hperm.eq_nil

/-- The cases of the test suite on the sample state: the post `99999` gives
the 404, and post 1 gives Bob's comment with its author. -/
theorem getCommentsByPostId_spec_witness :
    getCommentsByPostId "99999" sampleWorld
      = (.error { message := "Post not found", statusCode := some 404 }, sampleWorld) ∧
    getCommentsByPostId "1" sampleWorld
      = (.ok [{ comment := sampleComment
                author := some { id := 2, name := "Bob", email := "bob@example.com" } }],
         sampleWorld) :=
  ⟨(getCommentsByPostId_spec sampleWorld "99999").1 99999 (by decide) (by decide), by decide⟩

/-! ## C26: the formats of the keys -/

/-- The key `getAllPosts` looks up is the key of its parameters: applying the
defaults a second time changes nothing. -/
theorem listKeyOf_eq (params : ListParams) : listKeyOf params = getPostsListCacheKey params := by
  unfold listKeyOf getPostsListCacheKey
  cases params.page <;> cases params.limit <;> rfl

/-- The text in the place of a parameter is the rendering of the parameter
after the default. -/
theorem placeText_eq (x : JsParam) (n : Int) :
    placeText x (toString n) = (x.orDefault (.num n)).render := by
  cases x with
  | undefined => rfl
  | str s => rfl
  | num m => rfl
  | bool b => cases b <;> rfl

/-- C26. For every id text, `getPostCacheKey` is `post:` followed by the id,
so two ids have the same key only when they are the same text. For every
parameter record, `getPostsListCacheKey` is
`posts:list:page:<page>:limit:<limit>:published:<published>:author:<authorId>`
in that order, where page is 1 and limit is 10 when unset and an unset filter
is rendered as `undefined`. Both are functions defined on every input. And
`getAllPosts` with no argument uses the key of page 1, limit 10 and no filter:
it returns what the cache holds under that key, and on a miss it writes its
answer under that key. -/
theorem cache_key_formats (postId : String) (params : ListParams) (w : World) :
    (getPostCacheKey postId).toList = "post:".toList ++ postId.toList ∧
    (∀ other, getPostCacheKey other = getPostCacheKey postId → other = postId) ∧
    getPostsListCacheKey params
      = listKeyFormat (placeText params.page "1") (placeText params.limit "10")
          (placeText params.published "undefined") (placeText params.authorId "undefined") ∧
    getPostsListCacheKey {} = defaultListKey ∧
    getPostsListCacheKey { page := .num 1, limit := .num 10 } = defaultListKey ∧
    (∀ v, cacheLookup w.redis defaultListKey = some v → getAllPosts {} w = (.ok v, w)) ∧
    (cacheLookup w.redis defaultListKey = none →
      (∀ e, (getAllPosts {} w).1 = .error e → (getAllPosts {} w).2 = w) ∧
      (∀ v, (getAllPosts {} w).1 = .ok v →
        (getAllPosts {} w).2 = { w with redis := cacheStore w.redis defaultListKey v })) := by
  refine ⟨?_, ?_, ?_, by decide, by decide, ?_, ?_⟩
  · simp [getPostCacheKey, String.toList, String.data_append]
  · intro other h
    have h' := congrArg String.toList h
    simp only [getPostCacheKey, String.toList, String.data_append, List.append_cancel_left_eq]
      at h'
    exact String.ext h'
  · have hp : placeText params.page "1" = (params.page.orDefault (.num 1)).render :=
      placeText_eq params.page 1
    have hl : placeText params.limit "10" = (params.limit.orDefault (.num 10)).render :=
      placeText_eq params.limit 10
    have hpub : placeText params.published "undefined" = params.published.render := by
      cases params.published with
      | undefined => rfl
      | str s => rfl
      | num m => rfl
      | bool b => cases b <;> rfl
    have ha : placeText params.authorId "undefined" = params.authorId.render := by
      cases params.authorId with
      | undefined => rfl
      | str s => rfl
      | num m => rfl
      | bool b => cases b <;> rfl
    rw [hp, hl, hpub, ha]
    simp [getPostsListCacheKey, listKeyFormat, String.join, String.append_assoc]
  · intro v hv
    exact getAllPosts_cached {} w v hv
  · intro hmiss
    have hk : getPostsListCacheKey
        { page := JsParam.undefined.orDefault (.num 1)
          limit := JsParam.undefined.orDefault (.num 10)
          published := .undefined, authorId := .undefined } = defaultListKey := by decide
    have hmiss' : cacheLookup w.redis (getPostsListCacheKey
        { page := JsParam.undefined.orDefault (.num 1)
          limit := JsParam.undefined.orDefault (.num 10)
          published := .undefined, authorId := .undefined }) = none := by
      rw [hk]
      exact hmiss
    constructor
    · intro e he
      simp only [getAllPosts, hmiss'] at he ⊢
      cases hl : loadPostsPage w.store (JsParam.undefined.orDefault (.num 1))
          (JsParam.undefined.orDefault (.num 10)) .undefined .undefined with
      | error e' => rfl
      | ok r => rw [hl] at he; cases he
    · intro v hv
      simp only [getAllPosts, hmiss'] at hv ⊢
      cases hl : loadPostsPage w.store (JsParam.undefined.orDefault (.num 1))
          (JsParam.undefined.orDefault (.num 10)) .undefined .undefined with
      | error e' => rw [hl] at hv; cases hv
      | ok r =>
        rw [hl] at hv
        simp only [Except.ok.injEq] at hv
        subst hv
        simp only [hk]

/-- On the sample state, whose cache is empty, `getAllPosts()` leaves its
answer under the key of page 1, limit 10 and no filter. -/
theorem cache_key_formats_witness :
    (getAllPosts {} sampleWorld).2
      = { sampleWorld with
          redis := cacheStore sampleWorld.redis defaultListKey
            (.postList (pageOfStore sampleWorld.store {} 1 10)) } :=
  ((cache_key_formats "1" {} sampleWorld).2.2.2.2.2.2 (by decide)).2
    (.postList (pageOfStore sampleWorld.store {} 1 10)) (by decide)

/-! ## C27: a reader racing a writer -/

/-- The commands of `getPostById`, sent with nothing in between, are the call
of `getPostById`. -/
theorem getPostByIdAlone_eq (postId : String) (w : World) :
    getPostByIdAlone postId w
      = (.returned (getPostById postId w).1, (getPostById postId w).2) := by
  unfold getPostByIdAlone getPostById
  cases hc : cacheLookup w.redis (getPostCacheKey postId) with
  | some v => simp [getPostByIdStep, hc]
  | none =>
    cases hf : w.store.findPostDetail (parseInt postId) with
    | error e => simp [getPostByIdStep, hc, hf]
    | ok found =>
      cases found with
      | none => simp [getPostByIdStep, hc, hf]
      | some post => simp [getPostByIdStep, hc, hf]

/-- C27. An interleaving in which a later read is served a value loaded before
the mutation. On the sample state, with a working cache: a reader of post 1
misses the cache and loads the post from the store; then Ada's `updatePost`
sets the title to `Updated Title`, succeeds and invalidates (the cache holds
nothing under `post:1` afterwards); then the reader writes what it loaded to
the cache. The store now holds the new title, and a later `getPostById`
returns the post with the title `Original Title` from the cache. -/
theorem racing_reader_caches_stale_post :
    racingReader.1 = .loaded (some sampleDetail) ∧
    Succeeds racingWriter.1 ∧
    cacheLookup racingWriter.2.redis (getPostCacheKey "1") = none ∧
    racingWorld.store.posts.map (fun p => p.title) = ["Updated Title"] ∧
    (getPostById "1" racingWorld).1 = .ok (.postDetail sampleDetail) ∧
    sampleDetail.post.title = "Original Title" := by
  decide

/-! ## C28: a rejected mutation -/

/-- The error of the cache client carries no status code. -/
theorem redisError_not_failsWith {α : Type} (status : Nat) :
    ¬ FailsWith (Except.error redisError : Except JsError α) status := by
  rintro ⟨e, he, hs⟩
  simp only [Except.error.injEq] at he
  rw [← he] at hs
  simp [redisError] at hs

/-- A call of `updatePost` that fails with a status code has changed
nothing. -/
theorem updatePost_rejected (id : String) (data : PostUpdate) (userId : Int) (w : World)
    (status : Nat) (h : FailsWith (updatePost id data userId w).1 status) :
    (updatePost id data userId w).2 = w := by
  unfold updatePost at h ⊢
  cases hf : w.store.findPost (parseInt id) with
  | error e => rfl
  | ok found =>
  cases found with
  | none => rfl
  | some p =>
    rw [hf] at h
    by_cases ho : p.authorId = userId
    · exfalso
      obtain ⟨⟨up, st'⟩, hu⟩ := w.store.updatePost_of_find (parseInt id) data p hf
      simp only [ho, ne_eq, not_true_eq_false, if_false, hu] at h
      rcases hi : invalidatePostCaches id w.redis with ⟨res, r'⟩
      rw [hi] at h
      cases res with
      | error e' =>
        rw [invalidatePostCaches_error id w.redis r' e' hi] at h
        exact redisError_not_failsWith status h
      | ok _ =>
        obtain ⟨e, he, _⟩ := h
        cases he
    · simp [ho]

/-- A call of `deletePost` that fails with a status code has changed
nothing. -/
theorem deletePost_rejected (id : String) (userId : Int) (w : World)
    (status : Nat) (h : FailsWith (deletePost id userId w).1 status) :
    (deletePost id userId w).2 = w := by
  unfold deletePost at h ⊢
  cases hf : w.store.findPost (parseInt id) with
  | error e => rfl
  | ok found =>
  cases found with
  | none => rfl
  | some p =>
    rw [hf] at h
    by_cases ho : p.authorId = userId
    · exfalso
      obtain ⟨⟨dp, st'⟩, hu⟩ := w.store.deletePost_of_find (parseInt id) p hf
      simp only [ho, ne_eq, not_true_eq_false, if_false, hu] at h
      rcases hi : invalidatePostCaches id w.redis with ⟨res, r'⟩
      rw [hi] at h
      cases res with
      | error e' =>
        rw [invalidatePostCaches_error id w.redis r' e' hi] at h
        exact redisError_not_failsWith status h
      | ok _ =>
        obtain ⟨e, he, _⟩ := h
        cases he
    · simp [ho]

/-- A call of `updateComment` that fails has changed nothing. -/
theorem updateComment_rejected (id : String) (data : CommentUpdate) (userId : Int) (w : World)
    (status : Nat) (h : FailsWith (updateComment id data userId w).1 status) :
    (updateComment id data userId w).2 = w := by
  unfold updateComment at h ⊢
  cases hf : w.store.findComment (parseInt id) with
  | error e => rfl
  | ok found =>
  cases found with
  | none => rfl
  | some c =>
    rw [hf] at h
    by_cases ho : c.authorId = userId
    · exfalso
      obtain ⟨⟨uc, st'⟩, hu⟩ := w.store.updateComment_of_find (parseInt id) data c hf
      simp only [ho, ne_eq, not_true_eq_false, if_false, hu] at h
      obtain ⟨e, he, _⟩ := h
      cases he
    · simp [ho]

/-- A call of `deleteComment` that fails has changed nothing. -/
theorem deleteComment_rejected (id : String) (userId : Int) (w : World)
    (status : Nat) (h : FailsWith (deleteComment id userId w).1 status) :
    (deleteComment id userId w).2 = w := by
  unfold deleteComment at h ⊢
  cases hf : w.store.findComment (parseInt id) with
  | error e => rfl
  | ok found =>
  cases found with
  | none => rfl
  | some c =>
    rw [hf] at h
    by_cases ho : c.authorId = userId
    · exfalso
      obtain ⟨⟨dc, st'⟩, hu⟩ := w.store.deleteComment_of_find (parseInt id) c hf
      simp only [ho, ne_eq, not_true_eq_false, if_false, hu] at h
      obtain ⟨e, he, _⟩ := h
      cases he
    · simp [ho]

/-- C28. For every store and cache state (working or not) and every
arguments: when `updatePost`, `deletePost`, `updateComment` or `deleteComment`
fails with status 404 or 403, the store and the cache after the call are the
store and the cache before it. -/
theorem rejected_mutation_changes_nothing (w : World) (id : String) (postData : PostUpdate)
    (commentData : CommentUpdate) (userId : Int) :
    ((FailsWith (updatePost id postData userId w).1 404 ∨
        FailsWith (updatePost id postData userId w).1 403) →
      (updatePost id postData userId w).2 = w) ∧
    ((FailsWith (deletePost id userId w).1 404 ∨ FailsWith (deletePost id userId w).1 403) →
      (deletePost id userId w).2 = w) ∧
    ((FailsWith (updateComment id commentData userId w).1 404 ∨
        FailsWith (updateComment id commentData userId w).1 403) →
      (updateComment id commentData userId w).2 = w) ∧
    ((FailsWith (deleteComment id userId w).1 404 ∨
        FailsWith (deleteComment id userId w).1 403) →
      (deleteComment id userId w).2 = w) := by
  refine ⟨?_, ?_, ?_, ?_⟩
  · rintro (h | h)
    · exact updatePost_rejected _ _ _ _ _ h
    · exact updatePost_rejected _ _ _ _ _ h
  · rintro (h | h)
    · exact deletePost_rejected _ _ _ _ h
    · exact deletePost_rejected _ _ _ _ h
  · rintro (h | h)
    · exact updateComment_rejected _ _ _ _ _ h
    · exact updateComment_rejected _ _ _ _ _ h
  · rintro (h | h)
    · exact deleteComment_rejected _ _ _ _ h
    · exact deleteComment_rejected _ _ _ _ h

/-- The cases of the test suite on the state in which post 1 is cached: Bob's
deletion of Ada's post fails with 403, and the deletion of the post `99999`
with 404; the store and the cache are as before in both. -/
theorem rejected_mutation_changes_nothing_witness :
    FailsWith (deletePost "1" 2 sampleWorldCached).1 403 ∧
    (deletePost "1" 2 sampleWorldCached).2 = sampleWorldCached ∧
    FailsWith (deletePost "99999" 1 sampleWorldCached).1 404 ∧
    (deletePost "99999" 1 sampleWorldCached).2 = sampleWorldCached :=
  ⟨by decide,
   (rejected_mutation_changes_nothing sampleWorldCached "1" {} {} 2).2.1
     (Or.inr (by decide)),
   by decide,
   (rejected_mutation_changes_nothing sampleWorldCached "99999" {} {} 1).2.1
     (Or.inl (by decide))⟩

/-! ## C29: the two namespaces of the cache -/

/-- No key of a single post starts with `posts:list:`: the fifth character of
the key is `:`, of the pattern `s`. -/
theorem getPostCacheKey_not_list (postId : String) :
    hasPrefix "posts:list:" (getPostCacheKey postId) = false := by
  have hpre : "posts:list:".toList = 'p' :: 'o' :: 's' :: 't' :: 's' :: ":list:".toList := by
    decide
  have hkey : (getPostCacheKey postId).toList
      = 'p' :: 'o' :: 's' :: 't' :: ':' :: postId.toList := by
    simp only [getPostCacheKey, String.toList, String.data_append]
    rfl
  unfold hasPrefix
  rw [hpre, hkey]
  simp [List.isPrefixOf]

/-- What `invalidatePostsListCache` leaves of the cache: when it returns, the
cache without the entries under `posts:list:`; when it throws, the cache as it
was. -/
theorem invalidatePostsListCache_outcome (r : Redis) :
    (Succeeds (invalidatePostsListCache r).1 →
      (invalidatePostsListCache r).2 = r.without "posts:list:") ∧
    (¬ Succeeds (invalidatePostsListCache r).1 → (invalidatePostsListCache r).2 = r) := by
  have hfail : ∀ e : JsError, ¬ Succeeds (Except.error e : Except JsError Unit) := by
    rintro e ⟨_, h⟩
    cases h
  rcases r with ⟨entries, getFails, setexFails, keysFails, delFails⟩
  unfold invalidatePostsListCache Redis.keys Redis.del Redis.without
  cases keysFails with
  | true =>
    simp only [if_true]
    exact ⟨fun h => absurd h (hfail _), fun _ => trivial⟩
  | false =>
    simp only [Bool.false_eq_true, if_false]
    by_cases hlen : ((entries.filter (fun e => hasPrefix "posts:list:" e.1)).map
        (fun e => e.1)).length > 0
    · cases delFails with
      | true =>
        simp only [hlen, if_true]
        exact ⟨fun h => absurd h (hfail _), fun _ => trivial⟩
      | false =>
        simp only [hlen, if_true, Bool.false_eq_true, if_false]
        refine ⟨fun _ => ?_, fun h => absurd ⟨(), rfl⟩ h⟩
        rw [filter_not_contains_keys]
    · simp only [hlen, if_false]
      refine ⟨fun _ => ?_, fun h => absurd ⟨(), rfl⟩ h⟩
      have hnil : entries.filter (fun e => hasPrefix "posts:list:" e.1) = [] := by
        have : ((entries.filter (fun e => hasPrefix "posts:list:" e.1)).map
            (fun e => e.1)).length = 0 := by omega
        simpa using this
      have : entries.filter (fun e => !(hasPrefix "posts:list:" e.1)) = entries := by
        rw [List.filter_eq_self]
        intro e he
        have := List.filter_eq_nil_iff.mp hnil e he
        simpa using this
      rw [this]

/-- Removing the entries under a prefix does not change what the cache
answers for a key that does not start with the prefix. -/
theorem find_without (l : List (String × CacheText)) (pre key : String)
    (h : hasPrefix pre key = false) :
    (l.filter (fun e => !(hasPrefix pre e.1))).find? (fun e => e.1 == key)
      = l.find? (fun e => e.1 == key) := by
  induction l with
  | nil => rfl
  | cons x xs ih =>
    by_cases hx : x.1 = key
    · have hp : hasPrefix pre x.1 = false := hx ▸ h
      simp [List.filter_cons, hp, hx, h]
    · by_cases hp : hasPrefix pre x.1 = true
      · simp [List.filter_cons, hp, hx, ih]
      · simp [List.filter_cons, hp, hx, ih]

/-- C29. Every key `getPostsListCacheKey` returns starts with `posts:list:`
(it matches the pattern `posts:list:*`), and no key `getPostCacheKey` returns
does. `invalidatePostsListCache` returns whenever the cache backend works;
when it returns, the entries of the cache are the entries it had whose key
does not match the pattern, as they were and in their order (every entry that
matches is removed, every other entry is kept); and in every case, also when
it throws, the cache answers a key that does not match the pattern, the key of
a single post in particular, as it did before. -/
theorem cache_namespaces_disjoint (params : ListParams) (postId : String) (r : Redis) :
    hasPrefix "posts:list:" (getPostsListCacheKey params) = true ∧
    hasPrefix "posts:list:" (getPostCacheKey postId) = false ∧
    (r.Works → Succeeds (invalidatePostsListCache r).1) ∧
    (Succeeds (invalidatePostsListCache r).1 →
      (invalidatePostsListCache r).2.entries
        = r.entries.filter (fun e => !(hasPrefix "posts:list:" e.1)) ∧
      (∀ e ∈ (invalidatePostsListCache r).2.entries, hasPrefix "posts:list:" e.1 = false) ∧
      (∀ e ∈ r.entries, hasPrefix "posts:list:" e.1 = false →
        e ∈ (invalidatePostsListCache r).2.entries)) ∧
    (∀ key, hasPrefix "posts:list:" key = false →
      (invalidatePostsListCache r).2.get key = r.get key) ∧
    (invalidatePostsListCache r).2.get (getPostCacheKey postId)
      = r.get (getPostCacheKey postId) := by
  have hget : ∀ key, hasPrefix "posts:list:" key = false →
      (invalidatePostsListCache r).2.get key = r.get key := by
    intro key hkey
    by_cases hs : Succeeds (invalidatePostsListCache r).1
    · rw [(invalidatePostsListCache_outcome r).1 hs]
      unfold Redis.get Redis.without
      simp only [find_without r.entries "posts:list:" key hkey]
    · rw [(invalidatePostsListCache_outcome r).2 hs]
  refine ⟨getPostsListCacheKey_hasPrefix params, getPostCacheKey_not_list postId, ?_, ?_,
    hget, hget _ (getPostCacheKey_not_list postId)⟩
  · intro hw
    rw [invalidatePostsListCache_works r hw]
    exact ⟨(), rfl⟩
  · intro hs
    rw [(invalidatePostsListCache_outcome r).1 hs]
    refine ⟨rfl, ?_, ?_⟩
    · intro e he
      simp only [Redis.without, List.mem_filter, Bool.not_eq_true'] at he
      exact he.2
    · intro e he hp
      simp only [Redis.without, List.mem_filter, Bool.not_eq_true']
      exact ⟨he, hp⟩

/-- On the sample state with one entry of each namespace, the invalidation of
the list cache returns and leaves the entry of post 1 alone. -/
theorem cache_namespaces_disjoint_witness :
    sampleWorldBoth.redis.entries.map Prod.fst = [defaultListKey, "post:1"] ∧
    Succeeds (invalidatePostsListCache sampleWorldBoth.redis).1 ∧
    (invalidatePostsListCache sampleWorldBoth.redis).2.entries.map Prod.fst = ["post:1"] :=
  ⟨by decide,
   (cache_namespaces_disjoint {} "1" sampleWorldBoth.redis).2.2.1 (by decide),
   by decide⟩

/-! ## C30: the pages of a list -/

/-- Cutting a list into consecutive slices of length `l` and joining the
slices gives the list back, as soon as the slices reach its end. -/
theorem flatten_slices {α : Type} (l : Nat) (k : Nat) :
    ∀ (L : List α), L.length ≤ k * l →
      ((List.range k).map (fun i => (L.drop (i * l)).take l)).flatten = L := by
  induction k with
  | zero =>
    intro L h
    have : L.length = 0 := by omega
    simp [List.length_eq_zero.mp this]
  | succ k ih =>
    intro L h
    rw [List.range_succ_eq_map, List.map_cons, List.flatten_cons, List.map_map]
    have hdrop : ((fun i => (L.drop (i * l)).take l) ∘ Nat.succ)
        = fun i => ((L.drop l).drop (i * l)).take l := by
      funext i
      simp only [Function.comp, List.drop_drop, Nat.succ_eq_add_one]
      congr 2
      ring
    rw [hdrop, ih (L.drop l) (by rw [List.length_drop]; rw [Nat.succ_mul] at h; omega)]
    simp

/-- The rounded-up quotient `T` of `n` by `l`: `T` slices of length `l` cover
`n`, and `T - 1` do not. -/
theorem ceil_bounds (n l : Nat) (hl : 1 ≤ l) :
    n ≤ (n + l - 1) / l * l ∧ (1 ≤ (n + l - 1) / l → ((n + l - 1) / l - 1) * l < n) := by
  have h1 := Nat.div_add_mod (n + l - 1) l
  have h2 := Nat.mod_lt (n + l - 1) (show l > 0 by omega)
  generalize (n + l - 1) / l = q at h1 ⊢
  generalize (n + l - 1) % l = r at h1 h2
  have h3 : q * l = l * q := Nat.mul_comm _ _
  constructor
  · rw [h3]
    generalize l * q = m at h1
    omega
  · intro hT
    have h4 : (q - 1) * l = l * q - l := by
      rw [Nat.sub_mul, Nat.one_mul, h3]
    have h5 : l ≤ l * q := Nat.le_mul_of_pos_right l (by omega)
    rw [h4]
    generalize l * q = m at h1 h5
    omega

/-- With an empty cache, the answer for page `i + 1` with limit `l` is the
slice of the matching posts from position `i * l`, of length `l`, with the
rounded-up quotient as the number of pages. -/
theorem pageAnswer_empty_cache (w : World) (limit published authorId : JsParam) (l : Nat)
    (hl : 1 ≤ l) (hlimit : (limit.orDefault (.num 10)).Reads (l : Int))
    (hempty : w.redis.entries = [])
    (hv : (buildWhere published authorId).valid = true) (i : Nat) :
    pageAnswer w limit published authorId (i + 1)
      = .ok (.postList
          { posts := (((w.store.matchingPosts (buildWhere published authorId)).drop
                (i * l)).take l).map w.store.listItem
            pagination :=
              { currentPage := some ((i + 1 : Nat) : Int)
                totalPages := some
                  ((((w.store.posts.filter (buildWhere published authorId).test).length
                      + l - 1) / l : Nat) : Int)
                totalItems := (w.store.posts.filter (buildWhere published authorId).test).length
                itemsPerPage := (l : Int) } }) := by
  have hmiss : cacheLookup w.redis
      (listKeyOf { page := .num ((i + 1 : Nat) : Int), limit := limit
                   published := published, authorId := authorId }) = none :=
    cacheLookup_absent _ _ (fun e he => by rw [hempty] at he; simp at he)
  unfold pageAnswer
  rw [getAllPosts_miss_page w
    { page := .num ((i + 1 : Nat) : Int), limit := limit
      published := published, authorId := authorId }
    ((i + 1 : Nat) : Int) (l : Int) ⟨rfl, rfl⟩ hlimit
    (by push_cast; omega) (by exact_mod_cast hl) hv hmiss]
  have hskip : ((((i + 1 : Nat) : Int) - 1) * (l : Int)).toNat = i * l := by
    have : (((i + 1 : Nat) : Int) - 1) * (l : Int) = ((i * l : Nat) : Int) := by
      push_cast
      ring
    rw [this, Int.toNat_ofNat]
  simp only [pageOfStore, hskip, Int.toNat_ofNat]

/-- C30. For every store state, every filter the store accepts and every
limit that reads as an integer of at least 1 (a number, such a text of the
query string, or the default 10), with an empty cache: there are a number of pages T (the
`totalPages` of every answer) and an arrangement M of the stored posts that
match the filter, each exactly once, in creation-time-descending order, such
that the posts `getAllPosts` returns for the pages 1, 2, ..., T, one page
after the other, are the posts of M in that order (each joined with its author
and its number of comments); every page before the last has exactly `limit`
posts, the last page has between 1 and `limit`, and every page after the last
is empty. `getAllPosts` returns for every page. -/
theorem pages_partition (w : World) (limit published authorId : JsParam) (l : Nat)
    (hl : 1 ≤ l) (hlimit : (limit.orDefault (.num 10)).Reads (l : Int))
    (hempty : w.redis.entries = [])
    (hv : (buildWhere published authorId).valid = true) :
    ∃ (T : Nat) (M : List Post),
      M.Perm (w.store.posts.filter (buildWhere published authorId).test) ∧
      M.Sorted newerFirst ∧
      (∀ p, 1 ≤ p → ∃ res,
        pageAnswer w limit published authorId p = .ok (.postList res) ∧
        res.pagination.totalPages = some (T : Int)) ∧
      pagesConcat w limit published authorId T = M.map w.store.listItem ∧
      (pagesConcat w limit published authorId T).map (fun item => item.post) = M ∧
      (∀ p, 1 ≤ p → p < T →
        (listedPosts (pageAnswer w limit published authorId p)).length = l) ∧
      (1 ≤ T →
        1 ≤ (listedPosts (pageAnswer w limit published authorId T)).length ∧
        (listedPosts (pageAnswer w limit published authorId T)).length ≤ l) ∧
      (∀ p, T < p → listedPosts (pageAnswer w limit published authorId p) = []) := by
  obtain ⟨hperm, hsorted, hlen⟩ :=
    matchingPosts_sorted_perm w.store (buildWhere published authorId)
  have hpage := pageAnswer_empty_cache w limit published authorId l hl hlimit hempty hv
  obtain ⟨hcover, hlast⟩ :=
    ceil_bounds (w.store.posts.filter (buildWhere published authorId).test).length l hl
  have hposts : ∀ i, listedPosts (pageAnswer w limit published authorId (i + 1))
      = (((w.store.matchingPosts (buildWhere published authorId)).drop (i * l)).take l).map
          w.store.listItem := by
    intro i
    rw [hpage i]
    rfl
  have hconcat : pagesConcat w limit published authorId
      (((w.store.posts.filter (buildWhere published authorId).test).length + l - 1) / l)
        = (w.store.matchingPosts (buildWhere published authorId)).map w.store.listItem := by
    unfold pagesConcat
    simp only [hposts]
    have := flatten_slices l _ (w.store.matchingPosts (buildWhere published authorId))
      (by rw [hlen]; exact hcover)
    conv_rhs => rw [← this]
    rw [List.map_flatten, List.map_map]
    rfl
  refine ⟨((w.store.posts.filter (buildWhere published authorId).test).length + l - 1) / l,
    w.store.matchingPosts (buildWhere published authorId), hperm, hsorted, ?_, hconcat, ?_,
    ?_, ?_, ?_⟩
  · intro p hp
    obtain ⟨i, rfl⟩ : ∃ i, p = i + 1 := ⟨p - 1, by omega⟩
    exact ⟨_, hpage i, rfl⟩
  · rw [hconcat, List.map_map]
    have : ((fun item : PostListItem => item.post) ∘ w.store.listItem) = id := by
      funext q
      rfl
    rw [this, List.map_id]
  · intro p hp hpT
    obtain ⟨i, rfl⟩ : ∃ i, p = i + 1 := ⟨p - 1, by omega⟩
    rw [hposts, List.length_map, List.length_take, List.length_drop, hlen]
    generalize (w.store.posts.filter (buildWhere published authorId).test).length = n
      at hcover hlast hpT ⊢
    generalize (n + l - 1) / l = T at hcover hlast hpT
    have hle : (i + 1) * l ≤ (T - 1) * l := Nat.mul_le_mul_right l (by omega)
    have hlt := hlast (by omega)
    rw [Nat.succ_mul] at hle
    generalize i * l = a at hle ⊢
    generalize (T - 1) * l = b at hle hlt
    omega
  · intro hT
    generalize (w.store.posts.filter (buildWhere published authorId).test).length = n
      at hcover hlast hT hlen ⊢
    generalize (n + l - 1) / l = T at hcover hlast hT ⊢
    obtain ⟨i, rfl⟩ : ∃ i, T = i + 1 := ⟨T - 1, by omega⟩
    have hlt := hlast hT
    rw [hposts, List.length_map, List.length_take, List.length_drop, hlen]
    simp only [Nat.add_sub_cancel] at hlt
    generalize i * l = a at hlt ⊢
    omega
  · intro p hp
    obtain ⟨i, rfl⟩ : ∃ i, p = i + 1 :=
      ⟨p - 1, (Nat.sub_add_cancel (Nat.lt_of_le_of_lt (Nat.zero_le _) hp)).symm⟩
    rw [hposts]
    have hnil : (w.store.matchingPosts (buildWhere published authorId)).drop (i * l) = [] := by
      rw [List.drop_eq_nil_iff, hlen]
      generalize (w.store.posts.filter (buildWhere published authorId).test).length = n
        at hcover hp ⊢
      generalize (n + l - 1) / l = T at hcover hp
      have hle : T * l ≤ i * l := Nat.mul_le_mul_right l (by omega)
      omega
    rw [hnil]
    simp

/-- On the sample state with two posts and an empty cache, with limit 1: the
two pages hold Bob's post, the newer one, and then Ada's. -/
theorem pages_partition_witness :
    (∃ (T : Nat) (M : List Post), M.Sorted newerFirst ∧
      pagesConcat sampleWorldTwoPosts (.num (1 : Nat)) .undefined .undefined T
        = M.map sampleWorldTwoPosts.store.listItem) ∧
    (pagesConcat sampleWorldTwoPosts (.num (1 : Nat)) .undefined .undefined 2).map
        (fun item => item.post.title) = ["Post 1", "Original Title"] :=
  ⟨match pages_partition sampleWorldTwoPosts (.num (1 : Nat)) .undefined .undefined 1
       (Nat.le_refl 1) (by decide) (by decide) (by decide) with
   | ⟨T, M, _, hs, _, hc, _⟩ => ⟨T, M, hs, hc⟩,
   by decide⟩

/-! ## C27, amended: the window of the race -/

/-- A write of the readers leaves the flags of the backend as they are. -/
theorem cacheStore_works (r : Redis) (h : r.Works) (key : String) (v : JsonValue) :
    (cacheStore r key v).Works := by
  rcases r with ⟨entries, getFails, setexFails, keysFails, delFails⟩
  obtain ⟨hg, hs, hk, hd⟩ := h
  simp only at hg hs hk hd
  subst hg hs hk hd
  exact ⟨rfl, rfl, rfl, rfl⟩

/-- A read that misses a working cache leaves the store alone and the cache
working, and a second read returns what the store holds. -/
theorem getPostById_twice (postId : String) (w : World) (hw : w.redis.Works)
    (hmiss : cacheLookup w.redis (getPostCacheKey postId) = none) :
    (getPostById postId (getPostById postId w).2).1 = postFromStore w.store postId ∧
    (getPostById postId w).2.store = w.store ∧ (getPostById postId w).2.redis.Works := by
  have h1 := getPostById_miss postId w hmiss
  unfold getPostById postFromStore at *
  simp only [hmiss] at h1 ⊢
  cases hf : w.store.findPostDetail (parseInt postId) with
  | error e => simp only [hmiss, hf]; exact ⟨trivial, trivial, hw⟩
  | ok found =>
    cases found with
    | none => simp only [hmiss, hf]; exact ⟨trivial, trivial, hw⟩
    | some d =>
      simp only [cacheLookup_cacheStore w.redis hw]
      exact ⟨trivial, trivial, cacheStore_works _ hw _ _⟩

/-- The three commands of the reader from the start are the call of
`getPostById`. -/
theorem getPostByIdSteps_three (postId : String) (w : World) :
    getPostByIdSteps postId 3 (.start, w)
      = (.returned (getPostById postId w).1, (getPostById postId w).2) :=
  getPostByIdAlone_eq postId w

/-- The reader after its first command, when the lookup misses. -/
theorem raceStart_one (postId : String) (w : World)
    (hmiss : cacheLookup w.redis (getPostCacheKey postId) = none) :
    raceStart 1 postId w = (.missed, w) := by
  simp only [raceStart, getPostByIdSteps, getPostByIdStep, hmiss]

/-- The reader after its second command, when the lookup misses and the store
holds the post: it holds the post as the store has it at that time. -/
theorem raceStart_two (postId : String) (w : World) (d : PostDetail)
    (hmiss : cacheLookup w.redis (getPostCacheKey postId) = none)
    (hf : w.store.findPostDetail (parseInt postId) = .ok (some d)) :
    raceStart 2 postId w = (.loaded (some d), w) := by
  simp only [raceStart, getPostByIdSteps, getPostByIdStep, hmiss, hf]

/-- The outcome of a race of a reader that misses with a writer that leaves a
working cache without an entry under the key of the post: when the writer runs
before the reader's second command (its read of the store) or after its third
(its write of the cache), a later read returns what the store holds after the
writer; when the writer runs between the second and the third, a later read
returns the post the reader had loaded before. -/
theorem race_outcome (w after : World) (postId : String)
    (hmiss : cacheLookup w.redis (getPostCacheKey postId) = none)
    (ha : after.redis.Works)
    (hinv : cacheLookup after.redis (getPostCacheKey postId) = none) :
    (∀ k, (k = 0 ∨ k = 1 ∨ k = 3) →
      (getPostById postId (raceEnd k postId w after)).1 = postFromStore after.store postId ∧
      (raceEnd k postId w after).store = after.store) ∧
    (∀ d, w.store.findPostDetail (parseInt postId) = .ok (some d) →
      (getPostById postId (raceEnd 2 postId w after)).1 = .ok (.postDetail d) ∧
      (raceEnd 2 postId w after).store = after.store) := by
  have hzero : (getPostByIdSteps postId 3 (.start, after)).2 = (getPostById postId after).2 := by
    rw [getPostByIdSteps_three]
  obtain ⟨htwice, hstore, _⟩ := getPostById_twice postId after ha hinv
  constructor
  · rintro k (rfl | rfl | rfl)
    · have : raceEnd 0 postId w after = (getPostById postId after).2 := by
        rw [← hzero]
        rfl
      rw [this]
      exact ⟨htwice, hstore⟩
    · have : raceEnd 1 postId w after = (getPostById postId after).2 := by
        rw [← hzero]
        simp only [raceEnd, raceStart_one postId w hmiss, getPostByIdSteps, getPostByIdStep, hinv]
      rw [this]
      exact ⟨htwice, hstore⟩
    · have : raceEnd 3 postId w after = after := rfl
      rw [this]
      exact ⟨getPostById_miss postId after hinv, rfl⟩
  · intro d hf
    have : raceEnd 2 postId w after
        = { after with
            redis := cacheStore after.redis (getPostCacheKey postId) (.postDetail d) } := by
      simp only [raceEnd, raceStart_two postId w d hmiss hf, getPostByIdSteps, getPostByIdStep]
    rw [this]
    refine ⟨?_, rfl⟩
    rw [getPostById_cached postId _ (.postDetail d) (cacheLookup_cacheStore _ ha _ _)]

/-- A successful `updatePost` over a working cache leaves the cache working and
without an entry under the key of its id text. -/
theorem updatePost_invalidates (id : String) (data : PostUpdate) (userId : Int) (s : World)
    (hs : s.redis.Works) (h : Succeeds (updatePost id data userId s).1) :
    (updatePost id data userId s).2.redis.Works ∧
    cacheLookup (updatePost id data userId s).2.redis (getPostCacheKey id) = none := by
  obtain ⟨v, hv⟩ := h
  have heq : updatePost id data userId s = (.ok v, (updatePost id data userId s).2) :=
    Prod.ext hv rfl
  have hred := updatePost_redis id data userId s _ v hs heq
  rw [hred]
  exact ⟨Redis.without_works _ (Redis.erase_works _ hs _) _,
    cacheLookup_absent _ _ (Redis.erase_absent s.redis (getPostCacheKey id) _)⟩

/-- A successful `deletePost` over a working cache leaves the cache working and
without an entry under the key of its id text. -/
theorem deletePost_invalidates (id : String) (userId : Int) (s : World)
    (hs : s.redis.Works) (h : Succeeds (deletePost id userId s).1) :
    (deletePost id userId s).2.redis.Works ∧
    cacheLookup (deletePost id userId s).2.redis (getPostCacheKey id) = none := by
  obtain ⟨v, hv⟩ := h
  have heq : deletePost id userId s = (.ok v, (deletePost id userId s).2) :=
    Prod.ext hv rfl
  have hred := deletePost_redis id userId s _ v hs heq
  rw [hred]
  exact ⟨Redis.without_works _ (Redis.erase_works _ hs _) _,
    cacheLookup_absent _ _ (Redis.erase_absent s.redis (getPostCacheKey id) _)⟩

/-- The cache works when the writer of a race starts. -/
theorem raceStart_works (k : Nat) (postId : String) (w : World) (hw : w.redis.Works)
    (hmiss : cacheLookup w.redis (getPostCacheKey postId) = none)
    (hk : k = 0 ∨ k = 1 ∨ k = 3) : (raceStart k postId w).2.redis.Works := by
  rcases hk with rfl | rfl | rfl
  · exact hw
  · rw [raceStart_one postId w hmiss]
    exact hw
  · have : raceStart 3 postId w = getPostByIdSteps postId 3 (.start, w) := rfl
    rw [this, getPostByIdSteps_three]
    exact (getPostById_twice postId w hw hmiss).2.2

/-- C27, amended. For every state with a working cache, every id text whose key
the cache does not hold (the reader misses), and every successful `updatePost`
or `deletePost` through the same id text that runs as a whole between two
commands of the reader: when the writer runs before the reader's read of the
store (before the reader's first or second command) or after the reader's
write of the cache (after its third command), a later `getPostById` returns
what the store holds after the mutation (the updated post, or the 404 after a
deletion). When the writer runs between the reader's read of the store and its
write of the cache, the reader writes the post it had loaded before the
mutation, and a later `getPostById` returns that post (also after a deletion),
until the entry is invalidated again or expires. -/
theorem race_outside_the_window (w : World) (postId : String) (data : PostUpdate)
    (userId : Int) (hw : w.redis.Works)
    (hmiss : cacheLookup w.redis (getPostCacheKey postId) = none) :
    (∀ k, (k = 0 ∨ k = 1 ∨ k = 3) →
      (Succeeds (updatePost postId data userId (raceStart k postId w).2).1 →
        (getPostById postId
            (raceEnd k postId w (updatePost postId data userId (raceStart k postId w).2).2)).1
          = postFromStore (updatePost postId data userId (raceStart k postId w).2).2.store
              postId) ∧
      (Succeeds (deletePost postId userId (raceStart k postId w).2).1 →
        (getPostById postId
            (raceEnd k postId w (deletePost postId userId (raceStart k postId w).2).2)).1
          = postFromStore (deletePost postId userId (raceStart k postId w).2).2.store
              postId)) ∧
    (∀ d, w.store.findPostDetail (parseInt postId) = .ok (some d) →
      raceStart 2 postId w = (.loaded (some d), w) ∧
      (Succeeds (updatePost postId data userId w).1 →
        (getPostById postId (raceEnd 2 postId w (updatePost postId data userId w).2)).1
          = .ok (.postDetail d)) ∧
      (Succeeds (deletePost postId userId w).1 →
        (getPostById postId (raceEnd 2 postId w (deletePost postId userId w).2)).1
          = .ok (.postDetail d))) := by
  constructor
  · intro k hk
    have hs := raceStart_works k postId w hw hmiss hk
    constructor
    · intro hsucc
      obtain ⟨ha, hinv⟩ := updatePost_invalidates postId data userId _ hs hsucc
      exact ((race_outcome w _ postId hmiss ha hinv).1 k hk).1
    · intro hsucc
      obtain ⟨ha, hinv⟩ := deletePost_invalidates postId userId _ hs hsucc
      exact ((race_outcome w _ postId hmiss ha hinv).1 k hk).1
  · intro d hf
    refine ⟨raceStart_two postId w d hmiss hf, ?_, ?_⟩
    · intro hsucc
      obtain ⟨ha, hinv⟩ := updatePost_invalidates postId data userId w hw hsucc
      exact ((race_outcome w _ postId hmiss ha hinv).2 d hf).1
    · intro hsucc
      obtain ⟨ha, hinv⟩ := deletePost_invalidates postId userId w hw hsucc
      exact ((race_outcome w _ postId hmiss ha hinv).2 d hf).1

/-- On the sample state: when Ada's update of the title runs after the reader's
lookup in the cache and before its read of the store, a later read returns the
post as the store holds it after the update, with the new title. -/
theorem race_outside_the_window_witness :
    (getPostById "1"
        (raceEnd 1 "1" sampleWorld
          (updatePost "1" { title := some "Updated Title" } 1
            (raceStart 1 "1" sampleWorld).2).2)).1
      = postFromStore
          (updatePost "1" { title := some "Updated Title" } 1
            (raceStart 1 "1" sampleWorld).2).2.store "1" ∧
    ((updatePost "1" { title := some "Updated Title" } 1
        (raceStart 1 "1" sampleWorld).2).2.store.postById 1).map Post.title
      = some "Updated Title" :=
  ⟨((race_outside_the_window sampleWorld "1" { title := some "Updated Title" } 1
      (by decide) (by decide)).1 1 (Or.inr (Or.inl rfl))).1 (by decide),
   by decide⟩

end BlogApi
